import Mathlib

/-!
# OpenMalaria: emergence calibration, residual spraying, parasite genotypes,
drug action

A shallow embedding of

* `src/model/Transmission/Anopheles/FixedEmergence.cpp`
  (`init2`, `findAngle`, `initIterate`, `update`),
* `src/include/Transmission/IRS.h`
  (`IRSAnophelesParams::byProtection`, `IRS::getInsecticideContent`,
  `IRS::operator&`),
* `src/model/WithinHost/Infection/CommonInfection.cpp`
  (the constructor of `GT::LocusSet`, `GT::LocusSet::include`,
  `Genotype::AlleleComb::cross`, `Genotype::init`, `Genotype::initSingle`,
  `Genotype::sampleGenotype`),
* `src/model/PkPd/Drug/LSTMDrugAllele.cpp`
  (the constructor of `LSTMDrugPD`, `LSTMDrugPD::calcFactor`),

and theorems about them.

## Numbers

A C++ `double` is embedded as `Dbl`: a rational, or one of the three special
values `+inf`, `-inf`, `NaN`.  The special values follow the IEEE-754 rules
the code relies on (`x / 0`, `inf - inf`, every comparison with `NaN` false).
Zero is unsigned (every zero divisor in the embedded code is a sum started
from `0.0`, which is never `-0.0`).

The arithmetic of the code is read in two ways, and each function that
computes with doubles is embedded once for each.

* The exact reading (the operations of `Dbl`, the definitions outside
  `Binary64`): finite arithmetic is exact, with no rounding, no overflow and
  no underflow, and a decimal literal of the source stands for its decimal
  value.  It is used for statements on control flow, on which fields a call
  writes, on indices and on error paths.
* The binary64 reading (`namespace Binary64`): every addition, subtraction,
  multiplication and division is the exact result rounded to the nearest
  binary64 value, ties to even, with overflow to an infinity beyond the
  largest finite double and gradual underflow below `2 ^ (-1022)`; a decimal
  literal (`1e-6`, `.6`, `0.05`, `0.999`) is the double nearest to it; the
  loop counter of `findAngle`, a `double`, is rounded at each `angle += delta`
  like every other value.  Each operation is rounded on its own: the compiler
  is taken to keep every intermediate in binary64 and to fuse no multiply
  with an add.  It is used for every statement on the value a computation
  leaves: sums, averages, the scanned angles, the scale factor over many
  calls, frequencies that must add up to 1.

The drug functions call `exp` and `pow` of the C library.  They are embedded
in the binary64 reading only, and the C library is a parameter
(`CLibrary`): two functions from doubles to doubles.

A `TimeStep` is embedded as an integer.  A `uint32_t` is a natural number
reduced modulo `2^32` at each cast, a `std::map` keyed by `double` is a list of
entries sorted by key, and a throw or a failed assertion is an error value.

## Vectors

`vecDay<double>` vectors are embedded as functions `Nat → Dbl` read on the
index range of the vector: one year for `forcedS_v` and `mosqEmergeRate`, five
years for `quinquennialS_v`.  A `std::vector` of structs is a list.
-/

namespace OM

/-! ## The `double` model -/

/-- A `double`: an exact finite rational, plus or minus infinity, or NaN. -/
inductive Dbl where
  | fin (q : ℚ)
  | pinf
  | ninf
  | nan
  deriving DecidableEq

namespace Dbl

/-- The sign class of a value, used by multiplication and division:
`some 1`, `some 0`, `some (-1)`, or `none` for NaN. -/
def sgn : Dbl → Option Int
  | fin q => some (if 0 < q then 1 else if q < 0 then -1 else 0)
  | pinf => some 1
  | ninf => some (-1)
  | nan => none

/-- IEEE addition with exact finite sums; `inf + -inf` is NaN. -/
def add : Dbl → Dbl → Dbl
  | nan, _ => nan
  | _, nan => nan
  | fin a, fin b => fin (a + b)
  | pinf, ninf => nan
  | ninf, pinf => nan
  | pinf, _ => pinf
  | _, pinf => pinf
  | ninf, _ => ninf
  | _, ninf => ninf

/-- IEEE negation. -/
def neg : Dbl → Dbl
  | fin a => fin (-a)
  | pinf => ninf
  | ninf => pinf
  | nan => nan

/-- IEEE subtraction, `a - b = a + (-b)`. -/
def sub (a b : Dbl) : Dbl := add a (neg b)

/-- IEEE multiplication with exact finite products; `inf * 0` is NaN. -/
def mul : Dbl → Dbl → Dbl
  | fin a, fin b => fin (a * b)
  | x, y =>
    match sgn x, sgn y with
    | some s, some t =>
      if s = 0 ∨ t = 0 then nan else if s = t then pinf else ninf
    | _, _ => nan

/-- IEEE division with exact finite quotients; the divisor zero is `+0`, so
`a / 0` is `+inf`, `-inf` or NaN as `a` is positive, negative or zero. -/
def div : Dbl → Dbl → Dbl
  | nan, _ => nan
  | _, nan => nan
  | fin a, fin b =>
    if b = 0 then (if 0 < a then pinf else if a < 0 then ninf else nan)
    else fin (a / b)
  | fin _, _ => fin 0
  | pinf, fin b => if b < 0 then ninf else pinf
  | ninf, fin b => if b < 0 then pinf else ninf
  | _, _ => nan

/-- The comparison `a < b` of two doubles; false when either is NaN. -/
def lt : Dbl → Dbl → Bool
  | fin a, fin b => decide (a < b)
  | fin _, pinf => true
  | ninf, fin _ => true
  | ninf, pinf => true
  | _, _ => false

/-- The comparison `a > b` is `b < a`. -/
def gt (a b : Dbl) : Bool := lt b a

/-- The comparison `a == b` of two doubles; false when either is NaN. -/
def eq : Dbl → Dbl → Bool
  | fin a, fin b => decide (a = b)
  | pinf, pinf => true
  | ninf, ninf => true
  | _, _ => false

/-- The C library's `fabs`. -/
def fabs : Dbl → Dbl
  | fin a => fin |a|
  | pinf => pinf
  | ninf => pinf
  | nan => nan

/-- A value is finite when it is neither infinite nor NaN. -/
def isFinite : Dbl → Bool
  | fin _ => true
  | _ => false

instance : Add Dbl := ⟨add⟩
instance : Sub Dbl := ⟨sub⟩
instance : Mul Dbl := ⟨mul⟩
instance : Div Dbl := ⟨div⟩
instance : Neg Dbl := ⟨neg⟩

/-- The comparison `a <= b` of two doubles; false when either is NaN. -/
def le : Dbl → Dbl → Bool
  | fin a, fin b => decide (a ≤ b)
  | fin _, pinf => true
  | ninf, fin _ => true
  | ninf, pinf => true
  | pinf, pinf => true
  | ninf, ninf => true
  | _, _ => false

instance : Zero Dbl := ⟨fin 0⟩

/-- Addition of doubles is associative and commutative with unit `0.0`, so
sums of doubles can be regrouped and reordered (in this model, where finite
sums are exact). -/
instance : AddCommMonoid Dbl where
  add_assoc := by
    intro a b c
    show Dbl.add (Dbl.add a b) c = Dbl.add a (Dbl.add b c)
    cases a <;> cases b <;> cases c <;> simp [Dbl.add, add_assoc]
  zero_add := by
    intro a
    show Dbl.add (fin 0) a = a
    cases a <;> simp [Dbl.add]
  add_zero := by
    intro a
    show Dbl.add a (fin 0) = a
    cases a <;> simp [Dbl.add]
  add_comm := by
    intro a b
    show Dbl.add a b = Dbl.add b a
    cases a <;> cases b <;> simp [Dbl.add, add_comm]
  nsmul := nsmulRec

end Dbl

open Dbl

/-! ## Constants and collaborators that live outside the embedded file -/

/-- The value of the C library constant `M_PI`: the double nearest to pi,
`0x400921FB54442D18`, as an exact rational. -/
def M_PI : ℚ := 884279719003555 / 281474976710656

/-- Modelled from the spec: `SimTime::oneYear()` counted in days; the
`SimTime` class is not part of the embedded sources, the spec fixes the year
at 365 days. -/
def oneYear : Nat := 365

/-- Modelled from the spec: `SimTime::fromYearsI(5)` counted in days, the
length `5 x 365` of the five-year ring buffer. -/
def fiveYears : Nat := 5 * oneYear

/-- Modelled from the spec: `util::mod_nn`, the non-negative remainder used
to index a periodic series by day-of-period. -/
def mod_nn (a : Int) (b : Nat) : Nat := (a % (b : Int)).toNat

/-- Modelled from the spec: `vectors::sum` over a vector of length `n`, the
left-to-right sum of its entries started from `0.0`. -/
def vectors.sum (n : Nat) (vec : Nat → Dbl) : Dbl :=
  (List.range n).foldl (fun r i => r + vec i) (fin 0)

/-- Modelled from the spec: `vectors::scale`, which multiplies every entry of
a vector by the scalar `a` in place. -/
def vectors.scale (vec : Nat → Dbl) (a : Dbl) : Nat → Dbl :=
  fun i => vec i * a

/-- Library routines the embedded code calls but whose bodies are outside it:
the inverse Fourier synthesis `vectors::expIDFT (out, FC, rAngle)`, given here
as the curve it writes, and the C library's `log`. The theorems hold for every
choice of them. -/
structure Externals where
  expIDFT : List Dbl → Dbl → Nat → Dbl
  log : Dbl → Dbl

/-- The arguments of one `MosqTransmission::initState` call. -/
structure InitStateArgs where
  tsP_A : Dbl
  tsP_df : Dbl
  tsP_dff : Dbl
  initNvFromSv : Dbl
  initOvFromSv : Dbl
  forcedS_v : Nat → Dbl

/-- The transmission collaborator, observed through the calls the emergence
engine makes on it, oldest first. -/
structure MosqTransmission where
  initStateCalls : List InitStateArgs
  initIterateScaleCalls : List Dbl

/-! ## The emergence engine -/

/-- The fields of `FixedEmergence` (with those inherited from
`EmergenceModel`) that the embedded functions read or write. -/
structure FixedEmergence where
  FSCoeffic : List Dbl
  EIRRotateAngle : Dbl
  initNvFromSv : Dbl
  initOvFromSv : Dbl
  forcedS_v : Nat → Dbl
  mosqEmergeRate : Nat → Dbl
  quinquennialS_v : Nat → Dbl
  initNv0FromSv : Dbl
  scaleFactor : Dbl
  shiftAngle : Dbl

/-- The two exceptions `initIterate` throws, both of category
`Error::VectorFitting`. -/
inductive FitError where
  /-- The exception "Simulated S_v is approx 0 (i.e. mosquitoes are not
  infectious, before interventions) ...". -/
  | simulatedSvApproxZero
  /-- The exception "factor out of bounds". -/
  | factorOutOfBounds
  deriving DecidableEq

/-- The statement `FSCoeffic[0] += x`. -/
def addToFirst (x : Dbl) : List Dbl → List Dbl
  | [] => []
  | c :: cs => (c + x) :: cs

/-- `FixedEmergence::init2`: the state of the engine and of the transmission
collaborator after the call. -/
def FixedEmergence.init2 (ext : Externals) (self : FixedEmergence)
    (tsP_A tsP_df tsP_dff EIRtoS_v : Dbl) (transmission : MosqTransmission) :
    FixedEmergence × MosqTransmission :=
  let initNv0FromSv := self.initNvFromSv * (fin 1 - tsP_A - tsP_df)
  let FSCoeffic := addToFirst (ext.log EIRtoS_v) self.FSCoeffic
  let forcedS_v := ext.expIDFT FSCoeffic self.EIRRotateAngle
  let transmission := { transmission with
    initStateCalls := transmission.initStateCalls ++
      [{ tsP_A := tsP_A, tsP_df := tsP_df, tsP_dff := tsP_dff,
         initNvFromSv := self.initNvFromSv, initOvFromSv := self.initOvFromSv,
         forcedS_v := forcedS_v }] }
  let mosqEmergeRate := vectors.scale forcedS_v initNv0FromSv
  ({ self with
      initNv0FromSv := initNv0FromSv
      FSCoeffic := FSCoeffic
      forcedS_v := forcedS_v
      mosqEmergeRate := mosqEmergeRate
      scaleFactor := fin 1
      shiftAngle := fin 0 },
   transmission)

/-- The inner loop of `findAngle`: the L1 distance between two one-year
curves, summed day by day from `0.0`. -/
def l1Distance (temp sim : Nat → Dbl) : Dbl :=
  (List.range oneYear).foldl (fun sum i => sum + fabs (temp i - sim i)) (fin 0)

/-- The scan loop of `findAngle`, `for (angle = -M_PI; angle < M_PI;
angle += delta)`, from the loop state `(angle, min, minAngle)`. The first
argument bounds the number of iterations still allowed. -/
def findAngleLoop (ext : Externals) (EIRRotageAngle : Dbl) (FSCoeffic : List Dbl)
    (sim : Nat → Dbl) (delta : Dbl) : Nat → Dbl → Dbl → Dbl → Dbl
  | 0, _, _, minAngle => minAngle
  | fuel + 1, angle, min, minAngle =>
    if lt angle (fin M_PI) then
      let temp := ext.expIDFT FSCoeffic (EIRRotageAngle + angle)
      let sum := l1Distance temp sim
      if lt sum min then
        findAngleLoop ext EIRRotageAngle FSCoeffic sim delta fuel (angle + delta) sum angle
      else
        findAngleLoop ext EIRRotageAngle FSCoeffic sim delta fuel (angle + delta) min minAngle
    else minAngle

/-- The step `delta = 2 * M_PI / 365.0` of the scan. -/
def findAngleDelta : Dbl := fin 2 * fin M_PI / fin 365

/-- An iteration allowance for the scan loop in the exact reading, where the
loop leaves through its own condition after 365 iterations. The scan with the
counter rounded at each step, as the compiled code runs it, is
`Binary64.findAngleLoop`; the statements on the scanned angles are made
there. -/
def findAngleFuel : Nat := 366

/-- The function `findAngle`: the scanned offset of least L1 distance. -/
def findAngle (ext : Externals) (EIRRotageAngle : Dbl) (FSCoeffic : List Dbl)
    (sim : Nat → Dbl) : Dbl :=
  findAngleLoop ext EIRRotageAngle FSCoeffic sim findAngleDelta findAngleFuel
    (-(fin M_PI)) pinf (fin 0)

/-- The averaging loop of `initIterate` after its first `i` iterations:
`avgAnnualS_v[mod_nn(i, oneYear)] += quinquennialS_v[i] / 5.0`, from the zero
vector. -/
def avgAnnualLoop (quinquennialS_v : Nat → Dbl) : Nat → Nat → Dbl
  | 0 => fun _ => fin 0
  | i + 1 =>
    let avg := avgAnnualLoop quinquennialS_v i
    Function.update avg (i % oneYear) (avg (i % oneYear) + quinquennialS_v i / fin 5)

/-- The local `avgAnnualS_v` of `initIterate` once the averaging loop has run
over the five years. -/
def avgAnnualS_v (quinquennialS_v : Nat → Dbl) : Nat → Dbl :=
  avgAnnualLoop quinquennialS_v fiveYears

/-- The local `factor` of `initIterate`. -/
def FixedEmergence.factor (self : FixedEmergence) : Dbl :=
  vectors.sum oneYear self.forcedS_v /
    vectors.sum oneYear (avgAnnualS_v self.quinquennialS_v)

/-- `FixedEmergence::initIterate`: either the exception thrown, or the state of
the engine and of the transmission collaborator after the call together with
the returned boolean. -/
def FixedEmergence.initIterate (ext : Externals) (self : FixedEmergence)
    (transmission : MosqTransmission) :
    Except FitError (FixedEmergence × MosqTransmission × Bool) :=
  let avg := avgAnnualS_v self.quinquennialS_v
  let factor := vectors.sum oneYear self.forcedS_v / vectors.sum oneYear avg
  if !(gt factor (fin (1 / 1000000)) && lt factor (fin 1000000)) then
    if gt factor (fin 1000000) &&
        lt (vectors.sum fiveYears self.quinquennialS_v) (fin (1 / 1000)) then
      Except.error FitError.simulatedSvApproxZero
    else if Dbl.eq (vectors.sum oneYear self.forcedS_v) (fin 0) then
      Except.ok (self, transmission, false)
    else
      Except.error FitError.factorOutOfBounds
  else
    let factorDiff := (self.scaleFactor * factor - self.scaleFactor) * fin (3 / 5)
    let scaleFactor := self.scaleFactor + factorDiff
    let shiftAngle := self.shiftAngle + findAngle ext self.EIRRotateAngle self.FSCoeffic avg
    let mosqEmergeRate :=
      vectors.scale (ext.expIDFT self.FSCoeffic (-shiftAngle)) (scaleFactor * self.initNv0FromSv)
    let transmission := { transmission with
      initIterateScaleCalls := transmission.initIterateScaleCalls ++ [scaleFactor] }
    Except.ok
      ({ self with
          scaleFactor := scaleFactor
          shiftAngle := shiftAngle
          mosqEmergeRate := mosqEmergeRate },
       transmission,
       gt (fabs (factor - fin 1)) (fin (1 / 20)))

/-- `FixedEmergence::update`: the state after the call and the returned
emergence value. `interventionSurvival` is the value `interventionSurvival()`
has at the call; the argument `_nOvipositing` is ignored, as in the source. -/
def FixedEmergence.update (self : FixedEmergence) (interventionSurvival : Dbl)
    (d0 : Int) (_nOvipositing : Dbl) (S_v : Dbl) : FixedEmergence × Dbl :=
  let d5Year := mod_nn (d0 + 1) fiveYears
  let dYear1 := mod_nn d0 oneYear
  ({ self with quinquennialS_v := Function.update self.quinquennialS_v d5Year S_v },
   self.mosqEmergeRate dYear1 * interventionSurvival)

/-! ## Call sequences -/

/-- One call on the engine by the simulation driver. -/
inductive Call where
  | initIterate
  | update (interventionSurvival : Dbl) (d0 : Int) (nOvipositing : Dbl) (S_v : Dbl)

/-- What the caller is left with after an `initIterate` call: the updated
engine and collaborator when the call returns, and both as they were when it
throws, since the source throws before its first write to a member. -/
def afterInitIterate (s : FixedEmergence × MosqTransmission) :
    Except FitError (FixedEmergence × MosqTransmission × Bool) →
      FixedEmergence × MosqTransmission
  | Except.ok (st, tr, _) => (st, tr)
  | Except.error _ => s

/-- The engine and its collaborator after one call. -/
def Call.apply (ext : Externals) (s : FixedEmergence × MosqTransmission) :
    Call → FixedEmergence × MosqTransmission
  | Call.initIterate => afterInitIterate s (s.1.initIterate ext s.2)
  | Call.update interventionSurvival d0 nOvipositing S_v =>
    ((s.1.update interventionSurvival d0 nOvipositing S_v).1, s.2)

/-- The engine and its collaborator after a sequence of calls. -/
def runCalls (ext : Externals) (s : FixedEmergence × MosqTransmission)
    (calls : List Call) : FixedEmergence × MosqTransmission :=
  calls.foldl (Call.apply ext) s

/-! ## Indoor residual spraying (`src/include/Transmission/IRS.h`) -/

/-- Modelled from the spec: the heterogeneity token `DecayFuncHet`, an opaque
value sampled once per deployment; the class is declared outside the embedded
sources. -/
structure DecayFuncHet where
  value : Dbl
  deriving DecidableEq

/-- The fields of `IRSParams` the embedded functions read: the maximum dose
and the configured decay function, given by its `eval (elapsed, het)`. A
`TimeStep` is embedded as an integer. -/
structure IRSParams where
  maxInsecticide : Dbl
  insecticideDecay : Int → DecayFuncHet → Dbl

/-- The fields of `IRSAnophelesParams` read by `byProtection`. -/
structure IRSAnophelesParams where
  proportionProtected : Dbl
  proportionUnprotected : Dbl

/-- `IRSAnophelesParams::byProtection`. -/
def IRSAnophelesParams.byProtection (self : IRSAnophelesParams) (x : Dbl) : Dbl :=
  x * self.proportionProtected + self.proportionUnprotected

/-- The state of one `IRS` instance. -/
structure IRS where
  deployTime : Int
  initialInsecticide : Dbl
  insecticideDecayHet : DecayFuncHet
  deriving DecidableEq

/-- `IRS::getInsecticideContent`; `simulation` is the value of the global
`TimeStep::simulation` at the call. -/
def IRS.getInsecticideContent (self : IRS) (simulation : Int) (params : IRSParams) : Dbl :=
  let effectSurvival :=
    params.insecticideDecay (simulation - self.deployTime) self.insecticideDecayHet
  self.initialInsecticide * effectSurvival

/-- Modelled from the spec: the instance the `IRS` constructor builds, whose
body is outside the embedded sources: "deployTime defaults to never until
first deployment, in which case dose is defined as 0". The value of
`TimeStep::never` and the initial token are taken as given. -/
def IRS.neverDeployed (never : Int) (het : DecayFuncHet) : IRS where
  deployTime := never
  initialInsecticide := fin 0
  insecticideDecayHet := het

/-- Modelled from the spec: one primitive field of a checkpoint stream, which
is "an ordered sequence of primitive fields, in exactly the order written";
the stream operators of the primitive types are outside the embedded
sources. -/
inductive CheckpointField where
  | timeStep (t : Int)
  | double (x : Dbl)
  | decayFuncHet (h : DecayFuncHet)
  deriving DecidableEq

/-- `IRS::operator&` on an output stream: the fields appended, in order. -/
def IRS.checkpointWrite (self : IRS) (stream : List CheckpointField) : List CheckpointField :=
  stream ++ [CheckpointField.timeStep self.deployTime,
    CheckpointField.double self.initialInsecticide,
    CheckpointField.decayFuncHet self.insecticideDecayHet]

/-- `IRS::operator&` on an input stream: the three fields are read in order
into the instance, whose old values are overwritten; the result is the
instance and the rest of the stream, or nothing when the stream does not
start with three fields of the right kinds. -/
def IRS.checkpointRead (_self : IRS) : List CheckpointField → Option (IRS × List CheckpointField)
  | CheckpointField.timeStep t :: CheckpointField.double x ::
      CheckpointField.decayFuncHet h :: rest =>
    some ({ deployTime := t, initialInsecticide := x, insecticideDecayHet := h }, rest)
  | _ => none

/-! ## Parasite genotypes (`src/model/WithinHost/Infection/CommonInfection.cpp`) -/

/-- The scenario element `scnXml::ParasiteAllele`, through its getters. -/
structure ParasiteAllele where
  name : String
  initialFrequency : Dbl
  fitness : Dbl

/-- The scenario element `scnXml::ParasiteLocus`, through its getters. -/
structure ParasiteLocus where
  name : String
  allele : List ParasiteAllele

/-- The class `Genotype::AlleleComb`: a set of allele codes with an initial
frequency and a fitness. -/
structure AlleleComb where
  alleles : Finset Nat
  init_freq : Dbl
  fitness : Dbl

/-- The constructor `AlleleComb (alleleCode, init_freq, fitness)`. -/
def AlleleComb.single (alleleCode : Nat) (init_freq fitness : Dbl) : AlleleComb where
  alleles := {alleleCode}
  init_freq := init_freq
  fitness := fitness

/-- The globals `GT::alleleCodes` and `GT::nextAlleleCode`. -/
structure AlleleCodes where
  alleleCodes : String → String → Option Nat
  nextAlleleCode : Nat

/-- The error `util::xml_scenario_error` of the `LocusSet` constructor, with
the three values its message reports. -/
structure AlleleFrequencyError where
  nAlleles : Nat
  locus : String
  cum_p : Dbl

/-- The struct `GT::LocusSet`. -/
structure LocusSet where
  alleles : List AlleleComb

/-- The loop of the `LocusSet` constructor over the alleles still to visit,
from the loop state `(codes, cum_p, alleles)`. The code counter is a
`uint32_t`. -/
def LocusSet.collect (locus : String) :
    List ParasiteAllele → AlleleCodes → Dbl → List AlleleComb →
      AlleleCodes × Dbl × List AlleleComb
  | [], codes, cum_p, alleles => (codes, cum_p, alleles)
  | elt_a :: rest, codes, cum_p, alleles =>
    let alleleCode := codes.nextAlleleCode
    let codes : AlleleCodes :=
      { nextAlleleCode := (codes.nextAlleleCode + 1) % 2 ^ 32
        alleleCodes := fun l a =>
          if l = locus ∧ a = elt_a.name then some alleleCode else codes.alleleCodes l a }
    LocusSet.collect locus rest codes (cum_p + elt_a.initialFrequency)
      (alleles ++ [AlleleComb.single alleleCode elt_a.initialFrequency elt_a.fitness])

/-- The statement `alleles[0].init_freq += x`. -/
def addToFirstFreq (x : Dbl) : List AlleleComb → List AlleleComb
  | [] => []
  | a :: rest => { a with init_freq := a.init_freq + x } :: rest

/-- The constructor `GT::LocusSet::LocusSet (elt_l)`: either the error thrown,
or the set built together with the globals after the call (the globals left
behind by a throwing call are not followed). -/
def LocusSet.new (codes : AlleleCodes) (elt_l : ParasiteLocus) :
    Except AlleleFrequencyError (LocusSet × AlleleCodes) :=
  match LocusSet.collect elt_l.name elt_l.allele codes (fin 0) [] with
  | (codes, cum_p, alleles) =>
    if lt cum_p (fin (999 / 1000)) || gt cum_p (fin (1001 / 1000)) then
      Except.error { nAlleles := alleles.length, locus := elt_l.name, cum_p := cum_p }
    else
      Except.ok ({ alleles := addToFirstFreq (fin 1 - cum_p) alleles }, codes)

/-- `Genotype::AlleleComb::cross`: the combination of two allele
combinations. The code set starts from the first code of `that` and receives
the codes of both, so it is their union. -/
def AlleleComb.cross (self that : AlleleComb) : AlleleComb where
  alleles := self.alleles ∪ that.alleles
  init_freq := self.init_freq * that.init_freq
  fitness := self.fitness * that.fitness

/-- `GT::LocusSet::include`: the two nested loops push `alleles[i].cross
(that.alleles[j])` for every `i`, and for every `j` inside it. -/
def LocusSet.include (self that : LocusSet) : LocusSet where
  alleles := (self.alleles.map (fun a => that.alleles.map (fun b => a.cross b))).flatten

/-- The enum `GT::SampleMode`. -/
inductive SampleMode where
  | SAMPLE_FIRST
  | SAMPLE_INITIAL
  | SAMPLE_TRACKING
  deriving DecidableEq

/-- The C++ standard library's `std::map<double,uint32_t>::insert`, on the
map kept as the list of its entries in increasing key order: the pair is put
in its place, unless an entry with an equivalent key is already there. -/
def mapInsert (k : Dbl) (v : Nat) : List (Dbl × Nat) → List (Dbl × Nat)
  | [] => [(k, v)]
  | (k', v') :: rest =>
    if lt k k' then (k, v) :: (k', v') :: rest
    else if lt k' k then (k', v') :: mapInsert k v rest
    else (k', v') :: rest

/-- The C++ standard library's `std::map::upper_bound`: the first entry whose
key is greater than `x`, or nothing (the iterator `end ()`). -/
def upperBound (x : Dbl) : List (Dbl × Nat) → Option (Dbl × Nat)
  | [] => none
  | (k, v) :: rest => if lt x k then some (k, v) else upperBound x rest

/-- The globals of namespace `GT`. -/
structure GT where
  current_mode : SampleMode
  inerv_mode : SampleMode
  cum_initial_freqs : List (Dbl × Nat)
  codes : AlleleCodes
  genotypes : List AlleleComb

/-- The values the globals of `GT` are defined with. -/
def GT.initial : GT where
  current_mode := SampleMode.SAMPLE_FIRST
  inerv_mode := SampleMode.SAMPLE_FIRST
  cum_initial_freqs := []
  codes := { alleleCodes := fun _ _ => none, nextAlleleCode := 0 }
  genotypes := []

/-- The scenario element `scnXml::ParasiteGenotypology`, through its getters.
`getLocus ()[0]` is read unconditionally, so the sequence of loci is given as
its first element and the others. -/
structure ParasiteGenotypology where
  samplingMode : String
  firstLocus : ParasiteLocus
  otherLoci : List ParasiteLocus

/-- The part of `scnXml::Scenario` that `Genotype::init` reads. -/
structure Scenario where
  getParasiteGenotypology : Option ParasiteGenotypology

/-- What ends `Genotype::init` early: one of its three `xml_scenario_error`
exceptions, or the failure of its assertion. -/
inductive InitError where
  /-- "parasiteGenotypology/samplingMode: expected initial or tracking". -/
  | samplingMode
  /-- The error of a `LocusSet` constructor. -/
  | alleleFrequency (e : AlleleFrequencyError)
  /-- "decision tree (random node): expected probability sum to be 1.0". -/
  | probabilitySum (cum_p : Dbl)
  /-- The assertion `genotype_id == i`. -/
  | assertion

/-- The loop of `Genotype::init` over the loci after the first: each is built
and included into `loci`. A throwing constructor ends the loop; the globals
it leaves are those after its own loop over the alleles. -/
def includeLoci : List ParasiteLocus → LocusSet → AlleleCodes →
    Except (AlleleFrequencyError × AlleleCodes) (LocusSet × AlleleCodes)
  | [], loci, codes => Except.ok (loci, codes)
  | elt_l :: rest, loci, codes =>
    match LocusSet.new codes elt_l with
    | Except.error e =>
      Except.error (e, (LocusSet.collect elt_l.name elt_l.allele codes (fin 0) []).1)
    | Except.ok (newLocus, codes) => includeLoci rest (loci.include newLocus) codes

/-- The loop of `Genotype::init` that fills `GT::cum_initial_freqs`, over the
genotypes from index `i` on, from the loop state `(cum_p, table)`; nothing
when the assertion `genotype_id == i` on the `uint32_t` cast fails. -/
def cumInitialFreqs : List AlleleComb → Nat → Dbl → List (Dbl × Nat) →
    Option (Dbl × List (Dbl × Nat))
  | [], _, cum_p, table => some (cum_p, table)
  | genotype :: rest, i, cum_p, table =>
    let cum_p := cum_p + genotype.init_freq
    let genotype_id := i % 2 ^ 32
    if genotype_id = i then
      cumInitialFreqs rest (i + 1) cum_p (mapInsert cum_p genotype_id table)
    else none

/-- The second half of `Genotype::init`, from the swap of the combined list
into `GT::genotypes` on. -/
def Genotype.initTable (g : GT) (loci : LocusSet) : GT × Option InitError :=
  let g := { g with genotypes := loci.alleles }
  match cumInitialFreqs g.genotypes 0 (fin 0) g.cum_initial_freqs with
  | none => (g, some InitError.assertion)
  | some (cum_p, table) =>
    let g := { g with cum_initial_freqs := table }
    if lt cum_p (fin 1) || gt cum_p (fin (1001 / 1000)) then
      (g, some (InitError.probabilitySum cum_p))
    else (g, none)

/-- The first half of `Genotype::init` after the sampling mode is accepted:
the list of all allele combinations is built locus by locus. -/
def Genotype.initLoci (g : GT) (genotypology : ParasiteGenotypology) :
    GT × Option InitError :=
  match LocusSet.new g.codes genotypology.firstLocus with
  | Except.error e =>
    ({ g with codes := (LocusSet.collect genotypology.firstLocus.name
        genotypology.firstLocus.allele g.codes (fin 0) []).1 },
      some (InitError.alleleFrequency e))
  | Except.ok (loci, codes) =>
    match includeLoci genotypology.otherLoci loci codes with
    | Except.error (e, codes) => ({ g with codes := codes }, some (InitError.alleleFrequency e))
    | Except.ok (loci, codes) => Genotype.initTable { g with codes := codes } loci

/-- `Genotype::initSingle`. -/
def Genotype.initSingle (g : GT) : GT :=
  { g with genotypes := [AlleleComb.single 0 (fin 1) (fin 1)] }

/-- `Genotype::init`: the globals after the call, and the error that ended it
if one did. The globals are followed up to the throw. -/
def Genotype.init (g : GT) (scenario : Scenario) : GT × Option InitError :=
  match scenario.getParasiteGenotypology with
  | some genotypology =>
    let g := { g with current_mode := SampleMode.SAMPLE_INITIAL }
    if genotypology.samplingMode = "initial" then
      Genotype.initLoci { g with inerv_mode := SampleMode.SAMPLE_INITIAL } genotypology
    else if genotypology.samplingMode = "tracking" then
      Genotype.initLoci { g with inerv_mode := SampleMode.SAMPLE_TRACKING } genotypology
    else (g, some InitError.samplingMode)
  | none => (Genotype.initSingle g, none)

/-- A failed assertion of `Genotype::sampleGenotype`. -/
inductive SampleError where
  /-- The assertion `it != GT::cum_initial_freqs.end ()`. -/
  | noUpperBound
  /-- The statement `assert (false)` of the tracking mode. -/
  | notImplemented
  deriving DecidableEq

/-- `Genotype::sampleGenotype`; `sample` is the value `util::random::
uniform_01 ()` returns at the call. -/
def Genotype.sampleGenotype (g : GT) (sample : Dbl) : Except SampleError Nat :=
  match g.current_mode with
  | SampleMode.SAMPLE_FIRST => Except.ok 0
  | SampleMode.SAMPLE_INITIAL =>
    match upperBound sample g.cum_initial_freqs with
    | some (_, genotype_id) => Except.ok genotype_id
    | none => Except.error SampleError.noUpperBound
  | SampleMode.SAMPLE_TRACKING => Except.error SampleError.notImplemented

/-! ## Binary64 arithmetic

The embedding above follows every finite value exactly. Where a claim depends
on how results are rounded, the functions are embedded a second time, in the
namespace `Binary64`, statement by statement as above but with every addition,
subtraction, multiplication and division rounded as IEEE-754 binary64 rounds
it: to the nearest representable value, ties to the one with an even last bit,
with overflow to an infinity and gradual underflow. Comparisons, negation and
`fabs` are exact in binary64. A decimal literal of the source is the double
nearest to its decimal value. Zero stays unsigned. -/

namespace Binary64

/-- The power `2 ^ k` for an integer `k`. -/
def pow2 (k : Int) : ℚ :=
  if 0 ≤ k then ((2 ^ k.toNat : Nat) : ℚ) else 1 / ((2 ^ (-k).toNat : Nat) : ℚ)

/-- The number of halvings that take `n` below 2, at most `fuel` of them. -/
def log2Fuel : Nat → Nat → Nat
  | 0, _ => 0
  | fuel + 1, n => if n < 2 then 0 else log2Fuel fuel (n / 2) + 1

/-- One step of the search for the binary logarithm of `n`: the candidate `lo`
raised by `b` when `2 ^ (lo + b) ≤ n`. -/
def bitStep (n b lo : Nat) : Nat := if 2 ^ (lo + b) ≤ n then lo + b else lo

/-- The integer part of the binary logarithm of `n ≥ 1`: by a search over
twelve bits below `2 ^ 4096`, by counting halvings from there on. -/
def log2 (n : Nat) : Nat :=
  if n < 2 ^ 4096 then
    bitStep n 1 (bitStep n 2 (bitStep n 4 (bitStep n 8 (bitStep n 16 (bitStep n 32
      (bitStep n 64 (bitStep n 128 (bitStep n 256 (bitStep n 512 (bitStep n 1024
        (bitStep n 2048 0)))))))))))
  else log2Fuel n n

/-- The binary exponent of `a > 0`: the integer `e` with
`2 ^ e ≤ a < 2 ^ (e + 1)`. -/
def ilog2 (a : ℚ) : Int :=
  let k : Int := (log2 a.num.natAbs : Int) - (log2 a.den : Int)
  if pow2 k ≤ a then k else k - 1

/-- The integer nearest to `m`, the even one of the two when `m` is halfway
between them. -/
def roundHalfEven (m : ℚ) : Int :=
  let f := ⌊m⌋
  if m - f < 1 / 2 then f else if 1 / 2 < m - f then f + 1 else if f % 2 = 0 then f else f + 1

/-- The spacing of the binary64 values around `q ≠ 0`: `2 ^ (e - 52)` for the
binary exponent `e` of `|q|`, and `2 ^ (-1074)` below `2 ^ (-1022)`, where the
values are subnormal. -/
def ulp (q : ℚ) : ℚ := pow2 (max (ilog2 |q|) (-1022) - 52)

/-- The multiple of `ulp q` nearest to `q`, ties to the even multiple: the
rounded value when the exponent range has no upper end. -/
def roundFin (q : ℚ) : ℚ := (roundHalfEven (q / ulp q) : ℚ) * ulp q

/-- Rounding of a rational to binary64: the nearest value, an infinity when
that reaches `2 ^ 1024`. -/
def round64 (q : ℚ) : Dbl :=
  if q = 0 then fin 0
  else if pow2 1024 ≤ |roundFin q| then (if 0 < q then pinf else ninf)
  else fin (roundFin q)

/-- Rounding of the exact result of an operation: infinities and NaN stay. -/
def rnd : Dbl → Dbl
  | fin q => round64 q
  | x => x

/-- Binary64 addition. -/
def add64 (x y : Dbl) : Dbl := rnd (x + y)

/-- Binary64 subtraction. -/
def sub64 (x y : Dbl) : Dbl := rnd (x - y)

/-- Binary64 multiplication. -/
def mul64 (x y : Dbl) : Dbl := rnd (x * y)

/-- Binary64 division. -/
def div64 (x y : Dbl) : Dbl := rnd (x / y)

/-- A decimal literal of the source: the double nearest to its value. -/
def lit (q : ℚ) : Dbl := round64 q

/-! ### The emergence engine in binary64 -/

/-- Modelled from the spec: `vectors::sum` over a vector of length `n`, the
left-to-right sum of its entries started from `0.0`, in binary64. -/
def vectors.sum (n : Nat) (vec : Nat → Dbl) : Dbl :=
  (List.range n).foldl (fun r i => add64 r (vec i)) (fin 0)

/-- Modelled from the spec: `vectors::scale`, which multiplies every entry of
a vector by the scalar `a` in place, in binary64. -/
def vectors.scale (vec : Nat → Dbl) (a : Dbl) : Nat → Dbl :=
  fun i => mul64 (vec i) a

/-- The statement `FSCoeffic[0] += x` in binary64. -/
def addToFirst (x : Dbl) : List Dbl → List Dbl
  | [] => []
  | c :: cs => add64 c x :: cs

/-- `FixedEmergence::init2` in binary64. -/
def FixedEmergence.init2 (ext : Externals) (self : FixedEmergence)
    (tsP_A tsP_df tsP_dff EIRtoS_v : Dbl) (transmission : MosqTransmission) :
    FixedEmergence × MosqTransmission :=
  let initNv0FromSv := mul64 self.initNvFromSv (sub64 (sub64 (fin 1) tsP_A) tsP_df)
  let FSCoeffic := addToFirst (ext.log EIRtoS_v) self.FSCoeffic
  let forcedS_v := ext.expIDFT FSCoeffic self.EIRRotateAngle
  let transmission := { transmission with
    initStateCalls := transmission.initStateCalls ++
      [{ tsP_A := tsP_A, tsP_df := tsP_df, tsP_dff := tsP_dff,
         initNvFromSv := self.initNvFromSv, initOvFromSv := self.initOvFromSv,
         forcedS_v := forcedS_v }] }
  let mosqEmergeRate := vectors.scale forcedS_v initNv0FromSv
  ({ self with
      initNv0FromSv := initNv0FromSv
      FSCoeffic := FSCoeffic
      forcedS_v := forcedS_v
      mosqEmergeRate := mosqEmergeRate
      scaleFactor := fin 1
      shiftAngle := fin 0 },
   transmission)

/-- The inner loop of `findAngle` in binary64: `sum += fabs (temp[i] -
sim[i])` day by day from `0.0`. -/
def l1Distance (temp sim : Nat → Dbl) : Dbl :=
  (List.range oneYear).foldl (fun sum i => add64 sum (fabs (sub64 (temp i) (sim i)))) (fin 0)

/-- The step `delta = 2 * M_PI / 365.0` of the scan, in binary64. -/
def findAngleDelta : Dbl := div64 (mul64 (fin 2) (fin M_PI)) (fin 365)

/-- The scan loop of `findAngle` in binary64, `for (angle = -M_PI; angle <
M_PI; angle += delta)`, from the loop state `(angle, min, minAngle)`. The
first argument bounds the number of iterations still allowed. -/
def findAngleLoop (ext : Externals) (EIRRotageAngle : Dbl) (FSCoeffic : List Dbl)
    (sim : Nat → Dbl) (delta : Dbl) : Nat → Dbl → Dbl → Dbl → Dbl
  | 0, _, _, minAngle => minAngle
  | fuel + 1, angle, min, minAngle =>
    if lt angle (fin M_PI) then
      let temp := ext.expIDFT FSCoeffic (add64 EIRRotageAngle angle)
      let sum := l1Distance temp sim
      if lt sum min then
        findAngleLoop ext EIRRotageAngle FSCoeffic sim delta fuel (add64 angle delta) sum angle
      else
        findAngleLoop ext EIRRotageAngle FSCoeffic sim delta fuel (add64 angle delta) min minAngle
    else minAngle

/-- An iteration allowance for the scan loop in binary64; the loop leaves
through its own condition after 366 iterations, and every larger allowance
gives the same result. -/
def findAngleFuel : Nat := 367

/-- The function `findAngle` in binary64. -/
def findAngle (ext : Externals) (EIRRotageAngle : Dbl) (FSCoeffic : List Dbl)
    (sim : Nat → Dbl) : Dbl :=
  findAngleLoop ext EIRRotageAngle FSCoeffic sim findAngleDelta findAngleFuel
    (-(fin M_PI)) pinf (fin 0)

/-- The averaging loop of `initIterate` in binary64 after its first `i`
iterations: `avgAnnualS_v[mod_nn(i, oneYear)] += quinquennialS_v[i] / 5.0`,
from the zero vector. -/
def avgAnnualLoop (quinquennialS_v : Nat → Dbl) : Nat → Nat → Dbl
  | 0 => fun _ => fin 0
  | i + 1 =>
    let avg := avgAnnualLoop quinquennialS_v i
    Function.update avg (i % oneYear)
      (add64 (avg (i % oneYear)) (div64 (quinquennialS_v i) (fin 5)))

/-- The local `avgAnnualS_v` of `initIterate` in binary64, once the averaging
loop has run over the five years. -/
def avgAnnualS_v (quinquennialS_v : Nat → Dbl) : Nat → Dbl :=
  avgAnnualLoop quinquennialS_v fiveYears

/-- The local `factor` of `initIterate` in binary64. -/
def FixedEmergence.factor (self : FixedEmergence) : Dbl :=
  div64 (vectors.sum oneYear self.forcedS_v)
    (vectors.sum oneYear (avgAnnualS_v self.quinquennialS_v))

/-- `FixedEmergence::initIterate` in binary64: either the exception thrown, or
the state of the engine and of the transmission collaborator after the call
together with the returned boolean. -/
def FixedEmergence.initIterate (ext : Externals) (self : FixedEmergence)
    (transmission : MosqTransmission) :
    Except FitError (FixedEmergence × MosqTransmission × Bool) :=
  let avg := avgAnnualS_v self.quinquennialS_v
  let factor := div64 (vectors.sum oneYear self.forcedS_v) (vectors.sum oneYear avg)
  if !(gt factor (lit (1 / 1000000)) && lt factor (fin 1000000)) then
    if gt factor (fin 1000000) &&
        lt (vectors.sum fiveYears self.quinquennialS_v) (lit (1 / 1000)) then
      Except.error FitError.simulatedSvApproxZero
    else if Dbl.eq (vectors.sum oneYear self.forcedS_v) (fin 0) then
      Except.ok (self, transmission, false)
    else
      Except.error FitError.factorOutOfBounds
  else
    let factorDiff := mul64 (sub64 (mul64 self.scaleFactor factor) self.scaleFactor) (lit (3 / 5))
    let scaleFactor := add64 self.scaleFactor factorDiff
    let shiftAngle :=
      add64 self.shiftAngle (findAngle ext self.EIRRotateAngle self.FSCoeffic avg)
    let mosqEmergeRate :=
      vectors.scale (ext.expIDFT self.FSCoeffic (-shiftAngle))
        (mul64 scaleFactor self.initNv0FromSv)
    let transmission := { transmission with
      initIterateScaleCalls := transmission.initIterateScaleCalls ++ [scaleFactor] }
    Except.ok
      ({ self with
          scaleFactor := scaleFactor
          shiftAngle := shiftAngle
          mosqEmergeRate := mosqEmergeRate },
       transmission,
       gt (fabs (sub64 factor (fin 1))) (lit (1 / 20)))

/-- `FixedEmergence::update` in binary64. -/
def FixedEmergence.update (self : FixedEmergence) (interventionSurvival : Dbl)
    (d0 : Int) (_nOvipositing : Dbl) (S_v : Dbl) : FixedEmergence × Dbl :=
  let d5Year := mod_nn (d0 + 1) fiveYears
  let dYear1 := mod_nn d0 oneYear
  ({ self with quinquennialS_v := Function.update self.quinquennialS_v d5Year S_v },
   mul64 (self.mosqEmergeRate dYear1) interventionSurvival)

/-- The engine and its collaborator after one call, in binary64. -/
def applyCall (ext : Externals) (s : FixedEmergence × MosqTransmission) :
    Call → FixedEmergence × MosqTransmission
  | Call.initIterate => afterInitIterate s (FixedEmergence.initIterate ext s.1 s.2)
  | Call.update interventionSurvival d0 nOvipositing S_v =>
    ((FixedEmergence.update s.1 interventionSurvival d0 nOvipositing S_v).1, s.2)

/-- The engine and its collaborator after a sequence of calls, in binary64. -/
def runCalls (ext : Externals) (s : FixedEmergence × MosqTransmission)
    (calls : List Call) : FixedEmergence × MosqTransmission :=
  calls.foldl (applyCall ext) s

/-! ### Parasite genotypes in binary64 -/

/-- The loop of the `LocusSet` constructor in binary64. -/
def LocusSet.collect (locus : String) :
    List ParasiteAllele → AlleleCodes → Dbl → List AlleleComb →
      AlleleCodes × Dbl × List AlleleComb
  | [], codes, cum_p, alleles => (codes, cum_p, alleles)
  | elt_a :: rest, codes, cum_p, alleles =>
    let alleleCode := codes.nextAlleleCode
    let codes : AlleleCodes :=
      { nextAlleleCode := (codes.nextAlleleCode + 1) % 2 ^ 32
        alleleCodes := fun l a =>
          if l = locus ∧ a = elt_a.name then some alleleCode else codes.alleleCodes l a }
    LocusSet.collect locus rest codes (add64 cum_p elt_a.initialFrequency)
      (alleles ++ [AlleleComb.single alleleCode elt_a.initialFrequency elt_a.fitness])

/-- The statement `alleles[0].init_freq += x` in binary64. -/
def addToFirstFreq (x : Dbl) : List AlleleComb → List AlleleComb
  | [] => []
  | a :: rest => { a with init_freq := add64 a.init_freq x } :: rest

/-- The constructor `GT::LocusSet::LocusSet (elt_l)` in binary64. -/
def LocusSet.new (codes : AlleleCodes) (elt_l : ParasiteLocus) :
    Except AlleleFrequencyError (LocusSet × AlleleCodes) :=
  match LocusSet.collect elt_l.name elt_l.allele codes (fin 0) [] with
  | (codes, cum_p, alleles) =>
    if lt cum_p (lit (999 / 1000)) || gt cum_p (lit (1001 / 1000)) then
      Except.error { nAlleles := alleles.length, locus := elt_l.name, cum_p := cum_p }
    else
      Except.ok ({ alleles := addToFirstFreq (sub64 (fin 1) cum_p) alleles }, codes)

/-- `Genotype::AlleleComb::cross` in binary64. -/
def AlleleComb.cross (self that : AlleleComb) : AlleleComb where
  alleles := self.alleles ∪ that.alleles
  init_freq := mul64 self.init_freq that.init_freq
  fitness := mul64 self.fitness that.fitness

/-- `GT::LocusSet::include` in binary64. -/
def LocusSet.include (self that : LocusSet) : LocusSet where
  alleles :=
    (self.alleles.map (fun a => that.alleles.map (fun b => AlleleComb.cross a b))).flatten

/-- The loop of `Genotype::init` over the loci after the first, in binary64. -/
def includeLoci : List ParasiteLocus → LocusSet → AlleleCodes →
    Except (AlleleFrequencyError × AlleleCodes) (LocusSet × AlleleCodes)
  | [], loci, codes => Except.ok (loci, codes)
  | elt_l :: rest, loci, codes =>
    match LocusSet.new codes elt_l with
    | Except.error e =>
      Except.error (e, (LocusSet.collect elt_l.name elt_l.allele codes (fin 0) []).1)
    | Except.ok (newLocus, codes) => includeLoci rest (LocusSet.include loci newLocus) codes

/-- The loop of `Genotype::init` that fills `GT::cum_initial_freqs`, in
binary64. -/
def cumInitialFreqs : List AlleleComb → Nat → Dbl → List (Dbl × Nat) →
    Option (Dbl × List (Dbl × Nat))
  | [], _, cum_p, table => some (cum_p, table)
  | genotype :: rest, i, cum_p, table =>
    let cum_p := add64 cum_p genotype.init_freq
    let genotype_id := i % 2 ^ 32
    if genotype_id = i then
      cumInitialFreqs rest (i + 1) cum_p (mapInsert cum_p genotype_id table)
    else none

/-- The second half of `Genotype::init` in binary64. -/
def Genotype.initTable (g : GT) (loci : LocusSet) : GT × Option InitError :=
  let g := { g with genotypes := loci.alleles }
  match cumInitialFreqs g.genotypes 0 (fin 0) g.cum_initial_freqs with
  | none => (g, some InitError.assertion)
  | some (cum_p, table) =>
    let g := { g with cum_initial_freqs := table }
    if lt cum_p (fin 1) || gt cum_p (lit (1001 / 1000)) then
      (g, some (InitError.probabilitySum cum_p))
    else (g, none)

/-- The first half of `Genotype::init` in binary64. -/
def Genotype.initLoci (g : GT) (genotypology : ParasiteGenotypology) :
    GT × Option InitError :=
  match LocusSet.new g.codes genotypology.firstLocus with
  | Except.error e =>
    ({ g with codes := (LocusSet.collect genotypology.firstLocus.name
        genotypology.firstLocus.allele g.codes (fin 0) []).1 },
      some (InitError.alleleFrequency e))
  | Except.ok (loci, codes) =>
    match includeLoci genotypology.otherLoci loci codes with
    | Except.error (e, codes) => ({ g with codes := codes }, some (InitError.alleleFrequency e))
    | Except.ok (loci, codes) => Genotype.initTable { g with codes := codes } loci

/-- `Genotype::init` in binary64. -/
def Genotype.init (g : GT) (scenario : Scenario) : GT × Option InitError :=
  match scenario.getParasiteGenotypology with
  | some genotypology =>
    let g := { g with current_mode := SampleMode.SAMPLE_INITIAL }
    if genotypology.samplingMode = "initial" then
      Genotype.initLoci { g with inerv_mode := SampleMode.SAMPLE_INITIAL } genotypology
    else if genotypology.samplingMode = "tracking" then
      Genotype.initLoci { g with inerv_mode := SampleMode.SAMPLE_TRACKING } genotypology
    else (g, some InitError.samplingMode)
  | none => (Genotype.initSingle g, none)

end Binary64

/-! ## Drug action (`src/model/PkPd/Drug/LSTMDrugAllele.cpp`)

The functions of this file are embedded in binary64. Their calls of the C
library's `exp` and `pow` are calls of the two functions of `CLibrary`, which
return doubles. -/

/-- The two routines of the C library that the drug code calls. -/
structure CLibrary where
  exp : Dbl → Dbl
  pow : Dbl → Dbl → Dbl

/-- The scenario element `scnXml::Phenotype`, through its getters;
`IC50_sigma` is `getIC50 ().getSigma ()`. -/
structure Phenotype where
  slope : Dbl
  IC50 : Dbl
  IC50_sigma : Dbl
  max_killing_rate : Dbl

/-- The fields of `LSTMDrugPD`. -/
structure LSTMDrugPD where
  slope : Dbl
  IC50_pow_slope : Dbl
  max_killing_rate : Dbl
  deriving DecidableEq

/-- The constructor `LSTMDrugPD::LSTMDrugPD (phenotype)`: the object built, or
nothing when it throws `unimplemented_exception ("sampling IC50")`. -/
def LSTMDrugPD.new (libm : CLibrary) (phenotype : Phenotype) : Option LSTMDrugPD :=
  if gt phenotype.IC50_sigma (fin 0) then none
  else some
    { slope := phenotype.slope
      IC50_pow_slope := libm.pow phenotype.IC50 phenotype.slope
      max_killing_rate := phenotype.max_killing_rate }

/-- `LSTMDrugPD::calcFactor`: the returned factor, and the value left in the
in/out parameter `C0`. -/
def LSTMDrugPD.calcFactor (libm : CLibrary) (self : LSTMDrugPD)
    (neg_elim_rate C0 duration : Dbl) : Dbl × Dbl :=
  let C1 := Binary64.mul64 C0 (libm.exp (Binary64.mul64 neg_elim_rate duration))
  let numerator := Binary64.add64 self.IC50_pow_slope (libm.pow C1 self.slope)
  let denominator := Binary64.add64 self.IC50_pow_slope (libm.pow C0 self.slope)
  let power := Binary64.div64 self.max_killing_rate (Binary64.mul64 (-neg_elim_rate) self.slope)
  (libm.pow (Binary64.div64 numerator denominator) power, C1)

/-! ## Auxiliary definitions for the proofs and the examples -/

/-- The external routines on the inputs of the examples: for the coefficient
vector `[0]` the synthesis writes `exp(0) = 1` on every day at every angle,
and `log(1) = 0`. -/
def flatExt : Externals where
  expIDFT := fun _ _ _ => fin 1
  log := fun _ => fin 0

/-- An engine state with a flat target curve `f`, a flat observed buffer `q`,
coefficient vector `[0]`, scale 1 and phase 0. -/
def flatState (f q : ℚ) : FixedEmergence where
  FSCoeffic := [fin 0]
  EIRRotateAngle := fin 0
  initNvFromSv := fin 1
  initOvFromSv := fin 1
  forcedS_v := fun _ => fin f
  mosqEmergeRate := fun _ => fin f
  quinquennialS_v := fun _ => fin q
  initNv0FromSv := fin 1
  scaleFactor := fin 1
  shiftAngle := fin 0

/-- A transmission collaborator on which no call has been made yet. -/
def noCalls : MosqTransmission where
  initStateCalls := []
  initIterateScaleCalls := []

/-- The linear decay of the examples, `eval (t) = max (0, 1 - t/100)`, the
same for every token. -/
def linearDecay : Int → DecayFuncHet → Dbl :=
  fun t _ => fin (max 0 (1 - (t : ℚ) / 100))

/-- Parameters with the linear decay and a maximum dose of 100. -/
def linearParams : IRSParams where
  maxInsecticide := fin 100
  insecticideDecay := linearDecay

/-- An instance deployed at time `t` with dose `dose` and token 1. -/
def deployedAt (t : Int) (dose : ℚ) : IRS where
  deployTime := t
  initialInsecticide := fin dose
  insecticideDecayHet := { value := fin 1 }

/-- A locus with two alleles of initial frequencies 1/4 and 3/4. -/
def twoAlleleLocus : ParasiteLocus where
  name := "locus"
  allele := [{ name := "a", initialFrequency := fin (1 / 4), fitness := fin 1 },
    { name := "b", initialFrequency := fin (3 / 4), fitness := fin 1 }]

/-- Globals in which no allele code has been given out yet. -/
def noCodes : AlleleCodes where
  alleleCodes := fun _ _ => none
  nextAlleleCode := 0

/-- The value of a finite double; 0 for the others. -/
def Dbl.toRat : Dbl → ℚ
  | fin q => q
  | _ => 0

/-- The sum of the initial frequencies of a list of allele combinations, as a
rational (for finite frequencies). -/
def freqSum (l : List AlleleComb) : ℚ :=
  (l.map (fun a => a.init_freq.toRat)).sum

/-- The table the loop of `Genotype::init` builds when its assertion holds
at every step. -/
def cumTable : List AlleleComb → Nat → Dbl → List (Dbl × Nat) → List (Dbl × Nat)
  | [], _, _, table => table
  | genotype :: rest, i, cum_p, table =>
    cumTable rest (i + 1) (cum_p + genotype.init_freq)
      (mapInsert (cum_p + genotype.init_freq) i table)

/-- A second locus, with two alleles of initial frequencies 1/2 and 1/2. -/
def evenLocus : ParasiteLocus where
  name := "even"
  allele := [{ name := "c", initialFrequency := fin (1 / 2), fitness := fin 1 },
    { name := "d", initialFrequency := fin (1 / 2), fitness := fin 1 }]

/-- A locus with two alleles of initial frequencies 0 and 1025/1024, a sum
within the tolerance of the constructor. -/
def skewLocus : ParasiteLocus where
  name := "skew"
  allele := [{ name := "e", initialFrequency := fin 0, fitness := fin 1 },
    { name := "f", initialFrequency := fin (1025 / 1024), fitness := fin 1 }]

/-- A scenario with the sampling mode "initial" and the two loci `evenLocus`
and `skewLocus`. -/
def skewScenario : Scenario where
  getParasiteGenotypology :=
    some { samplingMode := "initial", firstLocus := evenLocus, otherLoci := [skewLocus] }

/-- A scenario with the sampling mode "initial" and the two loci
`twoAlleleLocus` and `evenLocus`. -/
def twoLociScenario : Scenario where
  getParasiteGenotypology :=
    some { samplingMode := "initial", firstLocus := twoAlleleLocus, otherLoci := [evenLocus] }

/-- A scenario whose genotypology names the sampling mode `mode` and has the
single locus `twoAlleleLocus`. -/
def oneLocusScenario (mode : String) : Scenario where
  getParasiteGenotypology :=
    some { samplingMode := mode, firstLocus := twoAlleleLocus, otherLoci := [] }

/-- The angles the scan visits in binary64: `-M_PI`, and then each the
rounded sum of the one before and `delta`. -/
def Binary64.scanAngle : Nat → Dbl
  | 0 => -(fin M_PI)
  | n + 1 => Binary64.add64 (Binary64.scanAngle n) Binary64.findAngleDelta

/-- A check of the scan in one pass: the next `n` angles from `angle` on pass
the loop condition and are not zero, the last of them is `last`, and the angle
after them fails the loop condition. -/
def Binary64.scanCheck (last : Dbl) : Nat → Dbl → Bool
  | 0, angle => !lt angle (fin M_PI)
  | n + 1, angle =>
    lt angle (fin M_PI) && decide (angle ≠ fin 0) && (decide (n ≠ 0) || decide (angle = last)) &&
      Binary64.scanCheck last n (Binary64.add64 angle Binary64.findAngleDelta)

/-- The L1 distance the scan computes in binary64 at its `n`-th angle. -/
def Binary64.scanDistance (ext : Externals) (base : Dbl) (FC : List Dbl) (sim : Nat → Dbl)
    (n : Nat) : Dbl :=
  Binary64.l1Distance (ext.expIDFT FC (Binary64.add64 base (Binary64.scanAngle n))) sim

/-- The averaged curve in the spec's words, in binary64: for a day of the
year, the sum of the five same-day entries of the buffer, divided by 5. -/
def Binary64.avgAnnualSpec (quinquennialS_v : Nat → Dbl) (d : Nat) : Dbl :=
  Binary64.div64
    (Binary64.add64 (Binary64.add64 (Binary64.add64 (Binary64.add64 (quinquennialS_v d)
      (quinquennialS_v (d + 365))) (quinquennialS_v (d + 730))) (quinquennialS_v (d + 1095)))
      (quinquennialS_v (d + 1460)))
    (fin 5)

/-- A buffer that holds the double nearest to 2.3 on day 1095 and the double
nearest to 0.7 on every other day. -/
def spikeBuffer : Nat → Dbl :=
  fun i => if i = 1095 then Binary64.lit (23 / 10) else Binary64.lit (7 / 10)

/-- The update of the scale factor by one fitting call of `initIterate` with
the factor `f`, in binary64. -/
def Binary64.scaleStep (f s : Dbl) : Dbl :=
  Binary64.add64 s (Binary64.mul64 (Binary64.sub64 (Binary64.mul64 s f) s) (Binary64.lit (3 / 5)))

/-- External routines whose synthesis writes `5 * 2 ^ 19` on every day. -/
def steepExt : Externals where
  expIDFT := fun _ _ _ => fin 2621440
  log := fun _ => fin 0

/-- The engine after `init2` with the routines `steepExt`, from a state whose
five-year buffer holds 5 on every day. -/
def steepStart : FixedEmergence × MosqTransmission :=
  Binary64.FixedEmergence.init2 steepExt (flatState 0 5) (fin 0) (fin 0) (fin 0) (fin 1) noCalls

/-- A check of a list of scale factors: each is the result of one fitting call
with the factor `f` on the one before. -/
def Binary64.chainCheck (f : Dbl) : List Dbl → Bool
  | a :: b :: rest => decide (Binary64.scaleStep f a = b) && Binary64.chainCheck f (b :: rest)
  | _ => true

/-- The scale factors of the engine `steepStart` after 0, 1, ..., 58 calls of
`initIterate`. -/
def steepScales : List Dbl :=
  [fin 1, fin (5404326424792269 * Binary64.pow2 (-34)),
    fin (405324997256151 * Binary64.pow2 (-12)), fin (7782249842947915 * Binary64.pow2 2),
    fin (1167338960788547 * Binary64.pow2 23), fin (1400808534164153 * Binary64.pow2 41),
    fin (3361944756922355 * Binary64.pow2 58), fin (4034338838227415 * Binary64.pow2 76),
    fin (605151595223179 * Binary64.pow2 97), fin (5809462701246953 * Binary64.pow2 112),
    fin (6971364106032935 * Binary64.pow2 130), fin (8365647564696959 * Binary64.pow2 148),
    fin (5019394921300753 * Binary64.pow2 167), fin (6023281564549735 * Binary64.pow2 185),
    fin (7227947068257967 * Binary64.pow2 203), fin (4336773755440763 * Binary64.pow2 222),
    fin (2602067561960255 * Binary64.pow2 241), fin (3122485044792311 * Binary64.pow2 259),
    fin (7493973636569677 * Binary64.pow2 276), fin (2248194949694977 * Binary64.pow2 296),
    fin (2697837370107223 * Binary64.pow2 314), fin (3237408960701803 * Binary64.pow2 332),
    fin (7769791385472415 * Binary64.pow2 349), fin (4661880759163839 * Binary64.pow2 368),
    fin (5594264024462121 * Binary64.pow2 386), fin (6713125365524015 * Binary64.pow2 404),
    fin (1006970085255651 * Binary64.pow2 425), fin (2416731277642387 * Binary64.pow2 442),
    fin (5800162441620285 * Binary64.pow2 459), fin (870025472536233 * Binary64.pow2 480),
    fin (8352255156775969 * Binary64.pow2 495), fin (5011359466330563 * Binary64.pow2 514),
    fin (751704875790547 * Binary64.pow2 535), fin (7216375983674161 * Binary64.pow2 550),
    fin (8659662191724887 * Binary64.pow2 568), fin (5195803921832869 * Binary64.pow2 587),
    fin (6234972634367047 * Binary64.pow2 605), fin (467623542190855 * Binary64.pow2 627),
    fin (8978383426654801 * Binary64.pow2 641), fin (2693518452977911 * Binary64.pow2 661),
    fin (6464452507112969 * Binary64.pow2 678), fin (1939338218126821 * Binary64.pow2 698),
    fin (4654417641894929 * Binary64.pow2 715), fin (5585308272351615 * Binary64.pow2 733),
    fin (6702378449326015 * Binary64.pow2 751), fin (8042864366209115 * Binary64.pow2 769),
    fin (2412862377972005 * Binary64.pow2 789), fin (723859633825553 * Binary64.pow2 809),
    fin (434316332556405 * Binary64.pow2 828), fin (1042360523563633 * Binary64.pow2 845),
    fin (5003336875169181 * Binary64.pow2 861), fin (93812685698269 * Binary64.pow2 885),
    fin (3602411711511073 * Binary64.pow2 898), fin (8645799101314659 * Binary64.pow2 915),
    fin (5187486057010033 * Binary64.pow2 934), fin (3112495591943795 * Binary64.pow2 953),
    fin (7469998919247847 * Binary64.pow2 970), pinf, nan]

/-- The values of the C library's `exp` and `pow` at the arguments the drug
examples reach, each the double nearest to the exact value (which is what the
GNU C library returns there); NaN at every other argument. -/
def sampleLibm : CLibrary where
  exp := fun x =>
    if x = fin 0 then fin 1
    else if x = fin (-1) then fin (828390857088487 / 2251799813685248)
    else if x = fin (-2) then fin (1218991862308979 / 9007199254740992)
    else if x = fin (-3) then fin (7175072721580207 / 144115188075855872)
    else nan
  pow := fun x y =>
    if x = fin 1 then fin 1
    else if x = fin 2 ∧ y = fin 3 then fin 8
    else if x = fin 4 ∧ y = fin 3 then fin 64
    else if x = fin (828390857088487 / 562949953421312) ∧ y = fin 3 then
      fin (448442045098763 / 140737488355328)
    else if x = fin (448442045098763 / 2251799813685248) ∧ y = fin 3 then
      fin (1138254536086807 / 144115188075855872)
    else if x = fin (7175072721580207 / 36028797018963968) ∧ y = fin 3 then
      fin (2276509072173613 / 288230376151711744)
    else if x = fin (174926883549043 / 1125899906842624) ∧
        y = fin (7505999378950827 / 4503599627370496) then
      fin (6470994724153269 / 144115188075855872)
    else if x = fin (3223955565082387 / 4503599627370496) ∧
        y = fin (7505999378950827 / 4503599627370496) then
      fin (80622931318579 / 140737488355328)
    else if x = fin (500893992683565 / 4503599627370496) ∧
        y = fin (7505999378950827 / 4503599627370496) then
      fin (3706976508569653 / 144115188075855872)
    else nan

/-- A phenotype with slope 3, IC50 2 (not sampled) and maximal killing rate
5. -/
def samplePhenotype : Phenotype where
  slope := fin 3
  IC50 := fin 2
  IC50_sigma := fin 0
  max_killing_rate := fin 5

/-- The object the constructor builds from `samplePhenotype`. -/
def samplePD : LSTMDrugPD where
  slope := fin 3
  IC50_pow_slope := fin 8
  max_killing_rate := fin 5

/-- The initial frequencies a `LocusSet` constructor call in binary64 leaves
in the set it builds, from globals with no allele code given out; nothing when
the constructor throws. -/
def Binary64.storedFrequencies (elt_l : ParasiteLocus) : Option (List Dbl) :=
  match Binary64.LocusSet.new noCodes elt_l with
  | Except.ok (loci, _) => some (loci.alleles.map AlleleComb.init_freq)
  | Except.error _ => none

/-- The left-to-right binary64 sum of a list of doubles from `0.0`. -/
def Binary64.sumList (l : List Dbl) : Dbl :=
  l.foldl Binary64.add64 (fin 0)

/-- The sum that the error "expected probability sum to be 1.0" reports, when
that is the error. -/
def InitError.reportedSum : Option InitError → Option Dbl
  | some (InitError.probabilitySum cum_p) => some cum_p
  | _ => none

/-- A locus with four alleles of initial frequencies 0.182, 0.664, 0.05 and
0.104 (the doubles nearest to these). -/
def fourAlleleLocus : ParasiteLocus where
  name := "four"
  allele :=
    [{ name := "a", initialFrequency := Binary64.lit (182 / 1000), fitness := fin 1 },
      { name := "b", initialFrequency := Binary64.lit (664 / 1000), fitness := fin 1 },
      { name := "c", initialFrequency := Binary64.lit (5 / 100), fitness := fin 1 },
      { name := "d", initialFrequency := Binary64.lit (104 / 1000), fitness := fin 1 }]

/-- A scenario with the sampling mode "initial" and the one locus
`fourAlleleLocus`. -/
def fourAlleleScenario : Scenario where
  getParasiteGenotypology :=
    some { samplingMode := "initial", firstLocus := fourAlleleLocus, otherLoci := [] }

/-- A locus with two alleles whose first initial frequency is NaN. -/
def nanLocus : ParasiteLocus where
  name := "nan"
  allele :=
    [{ name := "x", initialFrequency := nan, fitness := fin 1 },
      { name := "y", initialFrequency := Binary64.lit (1 / 2), fitness := fin 1 }]

/-- A scenario with the sampling mode "initial" and the one locus `nanLocus`. -/
def nanScenario : Scenario where
  getParasiteGenotypology :=
    some { samplingMode := "initial", firstLocus := nanLocus, otherLoci := [] }

/-- A locus with two alleles of the initial frequencies `p` and `q` (the
doubles nearest to them). -/
def pairLocus (name : String) (p q : ℚ) : ParasiteLocus where
  name := name
  allele :=
    [{ name := "x", initialFrequency := Binary64.lit p, fitness := fin 1 },
      { name := "y", initialFrequency := Binary64.lit q, fitness := fin 1 }]

/-- A scenario with the sampling mode "initial" and three loci of two alleles
each, of initial frequencies (0.2, 0.8), (0.3, 0.7) and (0.6, 0.4). -/
def threeLociScenario : Scenario where
  getParasiteGenotypology :=
    some { samplingMode := "initial", firstLocus := pairLocus "one" (2 / 10) (8 / 10),
           otherLoci := [pairLocus "two" (3 / 10) (7 / 10), pairLocus "three" (6 / 10) (4 / 10)] }

/-! # Lemmas -/

namespace Dbl

@[simp] theorem fin_add_fin (a b : ℚ) : fin a + fin b = fin (a + b) := rfl
@[simp] theorem nan_add (x : Dbl) : nan + x = nan := by cases x <;> rfl
@[simp] theorem add_nan (x : Dbl) : x + nan = nan := by cases x <;> rfl
@[simp] theorem fin_add_pinf (a : ℚ) : fin a + pinf = pinf := rfl
@[simp] theorem fin_add_ninf (a : ℚ) : fin a + ninf = ninf := rfl
@[simp] theorem pinf_add_fin (a : ℚ) : pinf + fin a = pinf := rfl
@[simp] theorem ninf_add_fin (a : ℚ) : ninf + fin a = ninf := rfl
@[simp] theorem pinf_add_pinf : pinf + pinf = pinf := rfl
@[simp] theorem ninf_add_ninf : ninf + ninf = ninf := rfl
@[simp] theorem pinf_add_ninf : pinf + ninf = nan := rfl
@[simp] theorem ninf_add_pinf : ninf + pinf = nan := rfl

@[simp] theorem neg_fin (a : ℚ) : -(fin a) = fin (-a) := rfl
@[simp] theorem neg_pinf : -pinf = ninf := rfl
@[simp] theorem neg_ninf : -ninf = pinf := rfl
@[simp] theorem neg_nan : -nan = nan := rfl

theorem sub_def (x y : Dbl) : x - y = x + -y := rfl
@[simp] theorem fin_sub_fin (a b : ℚ) : fin a - fin b = fin (a - b) := by
  rw [sub_def, neg_fin, fin_add_fin, sub_eq_add_neg]
@[simp] theorem nan_sub (x : Dbl) : nan - x = nan := by rw [sub_def, nan_add]
@[simp] theorem sub_nan (x : Dbl) : x - nan = nan := by rw [sub_def, neg_nan, add_nan]
@[simp] theorem pinf_sub_fin (a : ℚ) : pinf - fin a = pinf := rfl
@[simp] theorem ninf_sub_fin (a : ℚ) : ninf - fin a = ninf := rfl
@[simp] theorem fin_sub_pinf (a : ℚ) : fin a - pinf = ninf := rfl
@[simp] theorem fin_sub_ninf (a : ℚ) : fin a - ninf = pinf := rfl
@[simp] theorem pinf_sub_pinf : pinf - pinf = nan := rfl
@[simp] theorem ninf_sub_ninf : ninf - ninf = nan := rfl
@[simp] theorem pinf_sub_ninf : pinf - ninf = pinf := rfl
@[simp] theorem ninf_sub_pinf : ninf - pinf = ninf := rfl

@[simp] theorem fin_mul_fin (a b : ℚ) : fin a * fin b = fin (a * b) := rfl
@[simp] theorem nan_mul (x : Dbl) : nan * x = nan := by cases x <;> rfl
@[simp] theorem mul_nan (x : Dbl) : x * nan = nan := by
  cases x <;> rfl
theorem fin_mul_pinf (a : ℚ) :
    fin a * pinf = if 0 < a then pinf else if a < 0 then ninf else nan := by
  show Dbl.mul _ _ = _
  simp only [Dbl.mul, sgn]
  split_ifs <;> simp_all
theorem fin_mul_ninf (a : ℚ) :
    fin a * ninf = if 0 < a then ninf else if a < 0 then pinf else nan := by
  show Dbl.mul _ _ = _
  simp only [Dbl.mul, sgn]
  split_ifs <;> simp_all
theorem pinf_mul_fin (a : ℚ) :
    pinf * fin a = if 0 < a then pinf else if a < 0 then ninf else nan := by
  show Dbl.mul _ _ = _
  simp only [Dbl.mul, sgn]
  split_ifs <;> simp_all
theorem ninf_mul_fin (a : ℚ) :
    ninf * fin a = if 0 < a then ninf else if a < 0 then pinf else nan := by
  show Dbl.mul _ _ = _
  simp only [Dbl.mul, sgn]
  split_ifs <;> simp_all
@[simp] theorem pinf_mul_pinf : pinf * pinf = pinf := by decide
@[simp] theorem ninf_mul_ninf : ninf * ninf = pinf := by decide
@[simp] theorem pinf_mul_ninf : pinf * ninf = ninf := by decide
@[simp] theorem ninf_mul_pinf : ninf * pinf = ninf := by decide

theorem fin_div_fin (a b : ℚ) :
    fin a / fin b =
      if b = 0 then (if 0 < a then pinf else if a < 0 then ninf else nan) else fin (a / b) := rfl
@[simp] theorem nan_div (x : Dbl) : nan / x = nan := by cases x <;> rfl
@[simp] theorem div_nan (x : Dbl) : x / nan = nan := by cases x <;> rfl
@[simp] theorem fin_div_pinf (a : ℚ) : fin a / pinf = fin 0 := rfl
@[simp] theorem fin_div_ninf (a : ℚ) : fin a / ninf = fin 0 := rfl
theorem pinf_div_fin (b : ℚ) : pinf / fin b = if b < 0 then ninf else pinf := rfl
@[simp] theorem pinf_div_pinf : pinf / pinf = nan := rfl
@[simp] theorem pinf_div_ninf : pinf / ninf = nan := rfl
@[simp] theorem ninf_div_pinf : ninf / pinf = nan := rfl
@[simp] theorem ninf_div_ninf : ninf / ninf = nan := rfl

@[simp] theorem lt_fin_fin (a b : ℚ) : lt (fin a) (fin b) = decide (a < b) := rfl
@[simp] theorem gt_fin_fin (a b : ℚ) : gt (fin a) (fin b) = decide (b < a) := rfl
@[simp] theorem lt_nan (x : Dbl) : lt x nan = false := by cases x <;> rfl
@[simp] theorem nan_lt (x : Dbl) : lt nan x = false := by cases x <;> rfl
@[simp] theorem gt_nan (x : Dbl) : gt x nan = false := by cases x <;> rfl
@[simp] theorem nan_gt (x : Dbl) : gt nan x = false := by cases x <;> rfl
@[simp] theorem lt_ninf (x : Dbl) : lt x ninf = false := by cases x <;> rfl
@[simp] theorem pinf_lt (x : Dbl) : lt pinf x = false := by cases x <;> rfl
@[simp] theorem gt_pinf (x : Dbl) : gt x pinf = false := by cases x <;> rfl
@[simp] theorem ninf_gt (x : Dbl) : gt ninf x = false := by cases x <;> rfl
@[simp] theorem fin_lt_pinf (a : ℚ) : lt (fin a) pinf = true := rfl
@[simp] theorem ninf_lt_fin (a : ℚ) : lt ninf (fin a) = true := rfl
@[simp] theorem ninf_lt_pinf : lt ninf pinf = true := rfl
@[simp] theorem pinf_gt_fin (a : ℚ) : gt pinf (fin a) = true := rfl
@[simp] theorem fin_gt_ninf (a : ℚ) : gt (fin a) ninf = true := rfl

@[simp] theorem eq_fin_fin (a b : ℚ) : Dbl.eq (fin a) (fin b) = decide (a = b) := rfl
@[simp] theorem nan_eq (x : Dbl) : Dbl.eq nan x = false := by cases x <;> rfl
@[simp] theorem pinf_eq_fin (a : ℚ) : Dbl.eq pinf (fin a) = false := rfl
@[simp] theorem ninf_eq_fin (a : ℚ) : Dbl.eq ninf (fin a) = false := rfl

@[simp] theorem fabs_fin (a : ℚ) : fabs (fin a) = fin |a| := rfl
@[simp] theorem fabs_pinf : fabs pinf = pinf := rfl
@[simp] theorem fabs_ninf : fabs ninf = pinf := rfl
@[simp] theorem fabs_nan : fabs nan = nan := rfl

end Dbl

/-! ## Sums -/

theorem vectors.sum_succ (n : Nat) (f : Nat → Dbl) :
    vectors.sum (n + 1) f = vectors.sum n f + f n := by
  simp [vectors.sum, List.range_succ, List.foldl_append]

theorem vectors.sum_zero (f : Nat → Dbl) : vectors.sum 0 f = fin 0 := rfl

/-- A sum of finite entries is the finite sum of their values. -/
theorem vectors.sum_fin (n : Nat) (f : Nat → Dbl) (g : Nat → ℚ)
    (h : ∀ i, i < n → f i = fin (g i)) :
    vectors.sum n f = fin (∑ i in Finset.range n, g i) := by
  induction n with
  | zero => simp [vectors.sum_zero]
  | succ n ih =>
    rw [vectors.sum_succ, ih (fun i hi => h i (Nat.lt_succ_of_lt hi)), h n (Nat.lt_succ_self n),
      fin_add_fin, Finset.sum_range_succ]

theorem Dbl.add_eq_fin {x y : Dbl} {s : ℚ} (h : x + y = fin s) :
    ∃ a b, x = fin a ∧ y = fin b := by
  cases x <;> cases y <;> simp at h
  exact ⟨_, _, rfl, rfl⟩

/-- A sum is finite only when every entry is. -/
theorem vectors.sum_eq_fin (n : Nat) (f : Nat → Dbl) (s : ℚ)
    (h : vectors.sum n f = fin s) : ∀ i, i < n → ∃ r, f i = fin r := by
  induction n generalizing s with
  | zero => intro i hi; omega
  | succ n ih =>
    rw [vectors.sum_succ] at h
    obtain ⟨a, b, ha, hb⟩ := Dbl.add_eq_fin h
    intro i hi
    rcases Nat.lt_succ_iff_lt_or_eq.mp hi with hlt | heq
    · exact ih a ha i hlt
    · exact ⟨b, heq ▸ hb⟩

theorem Dbl.fin_mul_add {k : ℚ} (hk : 0 < k) (x y : Dbl) :
    fin k * (x + y) = fin k * x + fin k * y := by
  cases x <;> cases y <;> simp [fin_mul_pinf, fin_mul_ninf, hk, mul_add]

/-- Scaling every entry by a positive finite constant scales the sum. -/
theorem vectors.sum_mul_pos (n : Nat) (f g : Nat → Dbl) (k : ℚ) (hk : 0 < k)
    (h : ∀ i, i < n → f i = fin k * g i) :
    vectors.sum n f = fin k * vectors.sum n g := by
  induction n with
  | zero => simp [vectors.sum_zero]
  | succ n ih =>
    rw [vectors.sum_succ, vectors.sum_succ, ih (fun i hi => h i (Nat.lt_succ_of_lt hi)),
      h n (Nat.lt_succ_self n), Dbl.fin_mul_add hk]

/-! ## The averaging loop -/

/-- An entry of the averaging loop is untouched by an iteration that writes
another day of the year. -/
theorem avgAnnualLoop_succ_of_ne (q : Nat → Dbl) (i d : Nat) (h : d ≠ i % oneYear) :
    avgAnnualLoop q (i + 1) d = avgAnnualLoop q i d := by
  simp [avgAnnualLoop, Function.update_noteq h]

theorem avgAnnualLoop_succ_self (q : Nat → Dbl) (i : Nat) :
    avgAnnualLoop q (i + 1) (i % oneYear) =
      avgAnnualLoop q i (i % oneYear) + q i / fin 5 := by
  simp [avgAnnualLoop]

/-- On a buffer of finite entries the averaging loop holds, for each day of
the year, a fifth of the sum of the entries already visited on that day. -/
theorem avgAnnualLoop_fin (q : Nat → Dbl) (r : Nat → ℚ) (n : Nat)
    (h : ∀ i, i < n → q i = fin (r i)) (d : Nat) :
    avgAnnualLoop q n d =
      fin (∑ i in (Finset.range n).filter (fun i => i % oneYear = d), r i / 5) := by
  induction n with
  | zero => simp [avgAnnualLoop]
  | succ n ih =>
    have ih := ih (fun i hi => h i (Nat.lt_succ_of_lt hi))
    by_cases hd : d = n % oneYear
    · subst hd
      rw [avgAnnualLoop_succ_self, ih, h n (Nat.lt_succ_self n), fin_div_fin]
      simp [Finset.range_succ, Finset.filter_insert, add_comm]
    · rw [avgAnnualLoop_succ_of_ne q n d hd, ih]
      have hd' : ¬ n % oneYear = d := fun e => hd e.symm
      simp [Finset.range_succ, Finset.filter_insert, hd']

theorem filter_day_of_year (d : Nat) (hd : d < oneYear) :
    (Finset.range fiveYears).filter (fun i => i % oneYear = d) =
      {d, d + 365, d + 730, d + 1095, d + 1460} := by
  ext i
  simp only [Finset.mem_filter, Finset.mem_range, Finset.mem_insert, Finset.mem_singleton,
    fiveYears, oneYear] at *
  omega

/-- The averaged curve on a buffer of finite entries: entry by entry a fifth of
the five same-day values (the closed form of the per-entry division). -/
theorem avgAnnualS_v_fin (q : Nat → Dbl) (r : Nat → ℚ)
    (h : ∀ i, i < fiveYears → q i = fin (r i)) (d : Nat) (hd : d < oneYear) :
    avgAnnualS_v q d =
      fin (r d / 5 + r (d + 365) / 5 + r (d + 730) / 5 + r (d + 1095) / 5 + r (d + 1460) / 5) := by
  rw [avgAnnualS_v, avgAnnualLoop_fin q r fiveYears h d, filter_day_of_year d hd]
  rw [Finset.sum_insert, Finset.sum_insert, Finset.sum_insert, Finset.sum_insert,
    Finset.sum_singleton]
  · congr 1; ring
  all_goals simp

/-- The sum of the averaged curve is a fifth of the sum of the buffer. -/
theorem sum_avgAnnualS_v_fin (q : Nat → Dbl) (r : Nat → ℚ)
    (h : ∀ i, i < fiveYears → q i = fin (r i)) :
    vectors.sum oneYear (avgAnnualS_v q) = fin ((∑ i in Finset.range fiveYears, r i) / 5) := by
  rw [vectors.sum_fin oneYear (avgAnnualS_v q)
    (fun d => ∑ i in (Finset.range fiveYears).filter (fun i => i % oneYear = d), r i / 5)
    (fun d _ => avgAnnualLoop_fin q r fiveYears h d)]
  congr 1
  rw [Finset.sum_fiberwise_of_maps_to (g := fun i => i % oneYear)
    (fun i _ => Finset.mem_range.mpr (Nat.mod_lt i (by decide))), Finset.sum_div]

/-! ## Finite doubles -/

theorem Dbl.isFinite_iff (x : Dbl) : x.isFinite = true ↔ ∃ r, x = fin r := by
  cases x <;> simp [isFinite]

/-! ## The two paths of `initIterate` -/

/-- The fitting path: with the factor inside the accepted range the call
returns, with the state spelled out. -/
theorem initIterate_fit (ext : Externals) (st : FixedEmergence) (tr : MosqTransmission)
    (h1 : gt st.factor (fin (1 / 1000000)) = true) (h2 : lt st.factor (fin 1000000) = true) :
    st.initIterate ext tr = Except.ok
      ({ st with
          scaleFactor := st.scaleFactor + (st.scaleFactor * st.factor - st.scaleFactor) * fin (3 / 5)
          shiftAngle := st.shiftAngle +
            findAngle ext st.EIRRotateAngle st.FSCoeffic (avgAnnualS_v st.quinquennialS_v)
          mosqEmergeRate := vectors.scale
            (ext.expIDFT st.FSCoeffic (-(st.shiftAngle +
              findAngle ext st.EIRRotateAngle st.FSCoeffic (avgAnnualS_v st.quinquennialS_v))))
            ((st.scaleFactor + (st.scaleFactor * st.factor - st.scaleFactor) * fin (3 / 5)) *
              st.initNv0FromSv) },
       { tr with
          initIterateScaleCalls := tr.initIterateScaleCalls ++
            [st.scaleFactor + (st.scaleFactor * st.factor - st.scaleFactor) * fin (3 / 5)] },
       gt (fabs (st.factor - fin 1)) (fin (1 / 20))) := by
  unfold FixedEmergence.factor at h1 h2
  unfold FixedEmergence.initIterate FixedEmergence.factor
  simp only [h1, h2, Bool.and_self, Bool.not_true, Bool.false_eq_true, if_false]

/-- The rejecting path: with the factor outside the accepted range the call
takes one of the three exits of the guard. -/
theorem initIterate_reject (ext : Externals) (st : FixedEmergence) (tr : MosqTransmission)
    (h : (gt st.factor (fin (1 / 1000000)) && lt st.factor (fin 1000000)) = false) :
    st.initIterate ext tr =
      if gt st.factor (fin 1000000) &&
          lt (vectors.sum fiveYears st.quinquennialS_v) (fin (1 / 1000)) then
        Except.error FitError.simulatedSvApproxZero
      else if Dbl.eq (vectors.sum oneYear st.forcedS_v) (fin 0) then
        Except.ok (st, tr, false)
      else Except.error FitError.factorOutOfBounds := by
  unfold FixedEmergence.factor at h
  unfold FixedEmergence.initIterate FixedEmergence.factor
  simp only [h, Bool.not_false, if_true]

theorem Dbl.mul_swap (x y : Dbl) : x * y = y * x := by
  cases x <;> cases y <;>
    simp [fin_mul_pinf, fin_mul_ninf, pinf_mul_fin, ninf_mul_fin, mul_comm]

/-! ## Flat states -/

theorem flat_sum_forced (f q : ℚ) :
    vectors.sum oneYear (flatState f q).forcedS_v = fin (365 * f) := by
  rw [vectors.sum_fin oneYear (flatState f q).forcedS_v (fun _ => f) (fun _ _ => rfl)]
  simp [oneYear]

theorem flat_sum_buffer (f q : ℚ) :
    vectors.sum fiveYears (flatState f q).quinquennialS_v = fin (1825 * q) := by
  rw [vectors.sum_fin fiveYears (flatState f q).quinquennialS_v (fun _ => q) (fun _ _ => rfl)]
  simp [fiveYears, oneYear]

theorem flat_avg (f q : ℚ) (d : Nat) (hd : d < oneYear) :
    avgAnnualS_v (flatState f q).quinquennialS_v d = fin q := by
  rw [avgAnnualS_v_fin (flatState f q).quinquennialS_v (fun _ => q) (fun _ _ => rfl) d hd]
  congr 1
  ring

theorem flat_sum_avg (f q : ℚ) :
    vectors.sum oneYear (avgAnnualS_v (flatState f q).quinquennialS_v) = fin (365 * q) := by
  rw [vectors.sum_fin oneYear _ (fun _ => q) (fun d hd => flat_avg f q d hd)]
  simp [oneYear]

theorem flat_factor (f q : ℚ) (hq : q ≠ 0) : (flatState f q).factor = fin (f / q) := by
  rw [FixedEmergence.factor, flat_sum_forced, flat_sum_avg, fin_div_fin]
  have h365 : (365 : ℚ) * q ≠ 0 := mul_ne_zero (by norm_num) hq
  rw [if_neg h365]
  congr 1
  field_simp
  ring

/-! # Lemmas on the binary64 embedding -/

/-! ## Binary64 rounding -/

namespace Binary64

theorem pow2_eq (k : Int) : pow2 k = (2 : ℚ) ^ k := by
  unfold pow2
  split_ifs with h
  · obtain ⟨n, rfl⟩ := Int.eq_ofNat_of_zero_le h
    simp
  · have hk : 0 ≤ -k := by omega
    obtain ⟨n, hn⟩ := Int.eq_ofNat_of_zero_le hk
    have : k = -(n : Int) := by omega
    subst this
    simp

theorem pow2_pos (k : Int) : 0 < pow2 k := by
  rw [pow2_eq]; positivity

theorem pow2_add (a b : Int) : pow2 (a + b) = pow2 a * pow2 b := by
  simp only [pow2_eq]
  exact zpow_add₀ (by norm_num) a b

theorem pow2_le_pow2 {a b : Int} (h : a ≤ b) : pow2 a ≤ pow2 b := by
  simp only [pow2_eq]
  exact zpow_le_zpow_right₀ (by norm_num) h

theorem log2Fuel_spec (fuel n : Nat) (h : n ≤ fuel) (hn : n ≠ 0) :
    2 ^ log2Fuel fuel n ≤ n ∧ n < 2 ^ (log2Fuel fuel n + 1) := by
  induction fuel generalizing n with
  | zero => omega
  | succ fuel ih =>
    unfold log2Fuel
    split_ifs with h2
    · constructor
      · simp; omega
      · simp; omega
    · have h3 : n / 2 ≤ fuel := by omega
      have h4 : n / 2 ≠ 0 := by omega
      obtain ⟨i1, i2⟩ := ih (n / 2) h3 h4
      constructor
      · rw [pow_succ]; omega
      · rw [pow_succ]; omega

theorem bitStep_spec (n b lo : Nat) (h1 : 2 ^ lo ≤ n) (h2 : n < 2 ^ (lo + (b + b))) :
    2 ^ bitStep n b lo ≤ n ∧ n < 2 ^ (bitStep n b lo + b) := by
  unfold bitStep
  split_ifs with h
  · exact ⟨h, by rw [Nat.add_assoc]; exact h2⟩
  · exact ⟨h1, not_le.mp h⟩

set_option exponentiation.threshold 5000 in
theorem log2_spec (n : Nat) (hn : n ≠ 0) : 2 ^ log2 n ≤ n ∧ n < 2 ^ (log2 n + 1) := by
  unfold log2
  split_ifs with h
  · have s0 : 2 ^ 0 ≤ n := by rw [pow_zero]; omega
    have s1 := bitStep_spec n 2048 0 s0 h
    have s2 := bitStep_spec n 1024 _ s1.1 s1.2
    have s3 := bitStep_spec n 512 _ s2.1 s2.2
    have s4 := bitStep_spec n 256 _ s3.1 s3.2
    have s5 := bitStep_spec n 128 _ s4.1 s4.2
    have s6 := bitStep_spec n 64 _ s5.1 s5.2
    have s7 := bitStep_spec n 32 _ s6.1 s6.2
    have s8 := bitStep_spec n 16 _ s7.1 s7.2
    have s9 := bitStep_spec n 8 _ s8.1 s8.2
    have s10 := bitStep_spec n 4 _ s9.1 s9.2
    have s11 := bitStep_spec n 2 _ s10.1 s10.2
    exact bitStep_spec n 1 _ s11.1 s11.2
  · exact log2Fuel_spec n n (le_refl n) hn

theorem ilog2_spec (a : ℚ) (ha : 0 < a) : pow2 (ilog2 a) ≤ a ∧ a < pow2 (ilog2 a + 1) := by
  have hnum : 0 < a.num := Rat.num_pos.mpr ha
  obtain ⟨n1, n2⟩ := log2_spec a.num.natAbs (by omega)
  obtain ⟨d1, d2⟩ := log2_spec a.den a.den_nz
  have hd : (0 : ℚ) < a.den := by exact_mod_cast a.den_pos
  have hq : a = (a.num.natAbs : ℚ) / (a.den : ℚ) := by
    have h1 : ((a.num.natAbs : Int) : ℚ) = (a.num : ℚ) := by
      rw [Int.natAbs_of_nonneg hnum.le]
    rw [← Int.cast_natCast, h1, Rat.num_div_den]
  have n1q : (2 : ℚ) ^ (log2 a.num.natAbs) ≤ (a.num.natAbs : ℚ) := by exact_mod_cast n1
  have n2q : (a.num.natAbs : ℚ) < (2 : ℚ) ^ (log2 a.num.natAbs + 1) := by exact_mod_cast n2
  have d1q : (2 : ℚ) ^ (log2 a.den) ≤ (a.den : ℚ) := by exact_mod_cast d1
  have d2q : (a.den : ℚ) < (2 : ℚ) ^ (log2 a.den + 1) := by exact_mod_cast d2
  have hup : a < pow2 ((log2 a.num.natAbs : Int) - (log2 a.den : Int) + 1) := by
    rw [pow2_eq, show ((log2 a.num.natAbs : Int) - (log2 a.den : Int) + 1)
      = ((log2 a.num.natAbs + 1 : Nat) : Int) - ((log2 a.den : Nat) : Int) by push_cast; ring,
      zpow_sub₀ (by norm_num), zpow_natCast, zpow_natCast]
    conv_lhs => rw [hq]
    rw [div_lt_div_iff₀ hd (by positivity)]
    calc (a.num.natAbs : ℚ) * 2 ^ log2 a.den
        ≤ (a.num.natAbs : ℚ) * a.den := by
          apply mul_le_mul_of_nonneg_left d1q (by positivity)
      _ < 2 ^ (log2 a.num.natAbs + 1) * a.den := by
          apply mul_lt_mul_of_pos_right n2q hd
  have hlo : pow2 ((log2 a.num.natAbs : Int) - (log2 a.den : Int) - 1) ≤ a := by
    rw [pow2_eq, show ((log2 a.num.natAbs : Int) - (log2 a.den : Int) - 1)
      = ((log2 a.num.natAbs : Nat) : Int) - ((log2 a.den + 1 : Nat) : Int) by push_cast; ring,
      zpow_sub₀ (by norm_num), zpow_natCast, zpow_natCast]
    conv_rhs => rw [hq]
    rw [div_le_div_iff₀ (by positivity) hd]
    calc (2 : ℚ) ^ log2 a.num.natAbs * a.den
        ≤ (a.num.natAbs : ℚ) * a.den := by
          apply mul_le_mul_of_nonneg_right n1q hd.le
      _ ≤ (a.num.natAbs : ℚ) * 2 ^ (log2 a.den + 1) := by
          apply mul_le_mul_of_nonneg_left d2q.le (by positivity)
  unfold ilog2
  simp only
  split_ifs with hk
  · exact ⟨hk, hup⟩
  · refine ⟨hlo, ?_⟩
    rw [sub_add_cancel]
    exact not_le.mp hk

theorem ilog2_mono {a b : ℚ} (ha : 0 < a) (hab : a ≤ b) : ilog2 a ≤ ilog2 b := by
  by_contra h
  have h1 : ilog2 b + 1 ≤ ilog2 a := by omega
  have := (ilog2_spec a ha).1
  have := (ilog2_spec b (lt_of_lt_of_le ha hab)).2
  have := pow2_le_pow2 h1
  linarith

theorem roundHalfEven_intCast (z : Int) : roundHalfEven (z : ℚ) = z := by
  unfold roundHalfEven
  simp

theorem roundHalfEven_mono {m n : ℚ} (h : m ≤ n) : roundHalfEven m ≤ roundHalfEven n := by
  have hf : ⌊m⌋ ≤ ⌊n⌋ := Int.floor_mono h
  have hm1 := Int.floor_le m
  have hm2 := Int.lt_floor_add_one m
  have hn1 := Int.floor_le n
  have hn2 := Int.lt_floor_add_one n
  unfold roundHalfEven
  simp only
  rcases lt_or_eq_of_le hf with hlt | heq
  · split_ifs <;> omega
  · rw [← heq] at hn1 hn2 ⊢
    split_ifs <;> first | omega | (exfalso; linarith)

theorem roundHalfEven_neg (m : ℚ) : roundHalfEven (-m) = -roundHalfEven m := by
  have hm1 := Int.floor_le m
  have hm2 := Int.lt_floor_add_one m
  by_cases hint : (⌊m⌋ : ℚ) = m
  · rw [← hint, ← Int.cast_neg, roundHalfEven_intCast, roundHalfEven_intCast]
  · have hlt : (⌊m⌋ : ℚ) < m := lt_of_le_of_ne hm1 hint
    have hfl : ⌊-m⌋ = -⌊m⌋ - 1 := by
      rw [Int.floor_eq_iff]
      push_cast
      constructor <;> linarith
    unfold roundHalfEven
    simp only [hfl]
    push_cast
    split_ifs <;> first | omega | (exfalso; linarith)

theorem roundFin_zero : roundFin 0 = 0 := by
  unfold roundFin roundHalfEven
  simp

theorem ulp_pos (q : ℚ) : 0 < ulp q := pow2_pos _

theorem ulp_neg (q : ℚ) : ulp (-q) = ulp q := by
  unfold ulp
  rw [abs_neg]

theorem roundFin_neg (q : ℚ) : roundFin (-q) = -roundFin q := by
  unfold roundFin
  rw [ulp_neg, neg_div, roundHalfEven_neg]
  push_cast
  ring

theorem roundFin_nonneg {q : ℚ} (h : 0 ≤ q) : 0 ≤ roundFin q := by
  unfold roundFin
  have h1 : (0 : ℚ) ≤ q / ulp q := div_nonneg h (ulp_pos q).le
  have h2 := roundHalfEven_mono h1
  rw [show (0 : ℚ) = ((0 : Int) : ℚ) by norm_num, roundHalfEven_intCast] at h2
  have h3 : (0 : ℚ) ≤ (roundHalfEven (q / ulp q) : ℚ) := by exact_mod_cast h2
  exact mul_nonneg h3 (ulp_pos q).le

theorem roundFin_mono_pos {x y : ℚ} (hx : 0 < x) (hxy : x ≤ y) : roundFin x ≤ roundFin y := by
  have hy : 0 < y := lt_of_lt_of_le hx hxy
  have hE : max (ilog2 x) (-1022) ≤ max (ilog2 y) (-1022) :=
    max_le_max (ilog2_mono hx hxy) (le_refl _)
  unfold roundFin ulp
  rw [abs_of_pos hx, abs_of_pos hy]
  rcases lt_or_eq_of_le hE with hlt | heq
  · -- different binades
    have hEy : max (ilog2 y) (-1022) = ilog2 y := by
      rcases le_total (ilog2 y) (-1022) with h | h
      · rw [max_eq_right h] at hlt hE
        have := le_max_right (ilog2 x) (-1022)
        omega
      · exact max_eq_left h
    set Ex := max (ilog2 x) (-1022) with hEx
    set Ey := max (ilog2 y) (-1022) with hEyd
    have hux := pow2_pos (Ex - 52)
    have huy := pow2_pos (Ey - 52)
    -- upper bound for x
    have hx2 : x < pow2 (Ex + 1) :=
      lt_of_lt_of_le (ilog2_spec x hx).2 (pow2_le_pow2 (by
        have := le_max_left (ilog2 x) (-1022)
        omega))
    have h53 : pow2 (Ex + 1) = ((2 ^ 53 : Int) : ℚ) * pow2 (Ex - 52) := by
      have h1 : pow2 (Ex + 1) = pow2 (53 + (Ex - 52)) := by
        congr 1
        ring
      have h2 : pow2 53 = ((2 ^ 53 : Int) : ℚ) := by
        rw [pow2_eq]
        norm_num
      rw [h1, pow2_add, h2]
    have hxu : x / pow2 (Ex - 52) ≤ ((2 ^ 53 : Int) : ℚ) := by
      rw [div_le_iff₀ hux, ← h53]
      exact hx2.le
    have hrx := roundHalfEven_mono hxu
    rw [roundHalfEven_intCast] at hrx
    have hrxq : (roundHalfEven (x / pow2 (Ex - 52)) : ℚ) ≤ ((2 ^ 53 : Int) : ℚ) := by
      exact_mod_cast hrx
    -- lower bound for y
    have hy2 : pow2 Ey ≤ y := by
      rw [hEy]
      exact (ilog2_spec y hy).1
    have h52 : pow2 Ey = ((2 ^ 52 : Int) : ℚ) * pow2 (Ey - 52) := by
      have h1 : pow2 Ey = pow2 (52 + (Ey - 52)) := by
        congr 1
        ring
      have h2 : pow2 52 = ((2 ^ 52 : Int) : ℚ) := by
        rw [pow2_eq]
        norm_num
      rw [h1, pow2_add, h2]
    have hyu : ((2 ^ 52 : Int) : ℚ) ≤ y / pow2 (Ey - 52) := by
      rw [le_div_iff₀ huy, ← h52]
      exact hy2
    have hry := roundHalfEven_mono hyu
    rw [roundHalfEven_intCast] at hry
    have hryq : ((2 ^ 52 : Int) : ℚ) ≤ (roundHalfEven (y / pow2 (Ey - 52)) : ℚ) := by
      exact_mod_cast hry
    calc (roundHalfEven (x / pow2 (Ex - 52)) : ℚ) * pow2 (Ex - 52)
        ≤ ((2 ^ 53 : Int) : ℚ) * pow2 (Ex - 52) := mul_le_mul_of_nonneg_right hrxq hux.le
      _ = pow2 (Ex + 1) := h53.symm
      _ ≤ pow2 Ey := pow2_le_pow2 (by omega)
      _ = ((2 ^ 52 : Int) : ℚ) * pow2 (Ey - 52) := h52
      _ ≤ (roundHalfEven (y / pow2 (Ey - 52)) : ℚ) * pow2 (Ey - 52) :=
          mul_le_mul_of_nonneg_right hryq huy.le
  · rw [heq]
    have hu := pow2_pos (max (ilog2 y) (-1022) - 52)
    have hdiv : x / pow2 (max (ilog2 y) (-1022) - 52) ≤ y / pow2 (max (ilog2 y) (-1022) - 52) :=
      div_le_div_of_nonneg_right hxy hu.le
    have hr := roundHalfEven_mono hdiv
    have hrq : (roundHalfEven (x / pow2 (max (ilog2 y) (-1022) - 52)) : ℚ)
        ≤ (roundHalfEven (y / pow2 (max (ilog2 y) (-1022) - 52)) : ℚ) := by exact_mod_cast hr
    exact mul_le_mul_of_nonneg_right hrq hu.le

/-- Rounding is monotone. -/
theorem roundFin_mono {x y : ℚ} (hxy : x ≤ y) : roundFin x ≤ roundFin y := by
  rcases lt_trichotomy 0 x with hx | hx | hx
  · exact roundFin_mono_pos hx hxy
  · rw [← hx, roundFin_zero]
    exact roundFin_nonneg (hx ▸ hxy)
  · rcases le_or_lt 0 y with hy | hy
    · have h1 : roundFin x ≤ 0 := by
        have := roundFin_nonneg (show 0 ≤ -x by linarith)
        rw [roundFin_neg] at this
        linarith
      exact le_trans h1 (roundFin_nonneg hy)
    · have := roundFin_mono_pos (show 0 < -y by linarith) (show -y ≤ -x by linarith)
      rw [roundFin_neg, roundFin_neg] at this
      linarith

/-- A multiple `m * 2 ^ k` with `0 < m < 2 ^ 53` and `k ≥ -1074` is not changed
by rounding. -/
theorem roundFin_grid (m : Nat) (k : Int) (hm0 : 0 < m) (hm : m < 2 ^ 53) (hk : -1074 ≤ k) :
    roundFin ((m : ℚ) * pow2 k) = (m : ℚ) * pow2 k := by
  have hmq : (0 : ℚ) < m := by exact_mod_cast hm0
  have hx : 0 < (m : ℚ) * pow2 k := mul_pos hmq (pow2_pos k)
  obtain ⟨s1, s2⟩ := ilog2_spec _ hx
  set e := ilog2 ((m : ℚ) * pow2 k) with he
  have hke : e - 52 ≤ k := by
    by_contra hcon
    have h1 : k + 53 ≤ e := by omega
    have h2 : (m : ℚ) * pow2 k < pow2 (k + 53) := by
      rw [show k + 53 = 53 + k by ring, pow2_add]
      apply mul_lt_mul_of_pos_right _ (pow2_pos k)
      rw [pow2_eq]
      exact_mod_cast hm
    have := pow2_le_pow2 h1
    linarith
  have hE : max e (-1022) - 52 ≤ k := by
    rcases le_total e (-1022) with h | h
    · rw [max_eq_right h]; omega
    · rw [max_eq_left h]; exact hke
  obtain ⟨j, hj⟩ := Int.eq_ofNat_of_zero_le (show 0 ≤ k - (max e (-1022) - 52) by omega)
  have hkj : k = (j : Int) + (max e (-1022) - 52) := by omega
  unfold roundFin ulp
  rw [abs_of_pos hx, ← he]
  have hu := pow2_pos (max e (-1022) - 52)
  have hdiv : (m : ℚ) * pow2 k / pow2 (max e (-1022) - 52) = (((m * 2 ^ j : Nat) : Int) : ℚ) := by
    rw [div_eq_iff hu.ne.symm]
    conv_lhs => rw [hkj, pow2_add]
    rw [pow2_eq (j : Int), zpow_natCast]
    push_cast
    ring
  rw [hdiv, roundHalfEven_intCast, ← hdiv]
  field_simp

end Binary64

/-! ## Bounds on rounded results -/

namespace Binary64

/-- A positive double is a fixed point of the rounding and below `2 ^ 1024`. -/
theorem round64_fixed {q : ℚ} (hpos : 0 < q) (h : round64 q = fin q) :
    roundFin q = q ∧ q < pow2 1024 := by
  unfold round64 at h
  rw [if_neg hpos.ne.symm] at h
  split_ifs at h with hov
  have hq : roundFin q = q := fin.inj h
  rw [hq, abs_of_pos hpos] at hov
  exact ⟨hq, not_le.mp hov⟩

/-- A result that is at least a representable value `r` rounds to a value
that is at least `r`, or to `+inf`. -/
theorem round64_ge_of_grid (x r : ℚ) (hr : roundFin r = r) (hb : -pow2 1024 < r)
    (h : r ≤ x) : round64 x = pinf ∨ ∃ t, round64 x = fin t ∧ r ≤ t := by
  have hmono := roundFin_mono h
  rw [hr] at hmono
  unfold round64
  split_ifs with h0 hov hpos
  · exact Or.inr ⟨0, rfl, h0 ▸ h⟩
  · exact Or.inl rfl
  · exfalso
    have hx : x ≤ 0 := not_lt.mp hpos
    have h1 := roundFin_mono hx
    rw [roundFin_zero] at h1
    rw [abs_of_nonpos h1] at hov
    linarith
  · exact Or.inr ⟨roundFin x, rfl, hmono⟩

theorem lit_three_fifths : lit (3 / 5) = fin (5404319552844595 / 9007199254740992) := by
  decide!

theorem round64_one : round64 1 = fin 1 := by decide!

/-- The rounding at known values: the doubles nearest to 0.1 and to 1/3, the
sum `0.1 + 0.2`, the ties at `2 ^ 53 + 1` and `2 ^ 53 + 3`, the largest finite
double and the overflow threshold, and the smallest subnormal with the tie
below it. -/
theorem round64_examples :
    lit (1 / 10) = fin (3602879701896397 / 36028797018963968) ∧
      div64 (fin 1) (fin 3) = fin (6004799503160661 / 18014398509481984) ∧
      add64 (lit (1 / 10)) (lit (2 / 10)) = fin (1351079888211149 / 4503599627370496) ∧
      round64 (pow2 53 + 1) = fin (pow2 53) ∧
      round64 (pow2 53 + 3) = fin (pow2 53 + 4) ∧
      round64 (pow2 1024 - pow2 970 - 1) = fin (pow2 1024 - pow2 971) ∧
      round64 (pow2 1024 - pow2 970) = pinf ∧
      round64 (pow2 (-1075)) = fin 0 ∧
      round64 (3 * pow2 (-1076)) = fin (pow2 (-1074)) := by
  decide!

/-- The update `scaleFactor += (scaleFactor * factor - scaleFactor) * .6` in
binary64, from a scale factor that is a double of at least `2 ^ (-1022)` and
with a positive factor: the new scale factor is positive (possibly `+inf`). -/
theorem scaleStep_pos (q f : ℚ) (hq : round64 q = fin q) (hmin : pow2 (-1022) ≤ q)
    (hf : 0 < f) :
    gt (add64 (fin q) (mul64 (sub64 (mul64 (fin q) (fin f)) (fin q)) (lit (3 / 5))))
      (fin 0) = true := by
  have hqpos : 0 < q := lt_of_lt_of_le (pow2_pos _) hmin
  obtain ⟨hfix, hqmax⟩ := round64_fixed hqpos hq
  have hnegfix : roundFin (-q) = -q := by rw [roundFin_neg, hfix]
  obtain ⟨e1, e2⟩ := ilog2_spec q hqpos
  set E := ilog2 q with hE
  have hEmin : -1022 ≤ E := by
    by_contra hcon
    have h1 : E + 1 ≤ -1022 := by omega
    have := pow2_le_pow2 h1
    linarith
  have h32 : pow2 E = 32 * pow2 (E - 5) := by
    have h1 : pow2 E = pow2 (5 + (E - 5)) := by
      congr 1
      ring
    have h2 : pow2 5 = 32 := by
      rw [pow2_eq]
      norm_num
    rw [h1, pow2_add, h2]
  have h64 : pow2 (E + 1) = 64 * pow2 (E - 5) := by
    have h1 : pow2 (E + 1) = pow2 (6 + (E - 5)) := by
      congr 1
      ring
    have h2 : pow2 6 = 64 := by
      rw [pow2_eq]
      norm_num
    rw [h1, pow2_add, h2]
  have hu := pow2_pos (E - 5)
  -- the two representable values: `R` above `q * 0.6`, `ρ` below `q - R`
  obtain ⟨R, ρ, hR, hρ, hRq, hρpos, hρle, hRlt⟩ :
      ∃ R ρ : ℚ, roundFin R = R ∧ roundFin ρ = ρ ∧ q * (3 / 5) ≤ R ∧ 0 < ρ ∧ ρ ≤ q - R ∧
        R < q := by
    by_cases hcase : q < 40 * pow2 (E - 5)
    · refine ⟨((28 : Nat) : ℚ) * pow2 (E - 5), ((4 : Nat) : ℚ) * pow2 (E - 5),
        roundFin_grid 28 _ (by norm_num) (by norm_num) (by omega),
        roundFin_grid 4 _ (by norm_num) (by norm_num) (by omega), ?_, ?_, ?_, ?_⟩
      · push_cast; linarith
      · push_cast; linarith
      · push_cast; linarith
      · push_cast; linarith
    · have hcase' : 40 * pow2 (E - 5) ≤ q := not_lt.mp hcase
      refine ⟨((39 : Nat) : ℚ) * pow2 (E - 5), ((1 : Nat) : ℚ) * pow2 (E - 5),
        roundFin_grid 39 _ (by norm_num) (by norm_num) (by omega),
        roundFin_grid 1 _ (by norm_num) (by norm_num) (by omega), ?_, ?_, ?_, ?_⟩
      · push_cast; linarith
      · push_cast; linarith
      · push_cast; linarith
      · push_cast; linarith
  have hnegR : roundFin (-R) = -R := by rw [roundFin_neg, hR]
  have hpow : (0 : ℚ) < pow2 1024 := pow2_pos _
  rw [lit_three_fifths]
  -- the product `scaleFactor * factor`
  have hA : mul64 (fin q) (fin f) = round64 (q * f) := rfl
  rcases round64_ge_of_grid (q * f) 0 roundFin_zero (by linarith) (mul_pos hqpos hf).le
    with hA1 | ⟨a, hA1, ha⟩
  · rw [hA, hA1]
    have h1 : sub64 pinf (fin q) = pinf := rfl
    have h2 : mul64 pinf (fin (5404319552844595 / 9007199254740992)) = pinf := by
      unfold mul64
      rw [pinf_mul_fin, if_pos (by norm_num)]
      rfl
    rw [h1, h2]
    rfl
  · rw [hA, hA1]
    have hB : sub64 (fin a) (fin q) = round64 (a - q) := by
      unfold sub64
      rw [fin_sub_fin]
      rfl
    rcases round64_ge_of_grid (a - q) (-q) hnegfix (by linarith) (by linarith)
      with hB1 | ⟨b, hB1, hb⟩
    · rw [hB, hB1]
      have h2 : mul64 pinf (fin (5404319552844595 / 9007199254740992)) = pinf := by
        unfold mul64
        rw [pinf_mul_fin, if_pos (by norm_num)]
        rfl
      rw [h2]
      rfl
    · rw [hB, hB1]
      have hT : mul64 (fin b) (fin (5404319552844595 / 9007199254740992))
          = round64 (b * (5404319552844595 / 9007199254740992)) := rfl
      have hbc : -R ≤ b * (5404319552844595 / 9007199254740992) := by
        have h1 : q * (5404319552844595 / 9007199254740992) ≤ q * (3 / 5) :=
          mul_le_mul_of_nonneg_left (by norm_num) hqpos.le
        have h2 : -q * (5404319552844595 / 9007199254740992)
            ≤ b * (5404319552844595 / 9007199254740992) :=
          mul_le_mul_of_nonneg_right hb (by norm_num)
        linarith
      rcases round64_ge_of_grid _ (-R) hnegR (by linarith) hbc with hT1 | ⟨t, hT1, ht⟩
      · rw [hT, hT1]
        rfl
      · rw [hT, hT1]
        have hS : add64 (fin q) (fin t) = round64 (q + t) := rfl
        rcases round64_ge_of_grid (q + t) ρ hρ (by linarith) (by linarith)
          with hS1 | ⟨s, hS1, hs⟩
        · rw [hS, hS1]
          rfl
        · rw [hS, hS1]
          simp only [gt_fin_fin, decide_eq_true_eq]
          linarith

end Binary64

/-! ## The order of doubles -/

theorem Dbl.lt_self (x : Dbl) : lt x x = false := by
  cases x <;> simp

theorem Dbl.lt_chain {a b c : Dbl} (h1 : lt a b = true) (h2 : lt b c = true) :
    lt a c = true := by
  cases a <;> cases b <;> cases c <;> simp_all
  linarith

theorem Dbl.lt_pinf_of_lt {a b : Dbl} (h : lt a b = true) : lt a pinf = true := by
  cases a <;> cases b <;> simp_all

theorem Dbl.not_lt_pinf {x : Dbl} (h : lt x pinf = false) : x = pinf ∨ x = nan := by
  cases x <;> simp_all

theorem Dbl.lt_of_lt_of_not_lt {a b c : Dbl} (h1 : lt a b = true) (h2 : lt c b = false) :
    c = nan ∨ lt a c = true := by
  cases a <;> cases b <;> cases c <;> simp_all
  linarith

/-! ## The phase scan in binary64 -/

namespace Binary64

theorem scanCheck_spec (last : Dbl) (n k : Nat) (h : scanCheck last n (scanAngle k) = true) :
    (∀ j, j < n → lt (scanAngle (k + j)) (fin M_PI) = true ∧ scanAngle (k + j) ≠ fin 0) ∧
      lt (scanAngle (k + n)) (fin M_PI) = false ∧
      (0 < n → scanAngle (k + n - 1) = last) := by
  induction n generalizing k with
  | zero =>
    simp only [scanCheck, Bool.not_eq_true'] at h
    exact ⟨fun j hj => by omega, h, fun h0 => by omega⟩
  | succ n ih =>
    simp only [scanCheck, Bool.and_eq_true, Bool.or_eq_true, decide_eq_true_eq] at h
    obtain ⟨⟨⟨h1, h2⟩, h3⟩, h4⟩ := h
    obtain ⟨i1, i2, i3⟩ := ih (k + 1) h4
    refine ⟨fun j hj => ?_, ?_, fun _ => ?_⟩
    · rcases Nat.eq_zero_or_pos j with h0 | hpos
      · subst h0
        exact ⟨h1, h2⟩
      · have := i1 (j - 1) (by omega)
        rw [show k + 1 + (j - 1) = k + j by omega] at this
        exact this
    · rw [show k + (n + 1) = k + 1 + n by omega]
      exact i2
    · rcases h3 with h3 | h3
      · have := i3 (Nat.pos_of_ne_zero h3)
        rw [show k + 1 + n - 1 = k + (n + 1) - 1 by omega] at this
        exact this
      · rw [show k + (n + 1) - 1 = k + n by omega]
        by_cases hn : n = 0
        · subst hn
          exact h3
        · have := i3 (Nat.pos_of_ne_zero hn)
          rw [show k + 1 + n - 1 = k + n by omega] at this
          exact this

set_option maxRecDepth 100000 in
theorem scanCheck_366 :
    scanCheck (fin (7074237752028393 / 2251799813685248)) 366 (scanAngle 0) = true := by
  decide!

/-- In binary64 the loop condition `angle < M_PI` holds at the first 366
angles of the scan, none of which is zero, and fails at the next one; the
366th angle is `3.1415926535897722`. -/
theorem scan_passes :
    (∀ n, n < 366 → lt (scanAngle n) (fin M_PI) = true ∧ scanAngle n ≠ fin 0) ∧
      lt (scanAngle 366) (fin M_PI) = false ∧
      scanAngle 365 = fin (7074237752028393 / 2251799813685248) := by
  have h := scanCheck_spec _ 366 0 scanCheck_366
  simp only [Nat.zero_add] at h
  exact ⟨h.1, h.2.1, h.2.2 (by norm_num)⟩

theorem findAngleLoop_step (ext : Externals) (base : Dbl) (FC : List Dbl) (sim : Nat → Dbl)
    (fuel n : Nat) (min minAngle : Dbl) :
    findAngleLoop ext base FC sim findAngleDelta (fuel + 1) (scanAngle n) min minAngle =
      if lt (scanAngle n) (fin M_PI) then
        if lt (scanDistance ext base FC sim n) min then
          findAngleLoop ext base FC sim findAngleDelta fuel (scanAngle (n + 1))
            (scanDistance ext base FC sim n) (scanAngle n)
        else findAngleLoop ext base FC sim findAngleDelta fuel (scanAngle (n + 1)) min minAngle
      else minAngle := rfl

/-- The scan from its `n`-th angle on, when the running minimum is the
distance at the earlier angle `k`, the first of the least among those already
visited: the result is the first angle of least distance among all 366. -/
theorem findAngleLoop_best (ext : Externals) (base : Dbl) (FC : List Dbl) (sim : Nat → Dbl)
    (fuel n k : Nat) (hfuel : 367 ≤ n + fuel) (hn : n ≤ 366) (hk : k < n)
    (hfin : lt (scanDistance ext base FC sim k) pinf = true)
    (hmin : ∀ j, j < n →
      lt (scanDistance ext base FC sim j) (scanDistance ext base FC sim k) = false)
    (hfirst : ∀ j, j < k →
      lt (scanDistance ext base FC sim k) (scanDistance ext base FC sim j) = true ∨
        scanDistance ext base FC sim j = nan) :
    ∃ m, m < 366 ∧
      findAngleLoop ext base FC sim findAngleDelta fuel (scanAngle n)
          (scanDistance ext base FC sim k) (scanAngle k) = scanAngle m ∧
      lt (scanDistance ext base FC sim m) pinf = true ∧
      (∀ j, j < 366 →
        lt (scanDistance ext base FC sim j) (scanDistance ext base FC sim m) = false) ∧
      (∀ j, j < m →
        lt (scanDistance ext base FC sim m) (scanDistance ext base FC sim j) = true ∨
          scanDistance ext base FC sim j = nan) := by
  induction fuel generalizing n k with
  | zero => omega
  | succ fuel ih =>
    rw [findAngleLoop_step]
    by_cases hlt : n < 366
    · rw [if_pos (scan_passes.1 n hlt).1]
      by_cases hnk : lt (scanDistance ext base FC sim n) (scanDistance ext base FC sim k) = true
      · rw [if_pos hnk]
        refine ih (n + 1) n (by omega) (by omega) (by omega) (Dbl.lt_pinf_of_lt hnk) ?_ ?_
        · intro j hj
          rcases Nat.lt_succ_iff_lt_or_eq.mp hj with h | h
          · cases hc : lt (scanDistance ext base FC sim j) (scanDistance ext base FC sim n) with
            | false => rfl
            | true =>
              have := Dbl.lt_chain hc hnk
              rw [hmin j h] at this
              exact absurd this (by simp)
          · rw [h]
            exact Dbl.lt_self _
        · intro j hj
          rcases Dbl.lt_of_lt_of_not_lt hnk (hmin j hj) with h | h
          · exact Or.inr h
          · exact Or.inl h
      · rw [if_neg hnk]
        refine ih (n + 1) k (by omega) (by omega) (by omega) hfin ?_ hfirst
        intro j hj
        rcases Nat.lt_succ_iff_lt_or_eq.mp hj with h | h
        · exact hmin j h
        · rw [h]
          simpa using hnk
    · have e : n = 366 := by omega
      subst e
      rw [scan_passes.2.1]
      exact ⟨k, hk, by simp, hfin, hmin, hfirst⟩

/-- The scan from its `n`-th angle on, when no distance so far was below
`+inf`: the result is `0.0` if none is, and the first angle of least distance
otherwise. -/
theorem findAngleLoop_scan (ext : Externals) (base : Dbl) (FC : List Dbl) (sim : Nat → Dbl)
    (fuel n : Nat) (hfuel : 367 ≤ n + fuel) (hn : n ≤ 366)
    (hnone : ∀ j, j < n → lt (scanDistance ext base FC sim j) pinf = false) :
    (findAngleLoop ext base FC sim findAngleDelta fuel (scanAngle n) pinf (fin 0) = fin 0 ∧
        ∀ j, j < 366 → lt (scanDistance ext base FC sim j) pinf = false) ∨
      ∃ m, m < 366 ∧
        findAngleLoop ext base FC sim findAngleDelta fuel (scanAngle n) pinf (fin 0)
          = scanAngle m ∧
        lt (scanDistance ext base FC sim m) pinf = true ∧
        (∀ j, j < 366 →
          lt (scanDistance ext base FC sim j) (scanDistance ext base FC sim m) = false) ∧
        (∀ j, j < m →
          lt (scanDistance ext base FC sim m) (scanDistance ext base FC sim j) = true ∨
            scanDistance ext base FC sim j = nan) := by
  induction fuel generalizing n with
  | zero => omega
  | succ fuel ih =>
    rw [findAngleLoop_step]
    by_cases hlt : n < 366
    · rw [if_pos (scan_passes.1 n hlt).1]
      by_cases hnk : lt (scanDistance ext base FC sim n) pinf = true
      · rw [if_pos hnk]
        refine Or.inr (findAngleLoop_best ext base FC sim fuel (n + 1) n (by omega) (by omega)
          (by omega) hnk ?_ ?_)
        · intro j hj
          rcases Nat.lt_succ_iff_lt_or_eq.mp hj with h | h
          · rcases Dbl.not_lt_pinf (hnone j h) with e | e <;> rw [e] <;> simp
          · rw [h]
            exact Dbl.lt_self _
        · intro j hj
          rcases Dbl.not_lt_pinf (hnone j hj) with e | e
          · rw [e]
            exact Or.inl hnk
          · exact Or.inr e
      · rw [if_neg hnk]
        refine ih (n + 1) (by omega) (by omega) ?_
        intro j hj
        rcases Nat.lt_succ_iff_lt_or_eq.mp hj with h | h
        · exact hnone j h
        · rw [h]
          simpa using hnk
    · have e : n = 366 := by omega
      subst e
      rw [scan_passes.2.1]
      exact Or.inl ⟨by simp, hnone⟩

/-- The allowance of `findAngle` is never what ends the scan: a larger
allowance gives the same result. -/
theorem findAngleLoop_allowance (ext : Externals) (base : Dbl) (FC : List Dbl)
    (sim : Nat → Dbl) (fuel n : Nat) (h : 367 ≤ n + fuel) (hn : n ≤ 366) (min minAngle : Dbl) :
    findAngleLoop ext base FC sim findAngleDelta (fuel + 1) (scanAngle n) min minAngle
      = findAngleLoop ext base FC sim findAngleDelta fuel (scanAngle n) min minAngle := by
  induction fuel generalizing n min minAngle with
  | zero => omega
  | succ fuel ih =>
    conv_lhs => rw [findAngleLoop_step]
    conv_rhs => rw [findAngleLoop_step]
    by_cases hlt : n < 366
    · split
      · split
        · exact ih (n + 1) (by omega) (by omega) _ _
        · exact ih (n + 1) (by omega) (by omega) _ _
      · rfl
    · have e : n = 366 := by omega
      subst e
      simp [scan_passes.2.1]

theorem findAngle_allowance (ext : Externals) (base : Dbl) (FC : List Dbl) (sim : Nat → Dbl)
    (k : Nat) :
    findAngleLoop ext base FC sim findAngleDelta (367 + k) (-(fin M_PI)) pinf (fin 0)
      = findAngle ext base FC sim := by
  induction k with
  | zero => rfl
  | succ k ih =>
    rw [← ih]
    exact findAngleLoop_allowance ext base FC sim (367 + k) 0 (by omega) (by omega) pinf (fin 0)

/-- What `findAngle` returns in binary64. -/
theorem findAngle_scan (ext : Externals) (base : Dbl) (FC : List Dbl) (sim : Nat → Dbl) :
    (findAngle ext base FC sim = fin 0 ∧
        ∀ j, j < 366 → lt (scanDistance ext base FC sim j) pinf = false) ∨
      ∃ m, m < 366 ∧ findAngle ext base FC sim = scanAngle m ∧
        lt (scanDistance ext base FC sim m) pinf = true ∧
        (∀ j, j < 366 →
          lt (scanDistance ext base FC sim j) (scanDistance ext base FC sim m) = false) ∧
        (∀ j, j < m →
          lt (scanDistance ext base FC sim m) (scanDistance ext base FC sim j) = true ∨
            scanDistance ext base FC sim j = nan) :=
  findAngleLoop_scan ext base FC sim 367 0 (by omega) (by omega) (fun j hj => by omega)

end Binary64

/-! ## The averaging loop and the sums in binary64 -/

namespace Binary64

theorem avgAnnualLoop_other (q : Nat → Dbl) (i d : Nat) (h : d ≠ i % oneYear) :
    avgAnnualLoop q (i + 1) d = avgAnnualLoop q i d := by
  simp [avgAnnualLoop, Function.update_noteq h]

theorem avgAnnualLoop_same (q : Nat → Dbl) (i : Nat) :
    avgAnnualLoop q (i + 1) (i % oneYear) =
      add64 (avgAnnualLoop q i (i % oneYear)) (div64 (q i) (fin 5)) := by
  simp [avgAnnualLoop]

/-- The averaging loop inside year `y`: after the first `j` days of the year,
the days before `j` have received their entry of that year. -/
theorem avgAnnualLoop_year (q : Nat → Dbl) (y j d : Nat) (hj : j ≤ 365) :
    avgAnnualLoop q (365 * y + j) d =
      if d < j then add64 (avgAnnualLoop q (365 * y) d) (div64 (q (365 * y + d)) (fin 5))
      else avgAnnualLoop q (365 * y) d := by
  induction j with
  | zero => simp
  | succ j ih =>
    have ih := ih (by omega)
    have hmod : (365 * y + j) % oneYear = j := by
      simp only [oneYear]
      omega
    rw [show 365 * y + (j + 1) = 365 * y + j + 1 by omega]
    by_cases hdj : d = j
    · subst hdj
      have h := avgAnnualLoop_same q (365 * y + d)
      rw [hmod] at h
      rw [h, ih, if_neg (by omega), if_pos (by omega)]
    · rw [avgAnnualLoop_other q (365 * y + j) d (by rw [hmod]; exact hdj), ih]
      by_cases hlt : d < j
      · rw [if_pos hlt, if_pos (by omega)]
      · rw [if_neg hlt, if_neg (by omega)]

theorem avgAnnualLoop_next_year (q : Nat → Dbl) (y d : Nat) (hd : d < 365) :
    avgAnnualLoop q (365 * (y + 1)) d =
      add64 (avgAnnualLoop q (365 * y) d) (div64 (q (365 * y + d)) (fin 5)) := by
  have h := avgAnnualLoop_year q y 365 d (le_refl _)
  rw [if_pos hd] at h
  rw [← h]
  congr 1

/-- The averaged curve in binary64: for each day of the year, the five
same-day entries of the buffer, each divided by 5.0, added up year by year
from `0.0`. -/
theorem avgAnnualS_v_closed (q : Nat → Dbl) (d : Nat) (hd : d < 365) :
    avgAnnualS_v q d =
      add64 (add64 (add64 (add64 (add64 (fin 0) (div64 (q d) (fin 5)))
        (div64 (q (d + 365)) (fin 5))) (div64 (q (d + 730)) (fin 5)))
        (div64 (q (d + 1095)) (fin 5))) (div64 (q (d + 1460)) (fin 5)) := by
  have h5 : avgAnnualS_v q d = avgAnnualLoop q (365 * (4 + 1)) d := rfl
  have h0 : avgAnnualLoop q (365 * 0) d = fin 0 := rfl
  rw [h5, avgAnnualLoop_next_year q 4 d hd, avgAnnualLoop_next_year q 3 d hd,
    avgAnnualLoop_next_year q 2 d hd, avgAnnualLoop_next_year q 1 d hd,
    avgAnnualLoop_next_year q 0 d hd, h0]
  simp only [Nat.mul_zero, Nat.zero_add, Nat.mul_one]
  rw [show 365 + d = d + 365 by omega, show 365 * 2 + d = d + 730 by omega,
    show 365 * 3 + d = d + 1095 by omega, show 365 * 4 + d = d + 1460 by omega]

theorem sum_step (n : Nat) (f : Nat → Dbl) :
    vectors.sum (n + 1) f = add64 (vectors.sum n f) (f n) := by
  simp [vectors.sum, List.range_succ, List.foldl_append]

/-- A sum reads its vector on the index range only. -/
theorem sum_congr (n : Nat) (f g : Nat → Dbl) (h : ∀ i, i < n → f i = g i) :
    vectors.sum n f = vectors.sum n g := by
  induction n with
  | zero => rfl
  | succ n ih =>
    rw [sum_step, sum_step, ih (fun i hi => h i (Nat.lt_succ_of_lt hi)), h n (Nat.lt_succ_self n)]

theorem l1Distance_eq (temp sim : Nat → Dbl) :
    l1Distance temp sim = vectors.sum oneYear (fun i => fabs (sub64 (temp i) (sim i))) := rfl

/-- The L1 distance reads the two curves on the days of the year only. -/
theorem l1Distance_congr (temp temp2 sim sim2 : Nat → Dbl)
    (ht : ∀ i, i < oneYear → temp i = temp2 i) (hs : ∀ i, i < oneYear → sim i = sim2 i) :
    l1Distance temp sim = l1Distance temp2 sim2 := by
  rw [l1Distance_eq, l1Distance_eq]
  exact sum_congr oneYear _ _ (fun i hi => by rw [ht i hi, hs i hi])

/-! ## The two paths of `initIterate` in binary64 -/

/-- The fitting path in binary64: with the factor inside the accepted range
the call returns, with the state spelled out. -/
theorem fitting_path (ext : Externals) (st : FixedEmergence) (tr : MosqTransmission)
    (h1 : gt (FixedEmergence.factor st) (lit (1 / 1000000)) = true)
    (h2 : lt (FixedEmergence.factor st) (fin 1000000) = true) :
    FixedEmergence.initIterate ext st tr = Except.ok
      ({ st with
          scaleFactor := add64 st.scaleFactor
            (mul64 (sub64 (mul64 st.scaleFactor (FixedEmergence.factor st)) st.scaleFactor)
              (lit (3 / 5)))
          shiftAngle := add64 st.shiftAngle
            (findAngle ext st.EIRRotateAngle st.FSCoeffic (avgAnnualS_v st.quinquennialS_v))
          mosqEmergeRate := vectors.scale
            (ext.expIDFT st.FSCoeffic (-(add64 st.shiftAngle
              (findAngle ext st.EIRRotateAngle st.FSCoeffic (avgAnnualS_v st.quinquennialS_v)))))
            (mul64 (add64 st.scaleFactor
              (mul64 (sub64 (mul64 st.scaleFactor (FixedEmergence.factor st)) st.scaleFactor)
                (lit (3 / 5)))) st.initNv0FromSv) },
       { tr with
          initIterateScaleCalls := tr.initIterateScaleCalls ++
            [add64 st.scaleFactor
              (mul64 (sub64 (mul64 st.scaleFactor (FixedEmergence.factor st)) st.scaleFactor)
                (lit (3 / 5)))] },
       gt (fabs (sub64 (FixedEmergence.factor st) (fin 1))) (lit (1 / 20))) := by
  unfold FixedEmergence.factor at h1 h2
  unfold FixedEmergence.initIterate FixedEmergence.factor
  simp only [h1, h2, Bool.and_self, Bool.not_true, Bool.false_eq_true, if_false]

/-- The rejecting path in binary64: with the factor outside the accepted
range the call takes one of the three exits of the guard. -/
theorem rejecting_path (ext : Externals) (st : FixedEmergence) (tr : MosqTransmission)
    (h : (gt (FixedEmergence.factor st) (lit (1 / 1000000)) &&
      lt (FixedEmergence.factor st) (fin 1000000)) = false) :
    FixedEmergence.initIterate ext st tr =
      if gt (FixedEmergence.factor st) (fin 1000000) &&
          lt (vectors.sum fiveYears st.quinquennialS_v) (lit (1 / 1000)) then
        Except.error FitError.simulatedSvApproxZero
      else if Dbl.eq (vectors.sum oneYear st.forcedS_v) (fin 0) then
        Except.ok (st, tr, false)
      else Except.error FitError.factorOutOfBounds := by
  unfold FixedEmergence.factor at h
  unfold FixedEmergence.initIterate FixedEmergence.factor
  simp only [h, Bool.not_false, if_true]

end Binary64

/-! ## Sums of small whole numbers in binary64 -/

namespace Binary64

/-- A natural number below `2 ^ 53` is a double. -/
theorem round64_natCast (n : Nat) (hn : n < 2 ^ 53) : round64 (n : ℚ) = fin n := by
  rcases Nat.eq_zero_or_pos n with h0 | hpos
  · subst h0
    simp [round64]
  · have hgrid := roundFin_grid n 0 hpos hn (by norm_num)
    have hp0 : pow2 0 = 1 := by rw [pow2_eq]; norm_num
    rw [hp0, MulOneClass.mul_one] at hgrid
    have hq : (0 : ℚ) < n := by exact_mod_cast hpos
    have hlt : (n : ℚ) < pow2 1024 := by
      have h1 : (n : ℚ) < pow2 53 := by
        rw [pow2_eq]
        exact_mod_cast hn
      exact lt_of_lt_of_le h1 (pow2_le_pow2 (by norm_num))
    unfold round64
    rw [if_neg hq.ne.symm, hgrid, abs_of_pos hq, if_neg (not_le.mpr hlt)]

/-- The sum of `n` copies of a natural number `c` is exact in binary64 as long
as it stays below `2 ^ 53`. -/
theorem sum_const (c n : Nat) (h : c * n < 2 ^ 53) :
    vectors.sum n (fun _ => fin (c : ℚ)) = fin ((c * n : Nat) : ℚ) := by
  induction n with
  | zero => simp [vectors.sum]
  | succ n ih =>
    have hle : c * n ≤ c * (n + 1) := Nat.mul_le_mul_left c (Nat.le_succ n)
    rw [sum_step, ih (lt_of_le_of_lt hle h)]
    show round64 (((c * n : Nat) : ℚ) + (c : ℚ)) = fin ((c * (n + 1) : Nat) : ℚ)
    have hc : ((c * n : Nat) : ℚ) + (c : ℚ) = ((c * (n + 1) : Nat) : ℚ) := by
      push_cast
      ring
    rw [hc]
    exact round64_natCast _ h

end Binary64

/-! ## Flat curves in binary64 -/

namespace Binary64

theorem flat_distance_zero : l1Distance (fun _ => fin 1) (fun _ => fin 1) = fin 0 := by
  have h0 : fabs (sub64 (fin 1) (fin 1)) = fin ((0 : Nat) : ℚ) := by decide!
  rw [l1Distance_eq, h0, sum_const 0 oneYear (by norm_num)]
  norm_num

set_option maxRecDepth 100000 in
theorem nan_distance : l1Distance (fun _ => fin 1) (fun _ => nan) = nan := by
  decide!

theorem flat_sum_365 : vectors.sum oneYear (fun _ => fin 1) = fin 365 := by
  have h := sum_const 1 oneYear (by norm_num [oneYear])
  norm_num [oneYear] at h
  exact h

theorem flat_avg_one (d : Nat) (hd : d < 365) : avgAnnualS_v (fun _ => fin 1) d = fin 1 := by
  rw [avgAnnualS_v_closed _ d hd]
  decide!

/-- When every scanned distance is 0 the scan returns its first angle. -/
theorem findAngle_flat (ext : Externals) (base : Dbl) (FC : List Dbl) (sim : Nat → Dbl)
    (h : ∀ j, j < 366 → scanDistance ext base FC sim j = fin 0) :
    findAngle ext base FC sim = fin (-M_PI) := by
  rcases findAngle_scan ext base FC sim with ⟨_, hnone⟩ | ⟨m, hm, hres, _, _, hfirst⟩
  · have := hnone 0 (by omega)
    rw [h 0 (by omega)] at this
    simp at this
  · rcases Nat.eq_zero_or_pos m with h0 | hpos
    · rw [hres, h0]
      rfl
    · rcases hfirst 0 hpos with h1 | h1
      · rw [h m hm, h 0 (by omega)] at h1
        simp at h1
      · rw [h 0 (by omega)] at h1
        simp at h1

end Binary64

/-! ## The flat state and repeated fitting calls in binary64 -/

namespace Binary64

theorem flat_scanDistance (n : Nat) :
    scanDistance flatExt (flatState 1 1).EIRRotateAngle (flatState 1 1).FSCoeffic
      (avgAnnualS_v (flatState 1 1).quinquennialS_v) n = fin 0 := by
  exact (l1Distance_congr _ (fun _ => fin 1) _ (fun _ => fin 1) (fun _ _ => rfl)
    (fun i hi => flat_avg_one i hi)).trans flat_distance_zero

theorem flat_factor_one : FixedEmergence.factor (flatState 1 1) = fin 1 := by
  rw [FixedEmergence.factor, sum_congr oneYear (avgAnnualS_v (flatState 1 1).quinquennialS_v)
    (fun _ => fin 1) (fun i hi => flat_avg_one i hi)]
  have h : (flatState 1 1).forcedS_v = fun _ => fin 1 := rfl
  rw [h, flat_sum_365]
  decide!

/-- A fitting call leaves the target curve and the buffer as they are, hence
the factor of the next call. -/
theorem fitting_call (ext : Externals) (s : FixedEmergence × MosqTransmission)
    (h1 : gt (FixedEmergence.factor s.1) (lit (1 / 1000000)) = true)
    (h2 : lt (FixedEmergence.factor s.1) (fin 1000000) = true) :
    (applyCall ext s Call.initIterate).1.scaleFactor
        = scaleStep (FixedEmergence.factor s.1) s.1.scaleFactor ∧
      FixedEmergence.factor (applyCall ext s Call.initIterate).1 = FixedEmergence.factor s.1 := by
  rw [applyCall, fitting_path ext s.1 s.2 h1 h2, afterInitIterate]
  exact ⟨rfl, rfl⟩

/-- The scale factor after `n` fitting calls in a row. -/
theorem fitting_calls (ext : Externals) (n : Nat) (s : FixedEmergence × MosqTransmission)
    (h1 : gt (FixedEmergence.factor s.1) (lit (1 / 1000000)) = true)
    (h2 : lt (FixedEmergence.factor s.1) (fin 1000000) = true) :
    (runCalls ext s (List.replicate n Call.initIterate)).1.scaleFactor
      = (scaleStep (FixedEmergence.factor s.1))^[n] s.1.scaleFactor := by
  induction n generalizing s with
  | zero => rfl
  | succ n ih =>
    obtain ⟨e1, e2⟩ := fitting_call ext s h1 h2
    rw [List.replicate_succ, runCalls, List.foldl_cons, ← runCalls,
      ih (applyCall ext s Call.initIterate) (by rw [e2]; exact h1) (by rw [e2]; exact h2),
      e1, e2, Function.iterate_succ_apply]

/-- A checked list of scale factors gives the scale factor after any number
of fitting calls from its first entry. -/
theorem chainCheck_iterate (f : Dbl) (l : List Dbl) (a : Dbl)
    (h : chainCheck f (a :: l) = true) (n : Nat) (hn : n ≤ l.length) :
    (scaleStep f)^[n] a = (a :: l).getD n nan := by
  induction n generalizing a l with
  | zero => rfl
  | succ n ih =>
    cases l with
    | nil => simp at hn
    | cons b rest =>
      simp only [chainCheck, Bool.and_eq_true, decide_eq_true_eq] at h
      rw [Function.iterate_succ_apply, h.1, ih rest b h.2 (by simpa using hn)]
      rfl

set_option maxRecDepth 100000 in
theorem steepScales_check : chainCheck (fin 524288) steepScales = true := by decide!

theorem steep_sum : vectors.sum oneYear (fun _ => fin 2621440) = fin 956825600 := by
  have h := sum_const 2621440 oneYear (by norm_num [oneYear])
  norm_num [oneYear] at h
  exact h

theorem steep_sum_avg : vectors.sum oneYear (fun _ => fin 5) = fin 1825 := by
  have h := sum_const 5 oneYear (by norm_num [oneYear])
  norm_num [oneYear] at h
  exact h

theorem steep_avg (d : Nat) (hd : d < 365) : avgAnnualS_v (fun _ => fin 5) d = fin 5 := by
  rw [avgAnnualS_v_closed _ d hd]
  decide!

theorem steep_factor : FixedEmergence.factor steepStart.1 = fin 524288 := by
  have hq : steepStart.1.quinquennialS_v = fun _ => fin 5 := rfl
  have hf : steepStart.1.forcedS_v = fun _ => fin 2621440 := rfl
  rw [FixedEmergence.factor, hq, hf,
    sum_congr oneYear (avgAnnualS_v (fun _ => fin 5)) (fun _ => fin 5)
      (fun i hi => steep_avg i hi), steep_sum, steep_sum_avg]
  decide!

end Binary64

/-! # Claims -/

/-! ## C1 -/

/-- C2, as stated, fails: on the flat state with target 1 and observed buffer
1 the averaged curve equals the curve synthesized at the base angle (multiple
1), yet in binary64 `findAngle` returns `-M_PI`, not 0, and one `initIterate`
call takes `shiftAngle` from 0 to `-M_PI`. -/
theorem C2_counterexample :
    (∀ d, d < oneYear →
        Binary64.avgAnnualS_v (flatState 1 1).quinquennialS_v d =
          Binary64.mul64 (fin 1)
            (flatExt.expIDFT (flatState 1 1).FSCoeffic (flatState 1 1).EIRRotateAngle d)) ∧
      Binary64.findAngle flatExt (flatState 1 1).EIRRotateAngle (flatState 1 1).FSCoeffic
          (Binary64.avgAnnualS_v (flatState 1 1).quinquennialS_v) = fin (-M_PI) ∧
      (flatState 1 1).shiftAngle = fin 0 ∧
      (Binary64.FixedEmergence.initIterate flatExt (flatState 1 1) noCalls).map
          (fun r => r.1.shiftAngle) = Except.ok (fin (-M_PI)) ∧
      fin (-M_PI) ≠ fin 0 := by
  have ha := Binary64.findAngle_flat flatExt (flatState 1 1).EIRRotateAngle
    (flatState 1 1).FSCoeffic (Binary64.avgAnnualS_v (flatState 1 1).quinquennialS_v)
    (fun j _ => Binary64.flat_scanDistance j)
  refine ⟨fun d hd => ?_, ha, rfl, ?_, by decide!⟩
  · have h1 : Binary64.mul64 (fin 1) (fin 1) = fin 1 := by decide!
    exact (Binary64.flat_avg_one d hd).trans h1.symm
  · rw [Binary64.fitting_path flatExt _ noCalls (by rw [Binary64.flat_factor_one]; decide!)
      (by rw [Binary64.flat_factor_one]; decide!)]
    simp only [Except.map, ha]
    have h0 : Binary64.add64 (flatState 1 1).shiftAngle (fin (-M_PI)) = fin (-M_PI) := by
      decide!
    rw [h0]

/-- C2, amended: for every engine state, phase-aligned or not, in which at
least one of the 366 scanned L1 distances is below `+inf`, `findAngle` returns
one of the 366 scanned angles, none of which is 0; when the factor is inside
the accepted range, one `initIterate` call returns with that angle added to
`shiftAngle`. -/
theorem C2_findAngle_nonzero (ext : Externals) (st : FixedEmergence) (tr : MosqTransmission)
    (hsome : ∃ n, n < 366 ∧
      lt (Binary64.scanDistance ext st.EIRRotateAngle st.FSCoeffic
        (Binary64.avgAnnualS_v st.quinquennialS_v) n) pinf = true)
    (h1 : gt (Binary64.FixedEmergence.factor st) (Binary64.lit (1 / 1000000)) = true)
    (h2 : lt (Binary64.FixedEmergence.factor st) (fin 1000000) = true) :
    ∃ m, m < 366 ∧
      Binary64.findAngle ext st.EIRRotateAngle st.FSCoeffic
          (Binary64.avgAnnualS_v st.quinquennialS_v) = Binary64.scanAngle m ∧
      Binary64.scanAngle m ≠ fin 0 ∧
      (Binary64.FixedEmergence.initIterate ext st tr).map (fun r => r.1.shiftAngle)
        = Except.ok (Binary64.add64 st.shiftAngle (Binary64.scanAngle m)) := by
  obtain ⟨n, hn, hfin⟩ := hsome
  rcases Binary64.findAngle_scan ext st.EIRRotateAngle st.FSCoeffic
    (Binary64.avgAnnualS_v st.quinquennialS_v) with ⟨_, hnone⟩ | ⟨m, hm, hres, _, _, _⟩
  · rw [hnone n hn] at hfin
    simp at hfin
  · refine ⟨m, hm, hres, (Binary64.scan_passes.1 m hm).2, ?_⟩
    rw [Binary64.fitting_path ext st tr h1 h2]
    simp only [Except.map, hres]

/-- C2, amended, at the flat state with target 1 and observed buffer 1. -/
theorem C2_findAngle_nonzero_witness :
    ∃ m, m < 366 ∧
      Binary64.findAngle flatExt (flatState 1 1).EIRRotateAngle (flatState 1 1).FSCoeffic
          (Binary64.avgAnnualS_v (flatState 1 1).quinquennialS_v) = Binary64.scanAngle m ∧
      Binary64.scanAngle m ≠ fin 0 ∧
      (Binary64.FixedEmergence.initIterate flatExt (flatState 1 1) noCalls).map
          (fun r => r.1.shiftAngle)
        = Except.ok (Binary64.add64 (flatState 1 1).shiftAngle (Binary64.scanAngle m)) :=
  C2_findAngle_nonzero flatExt (flatState 1 1) noCalls
    ⟨0, by omega, by rw [Binary64.flat_scanDistance]; rfl⟩
    (by rw [Binary64.flat_factor_one]; decide!)
    (by rw [Binary64.flat_factor_one]; decide!)

/-! ## C3 -/

/-- C4, as stated, fails: on the flat state with target `1e-14` and observed
buffer `1e-7` the target sum is not 0, the factor `1e-7` is below the accepted
range and the buffer sums to `1.825e-4`, below `1e-3`, yet `initIterate`
raises "factor out of bounds", not the degenerate-transmission exception. -/
theorem C4_counterexample :
    Dbl.eq (vectors.sum oneYear (flatState (1 / 100000000000000) (1 / 10000000)).forcedS_v)
        (fin 0) = false ∧
      (flatState (1 / 100000000000000) (1 / 10000000)).factor = fin (1 / 10000000) ∧
      gt (fin (1 / 10000000)) (fin (1 / 1000000)) = false ∧
      lt (vectors.sum fiveYears (flatState (1 / 100000000000000) (1 / 10000000)).quinquennialS_v)
        (fin (1 / 1000)) = true ∧
      (flatState (1 / 100000000000000) (1 / 10000000)).initIterate flatExt noCalls
        = Except.error FitError.factorOutOfBounds := by
  have hf : (flatState (1 / 100000000000000) (1 / 10000000)).factor = fin (1 / 10000000) := by
    rw [flat_factor _ _ (by norm_num)]; norm_num
  have hq : lt (vectors.sum fiveYears
      (flatState (1 / 100000000000000) (1 / 10000000)).quinquennialS_v) (fin (1 / 1000)) = true := by
    rw [flat_sum_buffer]; simp; norm_num
  have hF : Dbl.eq (vectors.sum oneYear
      (flatState (1 / 100000000000000) (1 / 10000000)).forcedS_v) (fin 0) = false := by
    rw [flat_sum_forced]; simp
  refine ⟨hF, hf, ?_, hq, ?_⟩
  · simp; norm_num
  · rw [initIterate_reject flatExt _ noCalls (by rw [hf]; simp; norm_num), hf, hq, hF]
    simp
    norm_num

/-- C4, amended: when the target sum is not 0 and the factor is outside the
accepted range (NaN included), `initIterate` raises; the exception is the
degenerate-transmission one exactly when the factor exceeds `1e6` and the
buffer sums to less than `1e-3`, and "factor out of bounds" otherwise, in
particular whenever the factor is too small. -/
theorem C4_initIterate_rejects (ext : Externals) (st : FixedEmergence) (tr : MosqTransmission)
    (hne : Dbl.eq (vectors.sum oneYear st.forcedS_v) (fin 0) = false)
    (hout : (gt st.factor (fin (1 / 1000000)) && lt st.factor (fin 1000000)) = false) :
    st.initIterate ext tr =
      Except.error
        (if gt st.factor (fin 1000000) &&
            lt (vectors.sum fiveYears st.quinquennialS_v) (fin (1 / 1000))
         then FitError.simulatedSvApproxZero else FitError.factorOutOfBounds) := by
  rw [initIterate_reject ext st tr hout, hne]
  split <;> simp

/-- C4, amended, at the flat state with target `1e-14` and observed buffer
`1e-7`, whose factor is too small. -/
theorem C4_initIterate_rejects_witness :
    (flatState (1 / 100000000000000) (1 / 10000000)).initIterate flatExt noCalls =
      Except.error
        (if gt (flatState (1 / 100000000000000) (1 / 10000000)).factor (fin 1000000) &&
            lt (vectors.sum fiveYears
              (flatState (1 / 100000000000000) (1 / 10000000)).quinquennialS_v) (fin (1 / 1000))
         then FitError.simulatedSvApproxZero else FitError.factorOutOfBounds) :=
  C4_initIterate_rejects flatExt (flatState (1 / 100000000000000) (1 / 10000000)) noCalls
    (by rw [flat_sum_forced]; simp)
    (by rw [flat_factor _ _ (by norm_num)]; simp; norm_num)

/-! ## C5 -/

/-- C5: when `forcedS_v` sums to 0, whatever the five-year buffer holds,
`initIterate` returns `false` without raising and leaves the engine (so
`scaleFactor`, `shiftAngle` and `mosqEmergeRate`) and the transmission
collaborator (so its list of pushed scales) exactly as they were. -/
theorem C5_initIterate_no_transmission (ext : Externals) (st : FixedEmergence)
    (tr : MosqTransmission) (h : vectors.sum oneYear st.forcedS_v = fin 0) :
    st.initIterate ext tr = Except.ok (st, tr, false) := by
  have hout : (gt st.factor (fin (1 / 1000000)) && lt st.factor (fin 1000000)) = false := by
    rw [FixedEmergence.factor, h]
    cases vectors.sum oneYear (avgAnnualS_v st.quinquennialS_v) <;> simp [fin_div_fin]
    split <;> simp
  have hbig : gt st.factor (fin 1000000) = false := by
    rw [FixedEmergence.factor, h]
    cases vectors.sum oneYear (avgAnnualS_v st.quinquennialS_v) <;> simp [fin_div_fin]
    split <;> simp
  rw [initIterate_reject ext st tr hout, hbig, h]
  simp

/-- C5 at the flat state with target 0 and observed buffer 1. -/
theorem C5_initIterate_no_transmission_witness :
    (flatState 0 1).initIterate flatExt noCalls = Except.ok (flatState 0 1, noCalls, false) :=
  C5_initIterate_no_transmission flatExt (flatState 0 1) noCalls
    (by rw [flat_sum_forced]; norm_num)

/-! ## C6 -/

/-- C6: when `1e-6 < factor < 1e6`, `initIterate` does not raise and the new
`scaleFactor` is `old + 0.6 * (old * factor - old)`. -/
theorem C6_initIterate_damped_update (ext : Externals) (st : FixedEmergence)
    (tr : MosqTransmission)
    (h1 : gt st.factor (fin (1 / 1000000)) = true) (h2 : lt st.factor (fin 1000000) = true) :
    (st.initIterate ext tr).map (fun r => r.1.scaleFactor)
      = Except.ok (st.scaleFactor + fin (3 / 5) * (st.scaleFactor * st.factor - st.scaleFactor)) := by
  rw [initIterate_fit ext st tr h1 h2, Dbl.mul_swap (fin (3 / 5))]
  simp only [Except.map]

/-- C6 at the flat state with target 1 and observed buffer 2 (factor 1/2). -/
theorem C6_initIterate_damped_update_witness :
    ((flatState 1 2).initIterate flatExt noCalls).map (fun r => r.1.scaleFactor)
      = Except.ok ((flatState 1 2).scaleFactor +
          fin (3 / 5) * ((flatState 1 2).scaleFactor * (flatState 1 2).factor -
            (flatState 1 2).scaleFactor)) :=
  C6_initIterate_damped_update flatExt (flatState 1 2) noCalls
    (by rw [flat_factor 1 2 (by norm_num)]; simp; norm_num)
    (by rw [flat_factor 1 2 (by norm_num)]; simp; norm_num)

/-! ## C7 -/

/-- C7: when `initIterate` completes the fitting step (factor inside the
accepted range), whatever the external synthesis and hence whatever offset
`findAngle` finds, the returned boolean is `fabs(factor - 1) > 0.05` with the
factor computed from the buffer as it was before the call. -/
theorem C7_initIterate_result (ext : Externals) (st : FixedEmergence) (tr : MosqTransmission)
    (h1 : gt st.factor (fin (1 / 1000000)) = true) (h2 : lt st.factor (fin 1000000) = true) :
    (st.initIterate ext tr).map (fun r => r.2.2)
      = Except.ok (gt (fabs (st.factor - fin 1)) (fin (1 / 20))) := by
  rw [initIterate_fit ext st tr h1 h2]
  simp only [Except.map]

/-- C7 at the flat state with target 1 and observed buffer 2 (factor 1/2,
so the result is `true`). -/
theorem C7_initIterate_result_witness :
    ((flatState 1 2).initIterate flatExt noCalls).map (fun r => r.2.2)
      = Except.ok (gt (fabs ((flatState 1 2).factor - fin 1)) (fin (1 / 20))) :=
  C7_initIterate_result flatExt (flatState 1 2) noCalls
    (by rw [flat_factor 1 2 (by norm_num)]; simp; norm_num)
    (by rw [flat_factor 1 2 (by norm_num)]; simp; norm_num)

/-! ## C8 -/

/-- C8, as stated, fails: after `init2` on a state whose observed buffer
holds 5 on every day, with a target curve of `5 * 2 ^ 19` on every day, each
`initIterate` call computes the factor `2 ^ 19`, inside the accepted range,
and fits; in binary64 the scale factor is `+inf` after the 57th call and NaN
after the 58th, and NaN is not above 0. -/
theorem C8_counterexample :
    steepStart.1.scaleFactor = fin 1 ∧
      Binary64.FixedEmergence.factor steepStart.1 = fin 524288 ∧
      (Binary64.runCalls steepExt steepStart
        (List.replicate 57 Call.initIterate)).1.scaleFactor = pinf ∧
      (Binary64.runCalls steepExt steepStart
        (List.replicate 58 Call.initIterate)).1.scaleFactor = nan ∧
      gt (Binary64.runCalls steepExt steepStart
        (List.replicate 58 Call.initIterate)).1.scaleFactor (fin 0) = false := by
  have h1 : gt (Binary64.FixedEmergence.factor steepStart.1) (Binary64.lit (1 / 1000000))
      = true := by
    rw [Binary64.steep_factor]
    decide!
  have h2 : lt (Binary64.FixedEmergence.factor steepStart.1) (fin 1000000) = true := by
    rw [Binary64.steep_factor]
    decide!
  have hs : steepStart.1.scaleFactor = fin 1 := rfl
  have h57 : (Binary64.scaleStep (fin 524288))^[57] (fin 1) = pinf :=
    (Binary64.chainCheck_iterate (fin 524288) steepScales.tail (fin 1)
      Binary64.steepScales_check 57 (by decide)).trans (by decide!)
  have h58 : (Binary64.scaleStep (fin 524288))^[58] (fin 1) = nan :=
    (Binary64.chainCheck_iterate (fin 524288) steepScales.tail (fin 1)
      Binary64.steepScales_check 58 (by decide)).trans (by decide!)
  refine ⟨hs, Binary64.steep_factor, ?_, ?_, ?_⟩
  · rw [Binary64.fitting_calls steepExt 57 steepStart h1 h2, Binary64.steep_factor, hs, h57]
  · rw [Binary64.fitting_calls steepExt 58 steepStart h1 h2, Binary64.steep_factor, hs, h58]
  · rw [Binary64.fitting_calls steepExt 58 steepStart h1 h2, Binary64.steep_factor, hs, h58]
    rfl

/-- C8, amended: after `init2` the scale factor is 1.0. An `update` call and
an `initIterate` call whose factor is outside the accepted range (it raises,
or returns at the no-transmission exit) leave the scale factor as it is. A
call of either kind on an engine whose scale factor is a finite double of at
least `2 ^ (-1022)` leaves a scale factor above 0 (possibly `+inf`). -/
theorem C8_scaleFactor_step (ext : Externals) (st : FixedEmergence)
    (tsP_A tsP_df tsP_dff EIRtoS_v : Dbl) (tr : MosqTransmission)
    (s : FixedEmergence × MosqTransmission) (q : ℚ)
    (hq : s.1.scaleFactor = fin q) (hdbl : Binary64.round64 q = fin q)
    (hmin : Binary64.pow2 (-1022) ≤ q) :
    (Binary64.FixedEmergence.init2 ext st tsP_A tsP_df tsP_dff EIRtoS_v tr).1.scaleFactor
        = fin 1 ∧
      (∀ (s0 : FixedEmergence × MosqTransmission) (iS : Dbl) (d0 : Int) (nOv S_v : Dbl),
        (Binary64.applyCall ext s0 (Call.update iS d0 nOv S_v)).1.scaleFactor
          = s0.1.scaleFactor) ∧
      (∀ s0 : FixedEmergence × MosqTransmission,
        (gt (Binary64.FixedEmergence.factor s0.1) (Binary64.lit (1 / 1000000)) &&
          lt (Binary64.FixedEmergence.factor s0.1) (fin 1000000)) = false →
        (Binary64.applyCall ext s0 Call.initIterate).1.scaleFactor = s0.1.scaleFactor) ∧
      (∀ c : Call, gt (Binary64.applyCall ext s c).1.scaleFactor (fin 0) = true) := by
  have hqpos : 0 < q := lt_of_lt_of_le (Binary64.pow2_pos _) hmin
  have hrej : ∀ s0 : FixedEmergence × MosqTransmission,
      (gt (Binary64.FixedEmergence.factor s0.1) (Binary64.lit (1 / 1000000)) &&
        lt (Binary64.FixedEmergence.factor s0.1) (fin 1000000)) = false →
      (Binary64.applyCall ext s0 Call.initIterate).1.scaleFactor = s0.1.scaleFactor := by
    intro s0 hr
    rw [Binary64.applyCall, Binary64.rejecting_path ext s0.1 s0.2 hr]
    split
    · rfl
    · split
      · rfl
      · rfl
  refine ⟨rfl, fun _ _ _ _ _ => rfl, hrej, ?_⟩
  intro c
  cases c with
  | update iS d0 nOv S_v =>
    show gt s.1.scaleFactor (fin 0) = true
    rw [hq]
    simpa using hqpos
  | initIterate =>
    cases hr : (gt (Binary64.FixedEmergence.factor s.1) (Binary64.lit (1 / 1000000)) &&
        lt (Binary64.FixedEmergence.factor s.1) (fin 1000000)) with
    | true =>
      have h1 : gt (Binary64.FixedEmergence.factor s.1) (Binary64.lit (1 / 1000000)) = true := by
        revert hr
        cases gt (Binary64.FixedEmergence.factor s.1) (Binary64.lit (1 / 1000000)) <;> simp
      have h2 : lt (Binary64.FixedEmergence.factor s.1) (fin 1000000) = true := by
        revert hr
        cases lt (Binary64.FixedEmergence.factor s.1) (fin 1000000) <;> simp
      have hlit : Binary64.lit (1 / 1000000)
          = fin (4722366482869645 / 4722366482869645213696) := by decide!
      rw [(Binary64.fitting_call ext s h1 h2).1, hq]
      rw [hlit] at h1
      cases hf : Binary64.FixedEmergence.factor s.1 with
      | fin f =>
        rw [hf] at h1
        have hfpos : 0 < f := by
          have : (4722366482869645 / 4722366482869645213696 : ℚ) < f := by simpa using h1
          linarith [show (0 : ℚ) < 4722366482869645 / 4722366482869645213696 by norm_num]
        exact Binary64.scaleStep_pos q f hdbl hmin hfpos
      | pinf => rw [hf] at h2; simp at h2
      | ninf => rw [hf] at h1; simp at h1
      | nan => rw [hf] at h1; simp at h1
    | false =>
      rw [hrej s hr, hq]
      simpa using hqpos

/-- C8, amended, at the flat state with target 1, observed buffer 1 and scale
factor 1: after an `initIterate` call and after an `update` call the scale
factor is above 0. -/
theorem C8_scaleFactor_step_witness :
    gt (Binary64.applyCall flatExt (flatState 1 1, noCalls) Call.initIterate).1.scaleFactor
        (fin 0) = true ∧
      gt (Binary64.applyCall flatExt (flatState 1 1, noCalls)
        (Call.update (fin 1) 0 (fin 0) (fin 1))).1.scaleFactor (fin 0) = true :=
  ⟨(C8_scaleFactor_step flatExt (flatState 1 1) (fin 0) (fin 0) (fin 0) (fin 1) noCalls
      (flatState 1 1, noCalls) 1 rfl (by decide!) (by decide!)).2.2.2 Call.initIterate,
    (C8_scaleFactor_step flatExt (flatState 1 1) (fin 0) (fin 0) (fin 0) (fin 1) noCalls
      (flatState 1 1, noCalls) 1 rfl (by decide!) (by decide!)).2.2.2
      (Call.update (fin 1) 0 (fin 0) (fin 1))⟩

/-! ## C9 -/

/-- C9: `update` stores `S_v` at index `(d0 + 1) mod (5 * 365)` of the
five-year buffer (an index inside the buffer), leaves every other entry and
every other field of the engine unchanged, and returns
`mosqEmergeRate[d0 mod 365] * interventionSurvival()`. -/
theorem C9_update (st : FixedEmergence) (interventionSurvival : Dbl) (d0 : Int)
    (nOvipositing S_v : Dbl) :
    ((d0 + 1) % (5 * 365)).toNat < 5 * 365 ∧
      (st.update interventionSurvival d0 nOvipositing S_v).1.quinquennialS_v
        ((d0 + 1) % (5 * 365)).toNat = S_v ∧
      (∀ i, i ≠ ((d0 + 1) % (5 * 365)).toNat →
        (st.update interventionSurvival d0 nOvipositing S_v).1.quinquennialS_v i
          = st.quinquennialS_v i) ∧
      (st.update interventionSurvival d0 nOvipositing S_v).1.mosqEmergeRate = st.mosqEmergeRate ∧
      (st.update interventionSurvival d0 nOvipositing S_v).1.scaleFactor = st.scaleFactor ∧
      (st.update interventionSurvival d0 nOvipositing S_v).1.shiftAngle = st.shiftAngle ∧
      (st.update interventionSurvival d0 nOvipositing S_v).1.forcedS_v = st.forcedS_v ∧
      (st.update interventionSurvival d0 nOvipositing S_v).1.FSCoeffic = st.FSCoeffic ∧
      (st.update interventionSurvival d0 nOvipositing S_v).1.initNv0FromSv = st.initNv0FromSv ∧
      (st.update interventionSurvival d0 nOvipositing S_v).2
        = st.mosqEmergeRate (d0 % 365).toNat * interventionSurvival := by
  have e : mod_nn (d0 + 1) fiveYears = ((d0 + 1) % (5 * 365)).toNat := by
    simp [mod_nn, fiveYears, oneYear]
  have e365 : mod_nn d0 oneYear = (d0 % 365).toNat := by
    simp [mod_nn, oneYear]
  refine ⟨?_, ?_, ?_, rfl, rfl, rfl, rfl, rfl, rfl, ?_⟩
  · omega
  · simp only [FixedEmergence.update, e, Function.update_same]
  · intro i hi
    simp only [FixedEmergence.update, e, Function.update_noteq hi]
  · simp only [FixedEmergence.update, e365]

/-! ## C10 -/

/-- C10: after `init2`, `scaleFactor = 1`, `shiftAngle = 0`, the baseline
constant `initNv0FromSv` is `initNvFromSv * (1 - tsP_A - tsP_df)`, `forcedS_v`
is the curve synthesized at `EIRRotateAngle` from the coefficients whose first
entry has been increased by `log(EIRtoS_v)`, and on every day
`mosqEmergeRate[d] = forcedS_v[d] * initNv0FromSv`. -/
theorem C10_init2 (ext : Externals) (st : FixedEmergence)
    (tsP_A tsP_df tsP_dff EIRtoS_v : Dbl) (tr : MosqTransmission) :
    (st.init2 ext tsP_A tsP_df tsP_dff EIRtoS_v tr).1.scaleFactor = fin 1 ∧
      (st.init2 ext tsP_A tsP_df tsP_dff EIRtoS_v tr).1.shiftAngle = fin 0 ∧
      (st.init2 ext tsP_A tsP_df tsP_dff EIRtoS_v tr).1.initNv0FromSv
        = st.initNvFromSv * (fin 1 - tsP_A - tsP_df) ∧
      (st.init2 ext tsP_A tsP_df tsP_dff EIRtoS_v tr).1.forcedS_v
        = ext.expIDFT (addToFirst (ext.log EIRtoS_v) st.FSCoeffic) st.EIRRotateAngle ∧
      (∀ c cs, addToFirst (ext.log EIRtoS_v) (c :: cs) = (c + ext.log EIRtoS_v) :: cs) ∧
      (∀ d, (st.init2 ext tsP_A tsP_df tsP_dff EIRtoS_v tr).1.mosqEmergeRate d
        = (st.init2 ext tsP_A tsP_df tsP_dff EIRtoS_v tr).1.forcedS_v d *
            (st.initNvFromSv * (fin 1 - tsP_A - tsP_df))) :=
  ⟨rfl, rfl, rfl, rfl, fun _ _ => rfl, fun _ => rfl⟩

/-! ## More facts about doubles -/

namespace Dbl

@[simp] theorem le_fin_fin (a b : ℚ) : le (fin a) (fin b) = decide (a ≤ b) := rfl
@[simp] theorem le_nan (x : Dbl) : le x nan = false := by cases x <;> rfl
@[simp] theorem nan_le (x : Dbl) : le nan x = false := by cases x <;> rfl

theorem mul_one (x : Dbl) : x * fin 1 = x := by
  cases x <;> simp [pinf_mul_fin, ninf_mul_fin]

theorem one_mul (x : Dbl) : fin 1 * x = x := by
  cases x <;> simp [fin_mul_pinf, fin_mul_ninf]

theorem fin_zero_add (x : Dbl) : fin 0 + x = x := by
  cases x <;> simp

end Dbl

/-! # Claims on indoor residual spraying -/

/-! ## C11 -/

/-- C11: `getInsecticideContent` is `initialInsecticide * eval (simulation -
deployTime, het)`; with deployment at time 10, dose 50 and the linear decay
`max (0, 1 - t/100)` the content is 25 at time 60 and 0 at time 110. -/
theorem C11_getInsecticideContent (irs : IRS) (simulation : Int) (params : IRSParams) :
    irs.getInsecticideContent simulation params =
        irs.initialInsecticide *
          params.insecticideDecay (simulation - irs.deployTime) irs.insecticideDecayHet ∧
      (deployedAt 10 50).getInsecticideContent 60 linearParams = fin 25 ∧
      (deployedAt 10 50).getInsecticideContent 110 linearParams = fin 0 := by
  refine ⟨rfl, ?_, ?_⟩
  · simp [IRS.getInsecticideContent, deployedAt, linearParams, linearDecay]
    norm_num
  · simp [IRS.getInsecticideContent, deployedAt, linearParams, linearDecay]

/-! ## C12 -/

/-- C12: on the never-deployed instance (dose 0, `deployTime` never), for
every decay function with finite values, `getInsecticideContent` is 0 at
every simulation time. -/
theorem C12_never_deployed (never : Int) (het : DecayFuncHet) (params : IRSParams)
    (simulation : Int)
    (hfin : ∀ t h, (params.insecticideDecay t h).isFinite = true) :
    (IRS.neverDeployed never het).getInsecticideContent simulation params = fin 0 := by
  obtain ⟨r, hr⟩ := (Dbl.isFinite_iff _).mp (hfin (simulation - never) het)
  simp [IRS.getInsecticideContent, IRS.neverDeployed, hr]

/-- C12 with the linear decay, `never` = -1073741823, at time 60. -/
theorem C12_never_deployed_witness :
    (IRS.neverDeployed (-1073741823) { value := fin 1 }).getInsecticideContent 60 linearParams
      = fin 0 :=
  C12_never_deployed (-1073741823) { value := fin 1 } linearParams 60 (fun _ _ => rfl)

/-! ## C13 -/

theorem linearDecay_antitone (s t : Int) (h : s ≤ t) (het : DecayFuncHet) :
    le (linearDecay t het) (linearDecay s het) = true := by
  have hq : (s : ℚ) ≤ (t : ℚ) := by exact_mod_cast h
  simp only [linearDecay, le_fin_fin, decide_eq_true_eq]
  exact max_le_max (le_refl 0) (by linarith)

/-- C14, as stated, fails: under the linear decay, which is non-increasing,
an instance deployed at time 0 with dose -1 has content -1 at time 0 and -1/2
at time 50, so the later content is not below the earlier one. -/
theorem C14_counterexample :
    (∀ s t : Int, s ≤ t → ∀ het, le (linearDecay t het) (linearDecay s het) = true) ∧
      (deployedAt 0 (-1)).getInsecticideContent 0 linearParams = fin (-1) ∧
      (deployedAt 0 (-1)).getInsecticideContent 50 linearParams = fin (-1 / 2) ∧
      le ((deployedAt 0 (-1)).getInsecticideContent 50 linearParams)
        ((deployedAt 0 (-1)).getInsecticideContent 0 linearParams) = false := by
  have e0 : (deployedAt 0 (-1)).getInsecticideContent 0 linearParams = fin (-1) := by
    simp [IRS.getInsecticideContent, deployedAt, linearParams, linearDecay]
  have e50 : (deployedAt 0 (-1)).getInsecticideContent 50 linearParams = fin (-1 / 2) := by
    simp [IRS.getInsecticideContent, deployedAt, linearParams, linearDecay]
    norm_num
  refine ⟨fun s t h het => linearDecay_antitone s t h het, e0, e50, ?_⟩
  rw [e0, e50]
  simp

/-- C14, amended: for an instance whose dose is finite and not negative, a
decay function that is finite and non-increasing in elapsed time from 0 on,
and two query times `deployTime <= t1 <= t2` on the same deployment, the
content at `t2` is at most the content at `t1`. -/
theorem C14_content_non_increasing (irs : IRS) (params : IRSParams) (q : ℚ) (t1 t2 : Int)
    (hdose : irs.initialInsecticide = fin q) (hq : 0 ≤ q)
    (hfin : ∀ t : Int, 0 ≤ t →
      (params.insecticideDecay t irs.insecticideDecayHet).isFinite = true)
    (hmono : ∀ s t : Int, 0 ≤ s → s ≤ t →
      le (params.insecticideDecay t irs.insecticideDecayHet)
        (params.insecticideDecay s irs.insecticideDecayHet) = true)
    (h1 : irs.deployTime ≤ t1) (h12 : t1 ≤ t2) :
    le (irs.getInsecticideContent t2 params) (irs.getInsecticideContent t1 params) = true := by
  have hs : 0 ≤ t1 - irs.deployTime := by omega
  have hst : t1 - irs.deployTime ≤ t2 - irs.deployTime := by omega
  obtain ⟨a, ha⟩ := (Dbl.isFinite_iff _).mp (hfin (t1 - irs.deployTime) hs)
  obtain ⟨b, hb⟩ := (Dbl.isFinite_iff _).mp (hfin (t2 - irs.deployTime) (by omega))
  have hm := hmono (t1 - irs.deployTime) (t2 - irs.deployTime) hs hst
  rw [ha, hb] at hm
  have hba : b ≤ a := by simpa using hm
  simp only [IRS.getInsecticideContent, hdose, ha, hb, fin_mul_fin, le_fin_fin,
    decide_eq_true_eq]
  exact mul_le_mul_of_nonneg_left hba hq

/-- C14, amended, at the instance deployed at time 10 with dose 50 under the
linear decay, queried at times 60 and 110. -/
theorem C14_content_non_increasing_witness :
    le ((deployedAt 10 50).getInsecticideContent 110 linearParams)
      ((deployedAt 10 50).getInsecticideContent 60 linearParams) = true :=
  C14_content_non_increasing (deployedAt 10 50) linearParams 50 60 110 rfl (by norm_num)
    (fun _ _ => rfl)
    (fun s t _ h => linearDecay_antitone s t h (deployedAt 10 50).insecticideDecayHet)
    (by simp [deployedAt]) (by norm_num)

/-! ## C15 -/

/-- C15: `byProtection (x) = x * proportionProtected + proportionUnprotected`
for every `x`; so `byProtection (1) = proportionProtected +
proportionUnprotected`, and, `proportionProtected` being finite,
`byProtection (0) = proportionUnprotected`. -/
theorem C15_byProtection (p : IRSAnophelesParams) (x : Dbl) :
    p.byProtection x = x * p.proportionProtected + p.proportionUnprotected ∧
      p.byProtection (fin 1) = p.proportionProtected + p.proportionUnprotected ∧
      (p.proportionProtected.isFinite = true →
        p.byProtection (fin 0) = p.proportionUnprotected) := by
  refine ⟨rfl, ?_, ?_⟩
  · simp [IRSAnophelesParams.byProtection, Dbl.one_mul]
  · intro hfin
    obtain ⟨a, ha⟩ := (Dbl.isFinite_iff _).mp hfin
    simp [IRSAnophelesParams.byProtection, ha, Dbl.fin_zero_add]

/-- C15 with three quarters of the population protected: `byProtection (0)`
is the unprotected quarter. -/
theorem C15_byProtection_witness :
    (IRSAnophelesParams.mk (fin (3 / 4)) (fin (1 / 4))).byProtection (fin 0) = fin (1 / 4) :=
  (C15_byProtection (IRSAnophelesParams.mk (fin (3 / 4)) (fin (1 / 4))) (fin 0)).2.2 rfl

/-! ## C16 -/

/-- C16: checkpointing an `IRS` instance appends exactly three fields to the
stream, in the order deployment time, sampled dose, heterogeneity token;
reading them back in that order, into any instance, gives an instance equal
to the original and leaves the rest of the stream; so
`getInsecticideContent` on the restored instance equals that on the
original at every time and for every parameterization. -/
theorem C16_checkpoint_roundtrip (irs other : IRS) (stream rest : List CheckpointField) :
    irs.checkpointWrite stream =
        stream ++ [CheckpointField.timeStep irs.deployTime,
          CheckpointField.double irs.initialInsecticide,
          CheckpointField.decayFuncHet irs.insecticideDecayHet] ∧
      other.checkpointRead (irs.checkpointWrite [] ++ rest) = some (irs, rest) ∧
      ∀ restored tail, other.checkpointRead (irs.checkpointWrite [] ++ rest)
          = some (restored, tail) →
        restored.deployTime = irs.deployTime ∧
          restored.initialInsecticide = irs.initialInsecticide ∧
          restored.insecticideDecayHet = irs.insecticideDecayHet ∧
          ∀ (simulation : Int) (params : IRSParams),
            restored.getInsecticideContent simulation params =
              irs.getInsecticideContent simulation params := by
  have hread : other.checkpointRead (irs.checkpointWrite [] ++ rest) = some (irs, rest) := rfl
  refine ⟨rfl, hread, ?_⟩
  intro restored tail h
  rw [hread] at h
  obtain ⟨rfl, rfl⟩ := Prod.mk.inj (Option.some.inj h)
  exact ⟨rfl, rfl, rfl, fun _ _ => rfl⟩

/-! # Claims on the averaging and the phase scan -/

/-! ## C17 -/

/-- C18, as stated, fails: in binary64 the loop condition still holds at the
366th angle of the scan, `3.1415926535897722`, which lies beyond every one of
the 365 offsets `-M_PI + n * (2 * M_PI / 365)`, `n < 365`; and on an observed
curve of NaN entries no distance is below the initial minimum, so `findAngle`
returns its initial `0.0`, which is none of the angles it scanned. -/
theorem C18_counterexample :
    Binary64.scanAngle 365 = fin (7074237752028393 / 2251799813685248) ∧
      lt (Binary64.scanAngle 365) (fin M_PI) = true ∧
      (∀ n : Nat, n < 365 →
        -M_PI + (n : ℚ) * (2 * M_PI / 365) < 7074237752028393 / 2251799813685248) ∧
      Binary64.findAngle flatExt (fin 0) [fin 0] (fun _ => nan) = fin 0 ∧
      (∀ n, n < 366 → Binary64.scanAngle n ≠ fin 0) := by
  refine ⟨Binary64.scan_passes.2.2, (Binary64.scan_passes.1 365 (by omega)).1, ?_, ?_,
    fun n hn => (Binary64.scan_passes.1 n hn).2⟩
  · intro n hn
    have h1 : (n : ℚ) ≤ 364 := by exact_mod_cast Nat.le_of_lt_succ hn
    have h2 : (0 : ℚ) < 2 * M_PI / 365 := by norm_num [M_PI]
    have h3 : (n : ℚ) * (2 * M_PI / 365) ≤ 364 * (2 * M_PI / 365) :=
      mul_le_mul_of_nonneg_right h1 h2.le
    have h4 : -M_PI + 364 * (2 * M_PI / 365) < 7074237752028393 / 2251799813685248 := by
      norm_num [M_PI]
    linarith
  · rcases Binary64.findAngle_scan flatExt (fin 0) [fin 0] (fun _ => nan)
      with ⟨h, _⟩ | ⟨m, _, _, hfin, _, _⟩
    · exact h
    · have hd : Binary64.scanDistance flatExt (fin 0) [fin 0] (fun _ => nan) m = nan :=
        Binary64.nan_distance
      rw [hd] at hfin
      simp at hfin

/-- C18, amended: in binary64 `findAngle` scans 366 angles, `-M_PI` and then
each the rounded sum of the one before and `delta = 2 * M_PI / 365.0` (the
loop condition `angle < M_PI` holds at the first 366 and fails at the next;
every iteration allowance from 367 on gives the same result). When none of
the 366 L1 distances is below `+inf`, it returns `0.0`. Otherwise it returns a
scanned angle whose distance is below `+inf`, with no scanned distance below
it, and with every earlier distance above it or NaN: the first angle of least
distance. -/
theorem C18_findAngle_scan (ext : Externals) (base : Dbl) (FC : List Dbl) (sim : Nat → Dbl) :
    (∀ n, n < 366 → lt (Binary64.scanAngle n) (fin M_PI) = true) ∧
      lt (Binary64.scanAngle 366) (fin M_PI) = false ∧
      (∀ k, Binary64.findAngleLoop ext base FC sim Binary64.findAngleDelta (367 + k)
          (-(fin M_PI)) pinf (fin 0) = Binary64.findAngle ext base FC sim) ∧
      ((∀ n, n < 366 → lt (Binary64.scanDistance ext base FC sim n) pinf = false) →
        Binary64.findAngle ext base FC sim = fin 0) ∧
      ((∃ n, n < 366 ∧ lt (Binary64.scanDistance ext base FC sim n) pinf = true) →
        ∃ m, m < 366 ∧ Binary64.findAngle ext base FC sim = Binary64.scanAngle m ∧
          lt (Binary64.scanDistance ext base FC sim m) pinf = true ∧
          (∀ n, n < 366 →
            lt (Binary64.scanDistance ext base FC sim n)
              (Binary64.scanDistance ext base FC sim m) = false) ∧
          (∀ n, n < m →
            lt (Binary64.scanDistance ext base FC sim m)
                (Binary64.scanDistance ext base FC sim n) = true ∨
              Binary64.scanDistance ext base FC sim n = nan)) := by
  refine ⟨fun n hn => (Binary64.scan_passes.1 n hn).1, Binary64.scan_passes.2.1,
    Binary64.findAngle_allowance ext base FC sim, ?_, ?_⟩
  · intro hnone
    rcases Binary64.findAngle_scan ext base FC sim with ⟨h, _⟩ | ⟨m, hm, _, hfin, _, _⟩
    · exact h
    · rw [hnone m hm] at hfin
      simp at hfin
  · rintro ⟨n, hn, hfin⟩
    rcases Binary64.findAngle_scan ext base FC sim with ⟨_, hnone⟩ | h
    · rw [hnone n hn] at hfin
      simp at hfin
    · exact h

/-- C18 on the flat curves of the examples, where every distance is 0 and the
first angle `-M_PI` is returned. -/
theorem C18_findAngle_scan_witness :
    ∃ m, m < 366 ∧
      Binary64.findAngle flatExt (fin 0) [fin 0] (fun _ => fin 1) = Binary64.scanAngle m ∧
      lt (Binary64.scanDistance flatExt (fin 0) [fin 0] (fun _ => fin 1) m) pinf = true ∧
      (∀ n, n < 366 →
        lt (Binary64.scanDistance flatExt (fin 0) [fin 0] (fun _ => fin 1) n)
          (Binary64.scanDistance flatExt (fin 0) [fin 0] (fun _ => fin 1) m) = false) ∧
      (∀ n, n < m →
        lt (Binary64.scanDistance flatExt (fin 0) [fin 0] (fun _ => fin 1) m)
            (Binary64.scanDistance flatExt (fin 0) [fin 0] (fun _ => fin 1) n) = true ∨
          Binary64.scanDistance flatExt (fin 0) [fin 0] (fun _ => fin 1) n = nan) :=
  (C18_findAngle_scan flatExt (fin 0) [fin 0] (fun _ => fin 1)).2.2.2.2
    ⟨0, by omega, by
      have hd : Binary64.scanDistance flatExt (fin 0) [fin 0] (fun _ => fin 1) 0 = fin 0 :=
        Binary64.flat_distance_zero
      rw [hd]
      rfl⟩

/-! ## C19 -/

/-- C19: after an `initIterate` call that completes the fitting step, on
every day `mosqEmergeRate[d]` is the curve synthesized from `FSCoeffic` at
`-shiftAngle'`, scaled by `scaleFactor' * initNv0FromSv`, with `shiftAngle'`
and `scaleFactor'` the values after the update; and the transmission
collaborator has received exactly one more call, `initIterateScale
(scaleFactor')`. -/
theorem C19_initIterate_resynthesis (ext : Externals) (st : FixedEmergence)
    (tr : MosqTransmission)
    (h1 : gt st.factor (fin (1 / 1000000)) = true) (h2 : lt st.factor (fin 1000000) = true) :
    ∃ st' tr' b, st.initIterate ext tr = Except.ok (st', tr', b) ∧
      (∀ d, st'.mosqEmergeRate d =
        ext.expIDFT st.FSCoeffic (-st'.shiftAngle) d * (st'.scaleFactor * st.initNv0FromSv)) ∧
      st'.FSCoeffic = st.FSCoeffic ∧ st'.initNv0FromSv = st.initNv0FromSv ∧
      tr'.initIterateScaleCalls = tr.initIterateScaleCalls ++ [st'.scaleFactor] ∧
      tr'.initStateCalls = tr.initStateCalls :=
  ⟨_, _, _, initIterate_fit ext st tr h1 h2, fun _ => rfl, rfl, rfl, rfl, rfl⟩

/-- C19 at the flat state with target 1 and observed buffer 2. -/
theorem C19_initIterate_resynthesis_witness :
    ∃ st' tr' b, (flatState 1 2).initIterate flatExt noCalls = Except.ok (st', tr', b) ∧
      (∀ d, st'.mosqEmergeRate d =
        flatExt.expIDFT (flatState 1 2).FSCoeffic (-st'.shiftAngle) d *
          (st'.scaleFactor * (flatState 1 2).initNv0FromSv)) ∧
      st'.FSCoeffic = (flatState 1 2).FSCoeffic ∧
      st'.initNv0FromSv = (flatState 1 2).initNv0FromSv ∧
      tr'.initIterateScaleCalls = noCalls.initIterateScaleCalls ++ [st'.scaleFactor] ∧
      tr'.initStateCalls = noCalls.initStateCalls :=
  C19_initIterate_resynthesis flatExt (flatState 1 2) noCalls
    (by rw [flat_factor 1 2 (by norm_num)]; simp; norm_num)
    (by rw [flat_factor 1 2 (by norm_num)]; simp; norm_num)

/-! # Claims on parasite genotypes -/

/-! ## C20 -/

/-- C20 at a failing input: the locus with the initial frequencies 0.182,
0.664, 0.05, 0.104 passes the validation of the constructor (their sum is
computed as `1.0000000000000002`), the first frequency receives the residual
`1.0 - cum_p`, and the stored frequencies then add up to
`0.9999999999999999`, not to 1; `Genotype::init` on a scenario with this one
locus throws "expected probability sum to be 1.0", reporting that sum. A
locus with a NaN frequency passes the validation as well, is stored with a NaN
first frequency, and passes the check of `Genotype::init` too. -/
theorem C20_stored_sum_below_one :
    Binary64.storedFrequencies fourAlleleLocus =
        some [fin (3278620528725717 / 18014398509481984),
          fin (5980780305148019 / 9007199254740992),
          fin (3602879701896397 / 72057594037927936),
          fin (7493989779944505 / 72057594037927936)] ∧
      Binary64.sumList [fin (3278620528725717 / 18014398509481984),
          fin (5980780305148019 / 9007199254740992),
          fin (3602879701896397 / 72057594037927936),
          fin (7493989779944505 / 72057594037927936)]
        = fin (9007199254740991 / 9007199254740992) ∧
      lt (fin (9007199254740991 / 9007199254740992)) (fin 1) = true ∧
      InitError.reportedSum (Binary64.Genotype.init GT.initial fourAlleleScenario).2
        = some (fin (9007199254740991 / 9007199254740992)) ∧
      Binary64.storedFrequencies nanLocus = some [nan, fin (1 / 2)] ∧
      (Binary64.Genotype.init GT.initial nanScenario).2.isNone = true := by
  decide!

/-! ## C21 -/

/-- C21, as stated, fails: from the globals as defined, `Genotype::init` on a
scenario with the sampling mode "other" raises the sampling-mode error with no
genotype list and no table built, but `current_mode` has already been
switched from `SAMPLE_FIRST` to `SAMPLE_INITIAL`; in the state left behind
`sampleGenotype` fails its assertion on every sample. -/
theorem C21_counterexample :
    (Genotype.init GT.initial (oneLocusScenario "other")).2 = some InitError.samplingMode ∧
      (Genotype.init GT.initial (oneLocusScenario "other")).1.genotypes = [] ∧
      (Genotype.init GT.initial (oneLocusScenario "other")).1.cum_initial_freqs = [] ∧
      GT.initial.current_mode = SampleMode.SAMPLE_FIRST ∧
      (Genotype.init GT.initial (oneLocusScenario "other")).1.current_mode
        = SampleMode.SAMPLE_INITIAL ∧
      ∀ sample, Genotype.sampleGenotype (Genotype.init GT.initial (oneLocusScenario "other")).1
        sample = Except.error SampleError.noUpperBound := by
  have h : Genotype.init GT.initial (oneLocusScenario "other") =
      ({ GT.initial with current_mode := SampleMode.SAMPLE_INITIAL },
        some InitError.samplingMode) := by
    simp [Genotype.init, oneLocusScenario]
  rw [h]
  exact ⟨rfl, rfl, rfl, rfl, rfl, fun _ => rfl⟩

/-- C21, amended: when the scenario declares a genotypology whose sampling
mode is neither "initial" nor "tracking", `Genotype::init` raises the
sampling-mode error before any genotype list or cumulative table is built:
the genotype list, the table, the allele codes and `inerv_mode` are as before
the call, and the one global changed is `current_mode`, already set to
`SAMPLE_INITIAL`. -/
theorem C21_init_unsupported_mode (g : GT) (genotypology : ParasiteGenotypology)
    (h1 : genotypology.samplingMode ≠ "initial")
    (h2 : genotypology.samplingMode ≠ "tracking") :
    Genotype.init g { getParasiteGenotypology := some genotypology } =
      ({ g with current_mode := SampleMode.SAMPLE_INITIAL }, some InitError.samplingMode) := by
  simp [Genotype.init, h1, h2]

/-- C21, amended, on the scenario with the sampling mode "other". -/
theorem C21_init_unsupported_mode_witness :
    Genotype.init GT.initial
        { getParasiteGenotypology :=
            some { samplingMode := "other", firstLocus := twoAlleleLocus, otherLoci := [] } } =
      ({ GT.initial with current_mode := SampleMode.SAMPLE_INITIAL },
        some InitError.samplingMode) :=
  C21_init_unsupported_mode GT.initial
    { samplingMode := "other", firstLocus := twoAlleleLocus, otherLoci := [] }
    (by decide) (by decide)

/-! ## Facts on sums of finite frequencies -/

theorem Dbl.toRat_fin (q : ℚ) : (fin q).toRat = q := rfl

theorem Dbl.eq_fin_toRat {x : Dbl} (h : x.isFinite = true) : x = fin x.toRat := by
  cases x <;> simp [isFinite] at h
  rfl

/-- The running sum of `Genotype::init` over finite frequencies. -/
theorem foldl_init_freq_fin (l : List AlleleComb)
    (h : ∀ a, a ∈ l → a.init_freq.isFinite = true) (c : ℚ) :
    l.foldl (fun cum_p a => cum_p + a.init_freq) (fin c) = fin (c + freqSum l) := by
  induction l generalizing c with
  | nil => simp [freqSum]
  | cons a rest ih =>
    rw [List.foldl_cons, Dbl.eq_fin_toRat (h a (List.mem_cons_self a rest)), fin_add_fin,
      ih (fun b hb => h b (List.mem_cons_of_mem a hb))]
    simp [freqSum, Dbl.toRat_fin, add_assoc]

theorem freqSum_eq (l : List AlleleComb) :
    freqSum l = ((l.map AlleleComb.init_freq).map Dbl.toRat).sum := by
  simp [freqSum, List.map_map, Function.comp_def]

/-! ## C22 -/

/-- C22 at a failing input: the three loci (0.2, 0.8), (0.3, 0.7) and
(0.6, 0.4) each pass the validation of the constructor with stored
frequencies that add up to exactly 1, yet the eight products add up to
`0.9999999999999999` and `Genotype::init` throws "expected probability sum to
be 1.0". -/
theorem C22_valid_loci_rejected :
    Binary64.storedFrequencies (pairLocus "one" (2 / 10) (8 / 10))
        = some [Binary64.lit (2 / 10), Binary64.lit (8 / 10)] ∧
      Binary64.storedFrequencies (pairLocus "two" (3 / 10) (7 / 10))
        = some [Binary64.lit (3 / 10), Binary64.lit (7 / 10)] ∧
      Binary64.storedFrequencies (pairLocus "three" (6 / 10) (4 / 10))
        = some [Binary64.lit (6 / 10), Binary64.lit (4 / 10)] ∧
      Binary64.sumList [Binary64.lit (2 / 10), Binary64.lit (8 / 10)] = fin 1 ∧
      Binary64.sumList [Binary64.lit (3 / 10), Binary64.lit (7 / 10)] = fin 1 ∧
      Binary64.sumList [Binary64.lit (6 / 10), Binary64.lit (4 / 10)] = fin 1 ∧
      (Binary64.Genotype.init GT.initial threeLociScenario).1.genotypes.length = 8 ∧
      InitError.reportedSum (Binary64.Genotype.init GT.initial threeLociScenario).2
        = some (fin (9007199254740991 / 9007199254740992)) := by
  decide!

/-! ## Facts on the cumulative table and its lookup -/

/-- An entry of the map after an insertion is the inserted one or was there
before. -/
theorem mem_mapInsert (k : Dbl) (v : Nat) (T : List (Dbl × Nat)) (e : Dbl × Nat)
    (h : e ∈ mapInsert k v T) : e = (k, v) ∨ e ∈ T := by
  induction T with
  | nil =>
    simp only [mapInsert, List.mem_singleton] at h
    exact Or.inl h
  | cons p rest ih =>
    obtain ⟨k', v'⟩ := p
    simp only [mapInsert] at h
    split_ifs at h with h1 h2
    · rcases List.mem_cons.mp h with h | h
      · exact Or.inl h
      · exact Or.inr h
    · rcases List.mem_cons.mp h with h | h
      · exact Or.inr (h ▸ List.mem_cons_self _ _)
      · rcases ih h with h | h
        · exact Or.inl h
        · exact Or.inr (List.mem_cons_of_mem _ h)
    · exact Or.inr h

/-- Inserting a key that is no less than every key of the map: the lookup of
`x` finds what it found before, or else the new entry if its key is above
`x`. -/
theorem upperBound_mapInsert (x c : ℚ) (v : Nat) (T : List (Dbl × Nat))
    (hT : ∀ e, e ∈ T → ∃ q, e.1 = fin q ∧ q ≤ c) :
    upperBound (fin x) (mapInsert (fin c) v T) =
      match upperBound (fin x) T with
      | some e => some e
      | none => if x < c then some (fin c, v) else none := by
  induction T with
  | nil => simp [mapInsert, upperBound]
  | cons p rest ih =>
    obtain ⟨k', v'⟩ := p
    obtain ⟨q, hq, hqc⟩ := hT (k', v') (List.mem_cons_self _ _)
    simp only at hq
    subst hq
    have ih' := ih (fun e he => hT e (List.mem_cons_of_mem _ he))
    simp only [mapInsert, lt_fin_fin, decide_eq_true_eq, not_lt.mpr hqc, if_false]
    by_cases hlt : q < c
    · simp only [hlt, if_true, upperBound, lt_fin_fin, decide_eq_true_eq]
      by_cases hx : x < q
      · simp only [hx, if_true]
      · simp only [hx, if_false]
        exact ih'
    · have hqeq : q = c := le_antisymm hqc (not_lt.mp hlt)
      subst hqeq
      simp only [hlt, if_false, upperBound, lt_fin_fin, decide_eq_true_eq]
      by_cases hx : x < q
      · simp only [hx, if_true]
      · simp only [hx, if_false]
        cases hr : upperBound (fin x) rest with
        | none => rfl
        | some e => rfl

/-- An entry the lookup finds is still found after the loop of
`Genotype::init` has added entries of non-negative frequencies. -/
theorem upperBound_cumTable_some (x : ℚ) (l : List AlleleComb) (i : Nat) (c : ℚ)
    (T : List (Dbl × Nat)) (e : Dbl × Nat)
    (hl : ∀ a, a ∈ l → a.init_freq.isFinite = true ∧ 0 ≤ a.init_freq.toRat)
    (hT : ∀ e, e ∈ T → ∃ q, e.1 = fin q ∧ q ≤ c)
    (he : upperBound (fin x) T = some e) :
    upperBound (fin x) (cumTable l i (fin c) T) = some e := by
  induction l generalizing i c T with
  | nil => exact he
  | cons a rest ih =>
    obtain ⟨hfa, hna⟩ := hl a (List.mem_cons_self _ _)
    have hT' : ∀ e, e ∈ T → ∃ q, e.1 = fin q ∧ q ≤ c + a.init_freq.toRat :=
      fun e he => (hT e he).imp (fun q hq => ⟨hq.1, by linarith [hq.2]⟩)
    rw [cumTable, Dbl.eq_fin_toRat hfa, fin_add_fin]
    apply ih (i + 1) (c + a.init_freq.toRat) _ (fun b hb => hl b (List.mem_cons_of_mem _ hb))
    · intro e he
      rcases mem_mapInsert _ _ _ _ he with h | h
      · exact ⟨_, by rw [h], le_refl _⟩
      · exact hT' e h
    · rw [upperBound_mapInsert x _ i T hT', he]

/-- The lookup in the table the loop of `Genotype::init` builds from
non-negative frequencies: a sample `x` from the running sum `c` on and below
the total finds the first genotype whose cumulative frequency exceeds `x`. -/
theorem upperBound_cumTable (x : ℚ) (l : List AlleleComb) (i : Nat) (c : ℚ)
    (T : List (Dbl × Nat))
    (hl : ∀ a, a ∈ l → a.init_freq.isFinite = true ∧ 0 ≤ a.init_freq.toRat)
    (hT : ∀ e, e ∈ T → ∃ q, e.1 = fin q ∧ q ≤ c)
    (hnone : upperBound (fin x) T = none) (hcx : c ≤ x) (hx : x < c + freqSum l) :
    ∃ m, m < l.length ∧
      upperBound (fin x) (cumTable l i (fin c) T)
        = some (fin (c + freqSum (l.take (m + 1))), i + m) ∧
      c + freqSum (l.take m) ≤ x ∧ x < c + freqSum (l.take (m + 1)) := by
  induction l generalizing i c T with
  | nil =>
    simp only [freqSum, List.map_nil, List.sum_nil, add_zero] at hx
    exact absurd hx (not_lt.mpr hcx)
  | cons a rest ih =>
    obtain ⟨hfa, hna⟩ := hl a (List.mem_cons_self _ _)
    have hT' : ∀ e, e ∈ T → ∃ q, e.1 = fin q ∧ q ≤ c + a.init_freq.toRat :=
      fun e he => (hT e he).imp (fun q hq => ⟨hq.1, by linarith [hq.2]⟩)
    have hT2 : ∀ e, e ∈ mapInsert (fin (c + a.init_freq.toRat)) i T →
        ∃ q, e.1 = fin q ∧ q ≤ c + a.init_freq.toRat := by
      intro e he
      rcases mem_mapInsert _ _ _ _ he with h | h
      · exact ⟨_, by rw [h], le_refl _⟩
      · exact hT' e h
    have hins := upperBound_mapInsert x (c + a.init_freq.toRat) i T hT'
    rw [hnone] at hins
    have hcons : freqSum (a :: rest) = a.init_freq.toRat + freqSum rest := by
      simp [freqSum]
    by_cases hlt : x < c + a.init_freq.toRat
    · refine ⟨0, by simp, ?_, ?_, ?_⟩
      · rw [cumTable, Dbl.eq_fin_toRat hfa, fin_add_fin]
        rw [upperBound_cumTable_some x rest (i + 1) _ _ (fin (c + a.init_freq.toRat), i)
          (fun b hb => hl b (List.mem_cons_of_mem _ hb)) hT2
          (by rw [hins]; simp only [hlt, if_true])]
        simp [freqSum]
      · simpa [freqSum] using hcx
      · simpa [freqSum] using hlt
    · simp only [hlt, if_false] at hins
      obtain ⟨m, hm, hub, hlo, hhi⟩ :=
        ih (i + 1) (c + a.init_freq.toRat) _ (fun b hb => hl b (List.mem_cons_of_mem _ hb)) hT2
          hins (not_lt.mp hlt) (by rw [hcons] at hx; linarith)
      refine ⟨m + 1, by simp [hm], ?_, ?_, ?_⟩
      · rw [cumTable, Dbl.eq_fin_toRat hfa, fin_add_fin, hub]
        simp [freqSum, add_assoc, add_comm, add_left_comm]
      · have : freqSum ((a :: rest).take (m + 1)) = a.init_freq.toRat + freqSum (rest.take m) := by
          simp [freqSum]
        rw [this]; linarith
      · have : freqSum ((a :: rest).take (m + 1 + 1))
            = a.init_freq.toRat + freqSum (rest.take (m + 1)) := by
          simp [freqSum]
        rw [this]; linarith

/-- After the insertion of a finite key into a map of finite keys, the key is
in the map. -/
theorem mapInsert_key (c : ℚ) (v : Nat) (T : List (Dbl × Nat))
    (hT : ∀ e, e ∈ T → e.1.isFinite = true) : ∃ w, (fin c, w) ∈ mapInsert (fin c) v T := by
  induction T with
  | nil => exact ⟨v, by simp [mapInsert]⟩
  | cons p rest ih =>
    obtain ⟨k', v'⟩ := p
    have hk := Dbl.eq_fin_toRat (hT (k', v') (List.mem_cons_self _ _))
    simp only at hk
    rw [hk]
    simp only [mapInsert, lt_fin_fin, decide_eq_true_eq]
    split_ifs with h1 h2
    · exact ⟨v, List.mem_cons_self _ _⟩
    · obtain ⟨w, hw⟩ := ih (fun e he => hT e (List.mem_cons_of_mem _ he))
      exact ⟨w, List.mem_cons_of_mem _ hw⟩
    · have : c = k'.toRat := le_antisymm (not_lt.mp h2) (not_lt.mp h1)
      exact ⟨v', by rw [this]; exact List.mem_cons_self _ _⟩

/-- An entry of the table after the loop of `Genotype::init` was there before
or has the index of a genotype of the loop. -/
theorem mem_cumTable (l : List AlleleComb) (i : Nat) (c : Dbl) (T : List (Dbl × Nat))
    (e : Dbl × Nat) (h : e ∈ cumTable l i c T) : e ∈ T ∨ (i ≤ e.2 ∧ e.2 < i + l.length) := by
  induction l generalizing i c T with
  | nil => exact Or.inl h
  | cons a rest ih =>
    rcases ih _ _ _ h with h1 | h1
    · rcases mem_mapInsert _ _ _ _ h1 with h2 | h2
      · refine Or.inr ?_
        rw [h2]
        simp
      · exact Or.inl h2
    · refine Or.inr ?_
      simp only [List.length_cons]
      omega

/-- After the loop of `Genotype::init` over finite frequencies, from a table
of finite keys that has the running sum as a key, the table has the total as
a key. -/
theorem cumTable_total_key (l : List AlleleComb) (i : Nat) (c : ℚ) (T : List (Dbl × Nat))
    (hl : ∀ a, a ∈ l → a.init_freq.isFinite = true)
    (hT : ∀ e, e ∈ T → e.1.isFinite = true) (hc : ∃ w, (fin c, w) ∈ T) :
    ∃ w, (fin (c + freqSum l), w) ∈ cumTable l i (fin c) T := by
  induction l generalizing i c T with
  | nil => simpa [freqSum, cumTable] using hc
  | cons a rest ih =>
    have hfa := hl a (List.mem_cons_self _ _)
    rw [cumTable, Dbl.eq_fin_toRat hfa, fin_add_fin]
    have hcons : c + freqSum (a :: rest) = c + a.init_freq.toRat + freqSum rest := by
      simp [freqSum, add_assoc]
    rw [hcons]
    apply ih (i + 1) (c + a.init_freq.toRat) _ (fun b hb => hl b (List.mem_cons_of_mem _ hb))
    · intro e he
      rcases mem_mapInsert _ _ _ _ he with h | h
      · rw [h]
        rfl
      · exact hT e h
    · exact mapInsert_key _ _ _ hT

/-- The entry a lookup finds is in the map. -/
theorem upperBound_mem (x : Dbl) (T : List (Dbl × Nat)) (e : Dbl × Nat)
    (h : upperBound x T = some e) : e ∈ T := by
  induction T with
  | nil => simp [upperBound] at h
  | cons p rest ih =>
    obtain ⟨k', v'⟩ := p
    simp only [upperBound] at h
    split_ifs at h with h1
    · simp only [Option.some.injEq] at h
      exact h ▸ List.mem_cons_self _ _
    · exact List.mem_cons_of_mem _ (ih h)

/-- A lookup in a map with a key above `x` finds an entry. -/
theorem upperBound_of_mem (x : Dbl) (T : List (Dbl × Nat)) (e : Dbl × Nat) (he : e ∈ T)
    (hlt : lt x e.1 = true) : ∃ r, upperBound x T = some r := by
  induction T with
  | nil => simp at he
  | cons p rest ih =>
    obtain ⟨k', v'⟩ := p
    simp only [upperBound]
    split_ifs with h1
    · exact ⟨_, rfl⟩
    · rcases List.mem_cons.mp he with h | h
      · rw [h] at hlt
        exact absurd hlt h1
      · exact ih h

/-- A run of the loop of `Genotype::init` in which no assertion fails ends
with the running sum and the table of `cumTable`. -/
theorem cumInitialFreqs_some (l : List AlleleComb) (i : Nat) (c : Dbl) (t : List (Dbl × Nat))
    (cum_p : Dbl) (table : List (Dbl × Nat)) (h : cumInitialFreqs l i c t = some (cum_p, table)) :
    cum_p = l.foldl (fun cum_p a => cum_p + a.init_freq) c ∧ table = cumTable l i c t := by
  induction l generalizing i c t with
  | nil =>
    simp only [cumInitialFreqs, Option.some.injEq, Prod.mk.injEq] at h
    exact ⟨h.1.symm, h.2.symm⟩
  | cons a rest ih =>
    simp only [cumInitialFreqs] at h
    split_ifs at h with hi
    rw [hi] at h
    exact ih (i + 1) _ _ h

/-- The second half of `Genotype::init` when it ends without error. -/
theorem Genotype.initTable_success (g0 g : GT) (loci : LocusSet)
    (h : Genotype.initTable g0 loci = (g, none)) :
    g.current_mode = g0.current_mode ∧
      g.cum_initial_freqs = cumTable g.genotypes 0 (fin 0) g0.cum_initial_freqs ∧
      lt (g.genotypes.foldl (fun cum_p a => cum_p + a.init_freq) (fin 0)) (fin 1) = false := by
  simp only [Genotype.initTable] at h
  cases hc : cumInitialFreqs loci.alleles 0 (fin 0) g0.cum_initial_freqs with
  | none =>
    rw [hc] at h
    simp at h
  | some p =>
    obtain ⟨cum_p, table⟩ := p
    rw [hc] at h
    obtain ⟨h1, h2⟩ := cumInitialFreqs_some _ _ _ _ _ _ hc
    simp only at h
    split_ifs at h with hchk
    · simp at h
    · simp only [Prod.mk.injEq, and_true] at h
      subst h
      simp only [Bool.or_eq_true, not_or, Bool.not_eq_true] at hchk
      exact ⟨rfl, h2, h1 ▸ hchk.1⟩

/-- The part of `Genotype::init` after the sampling mode when it ends without
error. -/
theorem Genotype.initLoci_success (g0 g : GT) (genotypology : ParasiteGenotypology)
    (h : Genotype.initLoci g0 genotypology = (g, none)) :
    g.current_mode = g0.current_mode ∧
      g.cum_initial_freqs = cumTable g.genotypes 0 (fin 0) g0.cum_initial_freqs ∧
      lt (g.genotypes.foldl (fun cum_p a => cum_p + a.init_freq) (fin 0)) (fin 1) = false := by
  simp only [Genotype.initLoci] at h
  cases h1 : LocusSet.new g0.codes genotypology.firstLocus with
  | error e =>
    rw [h1] at h
    simp at h
  | ok p =>
    obtain ⟨loci, codes⟩ := p
    rw [h1] at h
    simp only at h
    cases h2 : includeLoci genotypology.otherLoci loci codes with
    | error e =>
      rw [h2] at h
      simp at h
    | ok p2 =>
      obtain ⟨loci2, codes2⟩ := p2
      rw [h2] at h
      simp only at h
      have hs := Genotype.initTable_success _ g loci2 h
      exact hs

/-- `Genotype::init` on a scenario with a genotypology, from globals with an
empty cumulative table, when it ends without error: sampling is in the mode
`SAMPLE_INITIAL`, the table is the one the loop builds from the genotypes,
and the running sum is not below 1. -/
theorem Genotype.init_success (g0 g : GT) (genotypology : ParasiteGenotypology)
    (h0 : g0.cum_initial_freqs = [])
    (h : Genotype.init g0 { getParasiteGenotypology := some genotypology } = (g, none)) :
    g.current_mode = SampleMode.SAMPLE_INITIAL ∧
      g.cum_initial_freqs = cumTable g.genotypes 0 (fin 0) [] ∧
      lt (g.genotypes.foldl (fun cum_p a => cum_p + a.init_freq) (fin 0)) (fin 1) = false := by
  simp only [Genotype.init] at h
  split_ifs at h with hm1 hm2
  · obtain ⟨a, b, c⟩ := Genotype.initLoci_success _ g genotypology h
    exact ⟨a, by rw [b, h0], c⟩
  · obtain ⟨a, b, c⟩ := Genotype.initLoci_success _ g genotypology h
    exact ⟨a, by rw [b, h0], c⟩
  · simp at h

/-- The partial sums of non-negative frequencies do not decrease. -/
theorem freqSum_take_mono (l : List AlleleComb)
    (hl : ∀ a, a ∈ l → a.init_freq.isFinite = true ∧ 0 ≤ a.init_freq.toRat) (j k : Nat)
    (hjk : j ≤ k) : freqSum (l.take j) ≤ freqSum (l.take k) := by
  induction l generalizing j k with
  | nil => simp
  | cons a rest ih =>
    cases j with
    | zero =>
      clear hjk
      induction k with
      | zero => simp
      | succ k _ =>
        have h1 := ih (fun b hb => hl b (List.mem_cons_of_mem _ hb)) 0 k (Nat.zero_le _)
        have h2 := (hl a (List.mem_cons_self _ _)).2
        simp only [List.take_zero, freqSum, List.map_nil, List.sum_nil, List.take_succ_cons,
          List.map_cons, List.sum_cons] at h1 ⊢
        linarith
    | succ j =>
      cases k with
      | zero => omega
      | succ k =>
        have h1 := ih (fun b hb => hl b (List.mem_cons_of_mem _ hb)) j k (by omega)
        simp only [freqSum, List.take_succ_cons, List.map_cons, List.sum_cons] at h1 ⊢
        linarith

/-- The width of the interval of genotype `i` is its initial frequency. -/
theorem freqSum_take_succ (l : List AlleleComb) (i : Nat) (hi : i < l.length) :
    freqSum (l.take (i + 1)) - freqSum (l.take i) = (l.get ⟨i, hi⟩).init_freq.toRat := by
  induction l generalizing i with
  | nil => simp at hi
  | cons a rest ih =>
    cases i with
    | zero => simp [freqSum]
    | succ i =>
      have h1 := ih i (by simpa using hi)
      simp only [freqSum, List.take_succ_cons, List.map_cons, List.sum_cons, List.get_cons_succ]
        at h1 ⊢
      linarith

/-- `Genotype::init` on the scenario `skewScenario`. -/
theorem skew_init :
    (Genotype.init GT.initial skewScenario).2 = none ∧
      (Genotype.init GT.initial skewScenario).1.genotypes.map AlleleComb.init_freq =
        [fin (-1 / 2048), fin (1025 / 2048), fin (-1 / 2048), fin (1025 / 2048)] ∧
      (Genotype.init GT.initial skewScenario).1.cum_initial_freqs =
        [(fin (-1 / 2048), 0), (fin (1023 / 2048), 2), (fin (1 / 2), 1), (fin 1, 3)] ∧
      (Genotype.init GT.initial skewScenario).1.current_mode = SampleMode.SAMPLE_INITIAL := by
  simp [Genotype.init, skewScenario, Genotype.initLoci, LocusSet.new, LocusSet.collect,
    evenLocus, skewLocus, GT.initial, includeLoci, LocusSet.include, AlleleComb.cross,
    AlleleComb.single, addToFirstFreq, Genotype.initTable]
  norm_num [cumInitialFreqs, mapInsert]

/-- `Genotype::init` on the scenario `twoLociScenario`. -/
theorem twoLoci_init :
    (Genotype.init GT.initial twoLociScenario).2 = none ∧
      (Genotype.init GT.initial twoLociScenario).1.genotypes.map AlleleComb.init_freq =
        [fin (1 / 8), fin (1 / 8), fin (3 / 8), fin (3 / 8)] := by
  simp [Genotype.init, twoLociScenario, Genotype.initLoci, LocusSet.new, LocusSet.collect,
    evenLocus, twoAlleleLocus, GT.initial, includeLoci, LocusSet.include, AlleleComb.cross,
    AlleleComb.single, addToFirstFreq, Genotype.initTable]
  norm_num [cumInitialFreqs, mapInsert]

/-! ## C23 -/

end OM
